import Mathlib

/-!
SQLiteStatement: a prepared-statement wrapper

A shallow embedding of `src/gdsqlite_statement.cpp` / `.hpp`.

* Pointers (`sqlite3 *`, `sqlite3_stmt *`) are `Option Nat`: `none` is `nullptr`,
  `some h` is the non-null pointer with identity `h`.
* The wrapper object is the record `SQLiteStatement`; every member function is a
  function on `World`, the pair of the object and the database engine it talks to.
* The database engine is an external library.  It is modelled by the record `Engine`,
  whose content (live statements, their parameters, the rows they will produce, the
  result codes they will return, the error texts they will leave) is arbitrary data,
  and which logs every call made to it in `Engine.calls`.  A statement that has been
  stepped refuses bindings until it is reset, a NaN double is bound as null, and the
  error text of a connection is what the last `sqlite3_step`, `sqlite3_reset` or
  `sqlite3_finalize` on one of its statements left.
* `ERR_PRINT` / `WARN_PRINT` write to a diagnostic sink only and are not modelled.
-/

namespace GDSQLite

/-! ## Host values -/

/-- A double, carried opaquely by its 64-bit pattern: the wrapper only passes doubles on. -/
structure F64 where
  bits : Nat
  deriving DecidableEq, Repr

/-- Whether the double is a NaN: all eleven exponent bits set and a fraction that is not
zero. -/
def F64.is_nan (d : F64) : Bool :=
  decide ((d.bits / 2 ^ 52) % 2 ^ 11 = 2047 ∧ d.bits % 2 ^ 52 ≠ 0)

/-- One byte of a `PackedByteArray`. -/
abbrev Byte := Fin 256

/-- The host's dynamic value.  The constructors are the `Variant::Type` cases that
`bind_sqlite_parameter` and `marshal_current_row` distinguish; every other runtime
type is `OTHER`, tagged by its type number.  `INT` carries an `int64_t`. -/
inductive Variant where
  | NIL
  | BOOL (b : Bool)
  | INT (v : Int)
  | FLOAT (d : F64)
  | STRING (s : String)
  | STRING_NAME (s : String)
  | PACKED_BYTE_ARRAY (bytes : List Byte)
  | OTHER (type_id : Nat)
  deriving DecidableEq, Repr

/-- The host's `Dictionary`: an insertion-ordered mapping from values to values. -/
abbrev Dictionary := List (Variant × Variant)

/-- The call `Dictionary::has(key)`. -/
def Dictionary.has (d : Dictionary) (key : Variant) : Bool :=
  d.any (fun p => decide (p.1 = key))

/-- Reading `dict[key]`; a missing key reads as the null value. -/
def Dictionary.get : Dictionary → Variant → Variant
  | [], _ => Variant.NIL
  | p :: rest, key => if p.1 = key then p.2 else Dictionary.get rest key

/-- The assignment `dict[key] = value`: an existing key keeps its position and gets the new
value, a new key is appended. -/
def Dictionary.set : Dictionary → Variant → Variant → Dictionary
  | [], key, value => [(key, value)]
  | p :: rest, key, value =>
    if p.1 = key then (p.1, value) :: rest else p :: Dictionary.set rest key value

/-- Result code `SQLITE_OK` of `sqlite3.h`. -/
def SQLITE_OK : Int := 0
/-- Result code `SQLITE_MISUSE` of `sqlite3.h`. -/
def SQLITE_MISUSE : Int := 21
/-- Result code `SQLITE_RANGE` of `sqlite3.h`. -/
def SQLITE_RANGE : Int := 25
/-- Result code `SQLITE_ROW` of `sqlite3.h`: a row is available. -/
def SQLITE_ROW : Int := 100
/-- Result code `SQLITE_DONE` of `sqlite3.h`: the statement ran to completion. -/
def SQLITE_DONE : Int := 101

/-- Storage class `SQLITE_INTEGER` of `sqlite3.h`. -/
def SQLITE_INTEGER : Int := 1
/-- Storage class `SQLITE_FLOAT` of `sqlite3.h`. -/
def SQLITE_FLOAT : Int := 2
/-- Storage class `SQLITE_TEXT` of `sqlite3.h`. -/
def SQLITE_TEXT : Int := 3
/-- Storage class `SQLITE_BLOB` of `sqlite3.h`. -/
def SQLITE_BLOB : Int := 4
/-- Storage class `SQLITE_NULL` of `sqlite3.h`. -/
def SQLITE_NULL : Int := 5

/-- A value bound to a parameter slot, named after the engine call that binds it. -/
inductive SqlValue where
  | null
  | int64 (v : Int)
  | double (d : F64)
  | text (s : String)
  | blob (bytes : List Byte)
  deriving DecidableEq, Repr

/-- One parameter slot of a prepared statement: the name the engine reports for it
(sigil included; `none` when the parameter is nameless) and the value bound to it. -/
structure Param where
  name : Option String
  value : SqlValue
  deriving DecidableEq, Repr

/-- One column of the engine's current row, as the `sqlite3_column_*` accessors report it:
the storage-class code and what each typed accessor returns.  `sqlite3_column_bytes`
is the length of `blob`. -/
structure Column where
  type : Int
  int64 : Int
  double : F64
  text : String
  blob : List Byte
  deriving DecidableEq, Repr

/-- The column that is read where the row has none. -/
def missing_column : Column :=
  { type := SQLITE_NULL, int64 := 0, double := ⟨0⟩, text := "", blob := [] }

/-- A bound value as a column of a row presents it: the storage class of the value, and the
value under the accessor of that class.  The accessors of the other classes would
convert; the wrapper calls only the one of the reported class. -/
def SqlValue.to_column : SqlValue → Column
  | SqlValue.null => missing_column
  | SqlValue.int64 v => { missing_column with type := SQLITE_INTEGER, int64 := v }
  | SqlValue.double d => { missing_column with type := SQLITE_FLOAT, double := d }
  | SqlValue.text s => { missing_column with type := SQLITE_TEXT, text := s }
  | SqlValue.blob bytes => { missing_column with type := SQLITE_BLOB, blob := bytes }

/-- One cell of a row a statement will produce: a column computed from the database, or
the value that is bound to the statement's slot `idx` (1-based) when the row is
produced, as in `SELECT ?1`. -/
inductive Cell where
  | value (c : Column)
  | parameter (idx : Nat)
  deriving DecidableEq, Repr

/-- The column a cell gives, for the parameter slots as they are bound. -/
def Cell.shown (ps : List Param) : Cell → Column
  | Cell.value c => c
  | Cell.parameter idx =>
    match (if idx = 0 then none else ps[idx - 1]?) with
    | some p => p.value.to_column
    | none => missing_column

/-- What one future call of `sqlite3_step` does: the result code it returns, the row it
makes current, and the error text it leaves on the statement's connection. -/
structure StepOutcome where
  rc : Int
  row : List Cell
  errmsg : String
  deriving DecidableEq, Repr

/-- The engine's side of one live prepared statement: the connection it was prepared on,
its parameter slots, the names of its result columns, the outcomes of its future steps,
its current row, whether it has been stepped since it was prepared or last reset, and
what `sqlite3_reset` and `sqlite3_finalize` will return and leave as error text. -/
structure StmtData where
  db : Nat
  params : List Param
  column_names : List String
  script : List StepOutcome
  current : List Column
  busy : Bool
  reset_rc : Int
  reset_errmsg : String
  finalize_rc : Int
  finalize_errmsg : String
  deriving DecidableEq, Repr

/-- The outcome of a step of a statement that has nothing left to do: completion. -/
def done_outcome : StepOutcome :=
  { rc := SQLITE_DONE, row := [], errmsg := "no more rows available" }

/-- A call made to the engine, with its pointer argument as passed. -/
inductive EngineCall where
  | finalize (stmt : Option Nat)
  | errmsg (db : Option Nat)
  | column_count (stmt : Option Nat)
  | column_name (stmt : Option Nat) (i : Int)
  | column_type (stmt : Option Nat) (i : Int)
  | column_int64 (stmt : Option Nat) (i : Int)
  | column_double (stmt : Option Nat) (i : Int)
  | column_text (stmt : Option Nat) (i : Int)
  | column_bytes (stmt : Option Nat) (i : Int)
  | column_blob (stmt : Option Nat) (i : Int)
  | bind_null (stmt : Option Nat) (idx : Int)
  | bind_int64 (stmt : Option Nat) (idx : Int) (v : Int)
  | bind_double (stmt : Option Nat) (idx : Int) (d : F64)
  | bind_text (stmt : Option Nat) (idx : Int) (s : String)
  | bind_blob64 (stmt : Option Nat) (idx : Int) (bytes : List Byte)
  | bind_parameter_count (stmt : Option Nat)
  | bind_parameter_name (stmt : Option Nat) (idx : Int)
  | clear_bindings (stmt : Option Nat)
  | reset (stmt : Option Nat)
  | step (stmt : Option Nat)
  deriving DecidableEq, Repr

/-- The engine: its live prepared statements by handle, the current error text of each
connection, and the log of the calls made to it, oldest first. -/
structure Engine where
  stmts : List (Nat × StmtData)
  errmsgs : List (Nat × String)
  calls : List EngineCall
  deriving DecidableEq, Repr

/-- Appends a call to the log. -/
def Engine.log (e : Engine) (c : EngineCall) : Engine :=
  { e with calls := e.calls ++ [c] }

/-- The data of the live statement with handle `h`, if there is one. -/
def find_stmt : List (Nat × StmtData) → Nat → Option StmtData
  | [], _ => none
  | p :: rest, h => if p.1 = h then some p.2 else find_stmt rest h

/-- Applies `f` to the data of the live statement with handle `h`. -/
def update_stmts : List (Nat × StmtData) → Nat → (StmtData → StmtData) → List (Nat × StmtData)
  | [], _, _ => []
  | p :: rest, h, f =>
    if p.1 = h then (p.1, f p.2) :: update_stmts rest h f else p :: update_stmts rest h f

/-- The engine's data for a statement pointer; `none` for `nullptr` and for a handle that
is not live. -/
def Engine.data (e : Engine) (stmt : Option Nat) : Option StmtData :=
  match stmt with
  | none => none
  | some h => find_stmt e.stmts h

/-- Sets the error text of connection `db`. -/
def Engine.set_errmsg (e : Engine) (db : Nat) (m : String) : Engine :=
  { e with errmsgs := (db, m) :: e.errmsgs }

/-- Replaces the data of the live statement `h`. -/
def Engine.update (e : Engine) (h : Nat) (f : StmtData → StmtData) : Engine :=
  { e with stmts := update_stmts e.stmts h f }

/-- Sets the value of the parameter at 0-based position `k`, if there is one. -/
def set_value : List Param → Nat → SqlValue → List Param
  | [], _, _ => []
  | p :: ps, 0, v => { p with value := v } :: ps
  | p :: ps, k + 1, v => p :: set_value ps k v

/-- The parameter slots of a statement, slot 1 first; empty for `nullptr` and for a handle
that is not live. -/
def Engine.params (e : Engine) (stmt : Option Nat) : List Param :=
  match e.data stmt with
  | none => []
  | some d => d.params

/-- The value bound to the engine's 1-based slot `idx` of statement `stmt`; `none` when the
statement has no such slot. -/
def Engine.binding (e : Engine) (stmt : Option Nat) (idx : Nat) : Option SqlValue :=
  if idx = 0 then none else ((e.params stmt)[idx - 1]?).map (fun p => p.value)

/-- The engine's statement-disposal call: a live statement is destroyed, its disposal code
returned and its disposal text left on its connection; `nullptr` is a harmless no-op. -/
def sqlite3_finalize (e : Engine) (stmt : Option Nat) : Int × Engine :=
  let e1 := e.log (EngineCall.finalize stmt)
  match stmt with
  | none => (SQLITE_OK, e1)
  | some h =>
    match find_stmt e1.stmts h with
    | none => (SQLITE_MISUSE, e1)
    | some d =>
      (d.finalize_rc,
        ({ e1 with stmts := e1.stmts.filter (fun p => decide (p.1 ≠ h)) }).set_errmsg d.db
          d.finalize_errmsg)

/-- The engine's error text for a connection: what the last `sqlite3_step`,
`sqlite3_reset` or `sqlite3_finalize` on one of its statements left.  The wrapper reads
the text only right after one of these three calls. -/
def sqlite3_errmsg (e : Engine) (db : Option Nat) : String × Engine :=
  let e1 := e.log (EngineCall.errmsg db)
  match db with
  | none => ("", e1)
  | some c => ((e1.errmsgs.lookup c).getD "", e1)

/-- The number of columns of the statement's result. -/
def sqlite3_column_count (e : Engine) (stmt : Option Nat) : Int × Engine :=
  let e1 := e.log (EngineCall.column_count stmt)
  match e1.data stmt with
  | none => (0, e1)
  | some d => ((d.column_names.length : Int), e1)

/-- The name of column `i`. -/
def sqlite3_column_name (e : Engine) (stmt : Option Nat) (i : Int) : String × Engine :=
  let e1 := e.log (EngineCall.column_name stmt i)
  match e1.data stmt with
  | none => ("", e1)
  | some d => (if 0 ≤ i then d.column_names.getD i.toNat "" else "", e1)

/-- The column `i` of the current row; a column that is not there reads as a null column. -/
def Engine.column (e : Engine) (stmt : Option Nat) (i : Int) : Column :=
  let missing : Column := { type := SQLITE_NULL, int64 := 0, double := ⟨0⟩, text := "", blob := [] }
  match e.data stmt with
  | none => missing
  | some d => if 0 ≤ i then d.current.getD i.toNat missing else missing

/-- The storage class of column `i` of the current row. -/
def sqlite3_column_type (e : Engine) (stmt : Option Nat) (i : Int) : Int × Engine :=
  let e1 := e.log (EngineCall.column_type stmt i)
  ((e1.column stmt i).type, e1)

/-- The column `i` of the current row as a 64-bit integer. -/
def sqlite3_column_int64 (e : Engine) (stmt : Option Nat) (i : Int) : Int × Engine :=
  let e1 := e.log (EngineCall.column_int64 stmt i)
  ((e1.column stmt i).int64, e1)

/-- The column `i` of the current row as a double. -/
def sqlite3_column_double (e : Engine) (stmt : Option Nat) (i : Int) : F64 × Engine :=
  let e1 := e.log (EngineCall.column_double stmt i)
  ((e1.column stmt i).double, e1)

/-- The column `i` of the current row as UTF-8 text. -/
def sqlite3_column_text (e : Engine) (stmt : Option Nat) (i : Int) : String × Engine :=
  let e1 := e.log (EngineCall.column_text stmt i)
  ((e1.column stmt i).text, e1)

/-- The byte length of column `i` of the current row. -/
def sqlite3_column_bytes (e : Engine) (stmt : Option Nat) (i : Int) : Int × Engine :=
  let e1 := e.log (EngineCall.column_bytes stmt i)
  (((e1.column stmt i).blob.length : Int), e1)

/-- The bytes of column `i` of the current row. -/
def sqlite3_column_blob (e : Engine) (stmt : Option Nat) (i : Int) : List Byte × Engine :=
  let e1 := e.log (EngineCall.column_blob stmt i)
  ((e1.column stmt i).blob, e1)

/-- Common part of the `sqlite3_bind_*` calls.  A statement that has been stepped since it
was prepared or last reset refuses the binding with `SQLITE_MISUSE`, and a slot out of
range is refused with `SQLITE_RANGE`; in both cases nothing is bound.  Otherwise slot
`idx` (1-based) takes the value `v`. -/
def Engine.bind_value (e : Engine) (stmt : Option Nat) (idx : Int) (v : SqlValue) : Int × Engine :=
  match stmt with
  | none => (SQLITE_MISUSE, e)
  | some h =>
    match find_stmt e.stmts h with
    | none => (SQLITE_MISUSE, e)
    | some d =>
      if d.busy = true then (SQLITE_MISUSE, e)
      else if 1 ≤ idx ∧ idx ≤ (d.params.length : Int) then
        (SQLITE_OK, e.update h (fun d => { d with params := set_value d.params (idx.toNat - 1) v }))
      else (SQLITE_RANGE, e)

/-- Binds the null value to slot `idx`. -/
def sqlite3_bind_null (e : Engine) (stmt : Option Nat) (idx : Int) : Int × Engine :=
  (e.log (EngineCall.bind_null stmt idx)).bind_value stmt idx SqlValue.null

/-- Binds a 64-bit integer to slot `idx`. -/
def sqlite3_bind_int64 (e : Engine) (stmt : Option Nat) (idx : Int) (v : Int) : Int × Engine :=
  (e.log (EngineCall.bind_int64 stmt idx v)).bind_value stmt idx (SqlValue.int64 v)

/-- Binds a double to slot `idx`; the engine has no NaN and binds null for one. -/
def sqlite3_bind_double (e : Engine) (stmt : Option Nat) (idx : Int) (d : F64) : Int × Engine :=
  (e.log (EngineCall.bind_double stmt idx d)).bind_value stmt idx
    (if d.is_nan = true then SqlValue.null else SqlValue.double d)

/-- Binds UTF-8 text to slot `idx`; the engine copies it (`SQLITE_TRANSIENT`).  The text is
passed NUL-terminated with length -1; a host string holds no NUL character. -/
def sqlite3_bind_text (e : Engine) (stmt : Option Nat) (idx : Int) (s : String) : Int × Engine :=
  (e.log (EngineCall.bind_text stmt idx s)).bind_value stmt idx (SqlValue.text s)

/-- Binds a blob of the given bytes to slot `idx`; the engine copies it. -/
def sqlite3_bind_blob64 (e : Engine) (stmt : Option Nat) (idx : Int) (bytes : List Byte) :
    Int × Engine :=
  (e.log (EngineCall.bind_blob64 stmt idx bytes)).bind_value stmt idx (SqlValue.blob bytes)

/-- The number of parameter slots of the statement. -/
def sqlite3_bind_parameter_count (e : Engine) (stmt : Option Nat) : Int × Engine :=
  let e1 := e.log (EngineCall.bind_parameter_count stmt)
  match e1.data stmt with
  | none => (0, e1)
  | some d => ((d.params.length : Int), e1)

/-- The name of the parameter at 1-based slot `idx`, sigil included; `none` is the null
pointer the engine returns for a nameless parameter or a slot out of range. -/
def sqlite3_bind_parameter_name (e : Engine) (stmt : Option Nat) (idx : Int) :
    Option String × Engine :=
  let e1 := e.log (EngineCall.bind_parameter_name stmt idx)
  match e1.data stmt with
  | none => (none, e1)
  | some d =>
    (if 1 ≤ idx then (d.params[idx.toNat - 1]?).bind (fun p => p.name) else none, e1)

/-- Resets every binding of the statement to null. -/
def sqlite3_clear_bindings (e : Engine) (stmt : Option Nat) : Int × Engine :=
  let e1 := e.log (EngineCall.clear_bindings stmt)
  match stmt with
  | none => (SQLITE_MISUSE, e1)
  | some h =>
    (SQLITE_OK,
      e1.update h (fun d => { d with params := d.params.map (fun p => { p with value := SqlValue.null }) }))

/-- Rewinds the statement: the bindings are kept, no row is current, and the statement
accepts bindings again.  Returns the statement's reset code and leaves its reset text on
its connection. -/
def sqlite3_reset (e : Engine) (stmt : Option Nat) : Int × Engine :=
  let e1 := e.log (EngineCall.reset stmt)
  match stmt with
  | none => (SQLITE_OK, e1)
  | some h =>
    match find_stmt e1.stmts h with
    | none => (SQLITE_MISUSE, e1)
    | some d =>
      (d.reset_rc,
        (e1.update h (fun d => { d with current := [], busy := false })).set_errmsg d.db
          d.reset_errmsg)

/-- Advances the statement: the next scripted outcome is consumed, its row, with the
parameter cells as they are bound, becomes the current row, its code is returned and
its text is left on the statement's connection; a statement with nothing left to do
reports completion.  From then on the statement counts as stepped. -/
def sqlite3_step (e : Engine) (stmt : Option Nat) : Int × Engine :=
  let e1 := e.log (EngineCall.step stmt)
  match stmt with
  | none => (SQLITE_MISUSE, e1)
  | some h =>
    match find_stmt e1.stmts h with
    | none => (SQLITE_MISUSE, e1)
    | some d =>
      match d.script with
      | [] =>
        (SQLITE_DONE,
          (e1.update h (fun d => { d with current := [], busy := true })).set_errmsg d.db
            done_outcome.errmsg)
      | o :: rest =>
        (o.rc,
          (e1.update h (fun d =>
            { d with current := o.row.map (Cell.shown d.params), script := rest,
                     busy := true })).set_errmsg d.db o.errmsg)

/-! ## The wrapper object -/

/-- The enumeration `StatementStatus`. -/
inductive StatementStatus where
  | UNINITIALIZED
  | INITIALIZED
  | FINALIZED
  | CONNECTION_FINALIZED
  deriving DecidableEq, Repr

/-- The integer value of a status, as declared in the enumeration. -/
def StatementStatus.toInt : StatementStatus → Int
  | UNINITIALIZED => 0
  | INITIALIZED => 1
  | FINALIZED => 2
  | CONNECTION_FINALIZED => 3

/-- The private fields of the class, with their declared defaults. -/
structure SQLiteStatement where
  db : Option Nat := none
  stmt : Option Nat := none
  status : StatementStatus := StatementStatus.UNINITIALIZED
  has_row : Bool := false
  error_message : String := ""
  current_row : Dictionary := []
  column_names : List String := []
  deriving DecidableEq, Repr

/-- The wrapper object together with the engine it calls. -/
structure World where
  self : SQLiteStatement
  eng : Engine
  deriving DecidableEq, Repr

/-- The conversion `(int)x` of a 64-bit integer: reduction to the signed 32-bit range. -/
def toInt32 (x : Int) : Int := (x + 2 ^ 31) % 2 ^ 32 - 2 ^ 31

/-- Member `reset_row_state`. -/
def reset_row_state (self : SQLiteStatement) : SQLiteStatement :=
  { self with has_row := false, current_row := [] }

/-- Member `initialize(p_db, p_stmt)`; the trailing underscore keeps the name clear of the
Lean keyword. -/
def initialize_ (p_db p_stmt : Option Nat) (w : World) : World :=
  let s1 := { w.self with db := p_db }
  let s2 := { s1 with stmt := p_stmt }
  let s3 := { s2 with status :=
    if s2.stmt ≠ none ∧ s2.db ≠ none then StatementStatus.INITIALIZED
    else StatementStatus.UNINITIALIZED }
  let s4 := reset_row_state s3
  { w with self := { s4 with column_names := [] } }

/-- Member `check_valid`: the result and the object with the diagnosis recorded.  The
method name only goes into the printed diagnostic. -/
def check_valid (self : SQLiteStatement) : Bool × SQLiteStatement :=
  if self.status = StatementStatus.FINALIZED then
    (false, { self with error_message :=
      "Statement was explicitly finalized and can no longer be used." })
  else if self.status = StatementStatus.CONNECTION_FINALIZED ∨ self.db = none then
    (false, { self with error_message :=
      "Statement is invalid because the associated database connection is no longer available." })
  else if self.status = StatementStatus.UNINITIALIZED then
    (false, { self with error_message := "Statement is uninitialized." })
  else if self.status ≠ StatementStatus.INITIALIZED ∨ self.stmt = none then
    (false, { self with error_message := "Statement is in an invalid internal state." })
  else (true, self)

/-- Member `release_statement(p_next_status)`. -/
def release_statement (p_next_status : StatementStatus) (w : World) : World :=
  let s1 : SQLiteStatement :=
    match p_next_status with
    | StatementStatus.FINALIZED => { w.self with status := p_next_status }
    | StatementStatus.CONNECTION_FINALIZED => { w.self with status := p_next_status }
    | _ => w.self
  if s1.stmt = none then
    let s2 := reset_row_state { s1 with stmt := none }
    { w with self := { s2 with column_names := [] } }
  else
    let r := sqlite3_finalize w.eng s1.stmt
    let s2 := { s1 with stmt := none }
    let s3 := if s2.status = StatementStatus.INITIALIZED then
      { s2 with status := StatementStatus.UNINITIALIZED } else s2
    let s4 := reset_row_state s3
    let s5 := { s4 with column_names := [] }
    if s5.db ≠ none ∧ r.1 ≠ SQLITE_OK then
      let m := sqlite3_errmsg r.2 s5.db
      { self := { s5 with error_message := m.1 }, eng := m.2 }
    else { self := s5, eng := r.2 }

/-- Member `connection_finalized`. -/
def connection_finalized (w : World) : World :=
  let w1 := release_statement StatementStatus.CONNECTION_FINALIZED w
  { w1 with self := { w1.self with db := none } }

/-- Member `finalize`; the destructor does the same. -/
def finalize (w : World) : World :=
  release_statement StatementStatus.FINALIZED w

/-- The loop of `cache_column_names`, over the column indices still to visit. -/
def cache_column_names_loop : List Nat → World → World
  | [], w => w
  | i :: rest, w =>
    let r := sqlite3_column_name w.eng w.self.stmt (i : Int)
    cache_column_names_loop rest
      { self := { w.self with column_names := w.self.column_names ++ [r.1] }, eng := r.2 }

/-- Member `cache_column_names`. -/
def cache_column_names (w : World) : World :=
  if w.self.stmt = none ∨ w.self.column_names ≠ [] then w
  else
    let r := sqlite3_column_count w.eng w.self.stmt
    cache_column_names_loop (List.range r.1.toNat) { w with eng := r.2 }

/-- The value of column `i` as `marshal_current_row` decodes it, by storage class. -/
def marshal_column_value (stmt : Option Nat) (i : Int) (e : Engine) : Variant × Engine :=
  let t := sqlite3_column_type e stmt i
  if t.1 = SQLITE_INTEGER then
    let r := sqlite3_column_int64 t.2 stmt i
    (Variant.INT r.1, r.2)
  else if t.1 = SQLITE_FLOAT then
    let r := sqlite3_column_double t.2 stmt i
    (Variant.FLOAT r.1, r.2)
  else if t.1 = SQLITE_TEXT then
    let r := sqlite3_column_text t.2 stmt i
    (Variant.STRING r.1, r.2)
  else if t.1 = SQLITE_BLOB then
    let n := sqlite3_column_bytes t.2 stmt i
    if n.1 > 0 then
      let b := sqlite3_column_blob n.2 stmt i
      (Variant.PACKED_BYTE_ARRAY (b.1.take n.1.toNat), b.2)
    else (Variant.PACKED_BYTE_ARRAY [], n.2)
  else if t.1 = SQLITE_NULL then (Variant.NIL, t.2)
  else (Variant.NIL, t.2)

/-- The loop of `marshal_current_row`, over the column indices still to visit. -/
def marshal_current_row_loop (self : SQLiteStatement) :
    List Nat → Dictionary × Engine → Dictionary × Engine
  | [], acc => acc
  | i :: rest, acc =>
    let name : String × Engine :=
      if i < self.column_names.length then (self.column_names.getD i "", acc.2)
      else sqlite3_column_name acc.2 self.stmt (i : Int)
    let v := marshal_column_value self.stmt (i : Int) name.2
    marshal_current_row_loop self rest
      (Dictionary.set acc.1 (Variant.STRING_NAME name.1) v.1, v.2)

/-- Member `marshal_current_row`: the mapping built, and the engine after the reads. -/
def marshal_current_row (w : World) : Dictionary × Engine :=
  if w.self.stmt = none then ([], w.eng)
  else
    let r := sqlite3_column_count w.eng w.self.stmt
    marshal_current_row_loop w.self (List.range r.1.toNat) ([], r.2)

/-- Member `bind_sqlite_parameter(p_binding_value, p_sqlite_index)`.  The result codes of
the engine's bind calls are not looked at. -/
def bind_sqlite_parameter (p_binding_value : Variant) (p_sqlite_index : Int) (w : World) :
    Bool × World :=
  match p_binding_value with
  | Variant.NIL =>
    (true, { w with eng := (sqlite3_bind_null w.eng w.self.stmt p_sqlite_index).2 })
  | Variant.BOOL b =>
    (true, { w with eng :=
      (sqlite3_bind_int64 w.eng w.self.stmt p_sqlite_index (if b then 1 else 0)).2 })
  | Variant.INT v =>
    (true, { w with eng := (sqlite3_bind_int64 w.eng w.self.stmt p_sqlite_index v).2 })
  | Variant.FLOAT d =>
    (true, { w with eng := (sqlite3_bind_double w.eng w.self.stmt p_sqlite_index d).2 })
  | Variant.STRING s =>
    (true, { w with eng := (sqlite3_bind_text w.eng w.self.stmt p_sqlite_index s).2 })
  | Variant.STRING_NAME s =>
    (true, { w with eng := (sqlite3_bind_text w.eng w.self.stmt p_sqlite_index s).2 })
  | Variant.PACKED_BYTE_ARRAY binding =>
    if binding.length = 0 then
      (true, { w with eng := (sqlite3_bind_null w.eng w.self.stmt p_sqlite_index).2 })
    else
      (true, { w with eng :=
        (sqlite3_bind_blob64 w.eng w.self.stmt p_sqlite_index binding).2 })
  | Variant.OTHER _ =>
    (false, { w with self := { w.self with error_message :=
      "Binding a parameter of this Variant type is not supported." } })

/-- Member `bind(p_index, p_binding_value)`. -/
def bind (p_index : Int) (p_binding_value : Variant) (w : World) : Bool × World :=
  let c := check_valid w.self
  if c.1 = false then (false, { w with self := c.2 })
  else
    let n := sqlite3_bind_parameter_count w.eng c.2.stmt
    if p_index < 0 ∨ p_index ≥ n.1 then
      (false, { self := { c.2 with error_message := "Binding index is out of range." },
                eng := n.2 })
    else bind_sqlite_parameter p_binding_value (toInt32 p_index + 1) { self := c.2, eng := n.2 }

/-- The loop of `bind_all`, over the indices still to visit: stops with `false` at the first
value that cannot be bound. -/
def bind_all_loop (p_values : List Variant) : List Nat → World → Bool × World
  | [], w => (true, w)
  | i :: rest, w =>
    let r := bind_sqlite_parameter (p_values.getD i Variant.NIL) ((i : Int) + 1) w
    if r.1 = false then (false, r.2) else bind_all_loop p_values rest r.2

/-- Member `bind_all(p_values)`. -/
def bind_all (p_values : List Variant) (w : World) : Bool × World :=
  let c := check_valid w.self
  if c.1 = false then (false, { w with self := c.2 })
  else
    let n := sqlite3_bind_parameter_count w.eng c.2.stmt
    if (p_values.length : Int) < n.1 then
      (false, { self := { c.2 with error_message :=
          "Insufficient number of parameters to satisfy required bindings in statement." },
                eng := n.2 })
    else bind_all_loop p_values (List.range n.1.toNat) { self := c.2, eng := n.2 }

/-- The expression `String::utf8(parameter_name + 1)`: the name without its first
character, the one-byte sigil. -/
def parameter_key (parameter_name : String) : String :=
  String.mk (parameter_name.data.drop 1)

/-- The loop of `bind_named`, over the 0-based parameter indices still to visit. -/
def bind_named_loop (p_values : Dictionary) : List Nat → World → Bool × World
  | [], w => (true, w)
  | i :: rest, w =>
    let nm := sqlite3_bind_parameter_name w.eng w.self.stmt ((i : Int) + 1)
    match nm.1 with
    | none =>
      (false, { self := { w.self with error_message :=
          "Named binding failed because a parameter in the statement is nameless." },
                eng := nm.2 })
    | some parameter_name =>
      let key := parameter_key parameter_name
      if Dictionary.has p_values (Variant.STRING key) = true then
        let r := bind_sqlite_parameter (Dictionary.get p_values (Variant.STRING key))
          ((i : Int) + 1) { w with eng := nm.2 }
        if r.1 = false then (false, r.2) else bind_named_loop p_values rest r.2
      else if Dictionary.has p_values (Variant.STRING_NAME key) = true then
        let r := bind_sqlite_parameter (Dictionary.get p_values (Variant.STRING_NAME key))
          ((i : Int) + 1) { w with eng := nm.2 }
        if r.1 = false then (false, r.2) else bind_named_loop p_values rest r.2
      else
        (false, { self := { w.self with error_message := "Missing named parameter: " ++ key },
                  eng := nm.2 })

/-- Member `bind_named(p_values)`. -/
def bind_named (p_values : Dictionary) (w : World) : Bool × World :=
  let c := check_valid w.self
  if c.1 = false then (false, { w with self := c.2 })
  else
    let n := sqlite3_bind_parameter_count w.eng c.2.stmt
    bind_named_loop p_values (List.range n.1.toNat) { self := c.2, eng := n.2 }

/-- Member `clear_bindings`. -/
def clear_bindings (w : World) : World :=
  let c := check_valid w.self
  if c.1 = false then { w with self := c.2 }
  else { self := c.2, eng := (sqlite3_clear_bindings w.eng c.2.stmt).2 }

/-- Member `reset`. -/
def reset (w : World) : Bool × World :=
  let c := check_valid w.self
  if c.1 = false then (false, { w with self := c.2 })
  else
    let s1 := reset_row_state c.2
    let r := sqlite3_reset w.eng s1.stmt
    if r.1 ≠ SQLITE_OK then
      let m := sqlite3_errmsg r.2 s1.db
      (false, { self := { s1 with error_message := m.1 }, eng := m.2 })
    else (true, { self := s1, eng := r.2 })

/-- Member `step`. -/
def step (w : World) : Int × World :=
  let c := check_valid w.self
  if c.1 = false then (SQLITE_MISUSE, { w with self := c.2 })
  else
    let w1 := cache_column_names { w with self := c.2 }
    let r := sqlite3_step w1.eng w1.self.stmt
    if r.1 = SQLITE_ROW then
      let s1 := { w1.self with has_row := true }
      let m := marshal_current_row { self := s1, eng := r.2 }
      (r.1, { self := { s1 with current_row := m.1 }, eng := m.2 })
    else if r.1 = SQLITE_DONE then
      (r.1, { self := reset_row_state w1.self, eng := r.2 })
    else
      let s1 := reset_row_state w1.self
      let m := sqlite3_errmsg r.2 s1.db
      (r.1, { self := { s1 with error_message := m.1 }, eng := m.2 })

/-- The `while (true)` loop of `execute`, with a bound on the number of iterations;
`none` when the bound is reached before the loop returns. -/
def execute_loop : Nat → World → Option (Bool × World)
  | 0, _ => none
  | fuel + 1, w =>
    let r := step w
    if r.1 = SQLITE_ROW then execute_loop fuel r.2
    else some (decide (r.1 = SQLITE_DONE), r.2)

/-- Member `execute`, its loop bounded by `fuel`. -/
def execute (fuel : Nat) (w : World) : Option (Bool × World) :=
  let c := check_valid w.self
  if c.1 = false then some (false, { w with self := c.2 })
  else execute_loop fuel { w with self := c.2 }

/-- The `while (true)` loop of `fetch_all`, with a bound on the number of iterations;
`none` when the bound is reached before the loop is left. -/
def fetch_all_loop : Nat → List Dictionary → World → Option (List Dictionary × World)
  | 0, _, _ => none
  | fuel + 1, rows, w =>
    let r := step w
    if r.1 = SQLITE_ROW then fetch_all_loop fuel (rows ++ [r.2.self.current_row]) r.2
    else some (rows, r.2)

/-- Member `fetch_all`, its loop bounded by `fuel`. -/
def fetch_all (fuel : Nat) (w : World) : Option (List Dictionary × World) :=
  let c := check_valid w.self
  if c.1 = false then some ([], { w with self := c.2 })
  else fetch_all_loop fuel [] { w with self := c.2 }

/-- Member `get_row`. -/
def get_row (w : World) : Dictionary :=
  if w.self.has_row = false then [] else w.self.current_row

/-- Member `get_column_names`: the list returned, and the world after the call. -/
def get_column_names (w : World) : List String × World :=
  let w1 :=
    if w.self.status = StatementStatus.INITIALIZED ∧ w.self.column_names = [] then
      cache_column_names w
    else w
  (w1.self.column_names, w1)

/-- Member `get_parameter_count`: the count returned, and the world after the call. -/
def get_parameter_count (w : World) : Int × World :=
  if w.self.status ≠ StatementStatus.INITIALIZED then (0, w)
  else
    let r := sqlite3_bind_parameter_count w.eng w.self.stmt
    (r.1, { w with eng := r.2 })

/-- Member `is_valid`. -/
def is_valid (w : World) : Bool :=
  decide (w.self.status = StatementStatus.INITIALIZED)

/-- Member `get_status`. -/
def get_status (w : World) : Int :=
  w.self.status.toInt

/-- Member `get_error_message`. -/
def get_error_message (w : World) : String :=
  w.self.error_message

/-- A freshly constructed statement (`SQLiteStatement() = default`) next to an engine. -/
def fresh (e : Engine) : World :=
  { self := {}, eng := e }

/-! ## The value codec in the words of the specification -/

/-- The runtime types the encoder accepts: null, boolean, integer, float, string in either
string representation, byte sequence. -/
def supported : Variant → Bool
  | Variant.OTHER _ => false
  | _ => true

/-- The encoding of a value: null binds null; a boolean or integer binds a 64-bit integer, a
boolean as 0 or 1; a float binds a double; a string binds UTF-8 text; a byte sequence of
length zero binds null, any other binds a blob of exactly its bytes. -/
def encoding : Variant → SqlValue
  | Variant.NIL => SqlValue.null
  | Variant.BOOL b => SqlValue.int64 (if b then 1 else 0)
  | Variant.INT v => SqlValue.int64 v
  | Variant.FLOAT d => SqlValue.double d
  | Variant.STRING s => SqlValue.text s
  | Variant.STRING_NAME s => SqlValue.text s
  | Variant.PACKED_BYTE_ARRAY [] => SqlValue.null
  | Variant.PACKED_BYTE_ARRAY (b :: bs) => SqlValue.blob (b :: bs)
  | Variant.OTHER _ => SqlValue.null

/-- The value a mapping holds under a name: the one under the `String` key, else the one
under the `StringName` key, else none. -/
def named_value (m : Dictionary) (key : String) : Option Variant :=
  if Dictionary.has m (Variant.STRING key) = true then
    some (Dictionary.get m (Variant.STRING key))
  else if Dictionary.has m (Variant.STRING_NAME key) = true then
    some (Dictionary.get m (Variant.STRING_NAME key))
  else none

/-- The call `Dictionary::erase(key)`. -/
def Dictionary.erase : Dictionary → Variant → Dictionary
  | [], _ => []
  | p :: rest, key =>
    if p.1 = key then Dictionary.erase rest key else p :: Dictionary.erase rest key

/-- The names the engine reports for the parameters of a statement, slot 1 first, each with
its sigil; `none` for a nameless parameter. -/
def Engine.param_names (e : Engine) (stmt : Option Nat) : List (Option String) :=
  (e.params stmt).map (fun p => p.name)

/-- What a mapping supplies for a parameter with the given engine-reported name: the value
under the name without its sigil, provided the parameter has a name, the mapping has
the key and the value has a supported type. -/
def supplied (m : Dictionary) (name : Option String) : Option Variant :=
  match name with
  | none => none
  | some parameter_name =>
    match named_value m (parameter_key parameter_name) with
    | none => none
    | some v => if supported v = true then some v else none

/-- Two mappings answer alike for a name: same `has` and same value under the `String` key
and under the `StringName` key. -/
def agree_on (m m2 : Dictionary) (key : String) : Prop :=
  Dictionary.has m2 (Variant.STRING key) = Dictionary.has m (Variant.STRING key) ∧
    Dictionary.get m2 (Variant.STRING key) = Dictionary.get m (Variant.STRING key) ∧
    Dictionary.has m2 (Variant.STRING_NAME key) = Dictionary.has m (Variant.STRING_NAME key) ∧
    Dictionary.get m2 (Variant.STRING_NAME key) = Dictionary.get m (Variant.STRING_NAME key)

/-- The key is the name, without sigil, of no parameter of the list. -/
def matches_no_parameter (key : Variant) (names : List (Option String)) : Prop :=
  ∀ parameter_name, some parameter_name ∈ names →
    key ≠ Variant.STRING (parameter_key parameter_name) ∧
      key ≠ Variant.STRING_NAME (parameter_key parameter_name)

/-- The status is one of the two terminal ones. -/
def terminal (s : StatementStatus) : Prop :=
  s = StatementStatus.FINALIZED ∨ s = StatementStatus.CONNECTION_FINALIZED

instance (s : StatementStatus) : Decidable (terminal s) := by
  unfold terminal; infer_instance

/-- The statement passes the validity check of the guarded operations. -/
def valid (w : World) : Prop :=
  (check_valid w.self).1 = true

instance (w : World) : Decidable (valid w) := by
  unfold valid; infer_instance

/-- The calls an operation added to the engine's log. -/
def new_calls (before after : Engine) : List EngineCall :=
  after.calls.drop before.calls.length

/-- An engine with one live statement `10` of two named parameters and two columns, which
produces one row and then completes, and one connection `1`. -/
def sample_engine : Engine :=
  { stmts := [(10, { db := 1,
                     params := [⟨some ":a", SqlValue.null⟩, ⟨some "@b", SqlValue.int64 5⟩],
                     column_names := ["x", "y"],
                     script := [⟨SQLITE_ROW, [Cell.value ⟨SQLITE_INTEGER, 7, ⟨0⟩, "", []⟩,
                                              Cell.value ⟨SQLITE_TEXT, 0, ⟨0⟩, "hi", []⟩],
                                  "another row available"⟩,
                                ⟨SQLITE_DONE, [], "no more rows available"⟩],
                     current := [], busy := false,
                     reset_rc := SQLITE_OK, reset_errmsg := "not an error",
                     finalize_rc := SQLITE_OK, finalize_errmsg := "not an error" }),
              (11, { db := 1, params := [⟨none, SqlValue.null⟩], column_names := [],
                     script := [], current := [], busy := false,
                     reset_rc := SQLITE_OK, reset_errmsg := "not an error",
                     finalize_rc := SQLITE_OK, finalize_errmsg := "not an error" })],
    errmsgs := [(1, "database disk image is malformed")], calls := [] }

/-- A statement initialized with connection `1` and handle `10` of `sample_engine`. -/
def sample_world : World :=
  initialize_ (some 1) (some 10) (fresh sample_engine)

/-! ## Operations and reachable states -/

/-- A call of one of the member functions of the public section, with its arguments; the
destructor is a call of `finalize`, and `init` is a call of `initialize`. -/
inductive Op where
  | init (p_db p_stmt : Option Nat)
  | connection_finalized
  | finalize
  | bind (p_index : Int) (p_binding_value : Variant)
  | bind_all (p_values : List Variant)
  | bind_named (p_values : Dictionary)
  | clear_bindings
  | reset
  | execute (fuel : Nat)
  | step
  | fetch_all (fuel : Nat)
  | get_row
  | get_column_names
  | get_parameter_count
  | is_valid
  | get_status
  | get_error_message
  deriving DecidableEq, Repr

/-- The world after an operation; `none` when a bounded loop did not return. -/
def Op.apply : Op → World → Option World
  | Op.init p_db p_stmt, w => some (initialize_ p_db p_stmt w)
  | Op.connection_finalized, w => some (GDSQLite.connection_finalized w)
  | Op.finalize, w => some (GDSQLite.finalize w)
  | Op.bind i v, w => some (GDSQLite.bind i v w).2
  | Op.bind_all vs, w => some (GDSQLite.bind_all vs w).2
  | Op.bind_named m, w => some (GDSQLite.bind_named m w).2
  | Op.clear_bindings, w => some (GDSQLite.clear_bindings w)
  | Op.reset, w => some (GDSQLite.reset w).2
  | Op.execute fuel, w => (GDSQLite.execute fuel w).map (fun r => r.2)
  | Op.step, w => some (GDSQLite.step w).2
  | Op.fetch_all fuel, w => (GDSQLite.fetch_all fuel w).map (fun r => r.2)
  | Op.get_row, w => some w
  | Op.get_column_names, w => some (GDSQLite.get_column_names w).2
  | Op.get_parameter_count, w => some (GDSQLite.get_parameter_count w).2
  | Op.is_valid, w => some w
  | Op.get_status, w => some w
  | Op.get_error_message, w => some w

/-- The states a statement can be in: those reached from a freshly constructed statement,
next to any engine, by a sequence of operations. -/
inductive Reachable : World → Prop where
  | fresh (e : Engine) : Reachable (fresh e)
  | op (o : Op) (w w2 : World) : Reachable w → o.apply w = some w2 → Reachable w2

/-- The call is the engine's statement-disposal call. -/
def EngineCall.is_disposal : EngineCall → Bool
  | EngineCall.finalize _ => true
  | _ => false

/-- The operations that start with the validity check. -/
def Op.guarded : Op → Bool
  | Op.bind _ _ => true
  | Op.bind_all _ => true
  | Op.bind_named _ => true
  | Op.clear_bindings => true
  | Op.reset => true
  | Op.execute _ => true
  | Op.step => true
  | Op.fetch_all _ => true
  | _ => false

/-- Relative to the finalized state `w`, the state `w2` has the same engine (no call
reached it), is still finalized and without handle, has an empty column-name cache,
reports no column names and is not valid. -/
def still_finalized (w w2 : World) : Prop :=
  w2.eng = w.eng ∧ w2.self.status = StatementStatus.FINALIZED ∧ w2.self.stmt = none ∧
    w2.self.column_names = [] ∧ get_column_names w2 = ([], w2) ∧ is_valid w2 = false

/-- The second object is the first with, at most, another error message. -/
def only_message (s t : SQLiteStatement) : Prop :=
  ∃ m, t = { s with error_message := m }

/-- The second object is the first with, at most, another column-name cache. -/
def only_columns (s t : SQLiteStatement) : Prop :=
  ∃ c, t = { s with column_names := c }

/-- What holds of the fields in every reachable state: the status is `INITIALIZED` exactly
when handle and connection are both attached; a terminal status has no handle; without
a handle the column-name cache is empty and no row is current; without a current row
the row mapping is empty. -/
structure Inv (w : World) : Prop where
  init_iff : w.self.status = StatementStatus.INITIALIZED ↔
    (w.self.stmt ≠ none ∧ w.self.db ≠ none)
  term_stmt : terminal w.self.status → w.self.stmt = none
  no_stmt : w.self.stmt = none → w.self.column_names = [] ∧ w.self.has_row = false
  no_row : w.self.has_row = false → w.self.current_row = []

/-! ## Notions for the codec, the rows and the engine's log -/

/-- The decoding of a column in the words of the specification: by storage class, null gives
the null value, integer a 64-bit integer, float a double, text a string, blob a byte
sequence of exactly the reported bytes, and any other class the null value. -/
def decode (c : Column) : Variant :=
  if c.type = SQLITE_NULL then Variant.NIL
  else if c.type = SQLITE_INTEGER then Variant.INT c.int64
  else if c.type = SQLITE_FLOAT then Variant.FLOAT c.double
  else if c.type = SQLITE_TEXT then Variant.STRING c.text
  else if c.type = SQLITE_BLOB then Variant.PACKED_BYTE_ARRAY c.blob
  else Variant.NIL

/-- The pointer argument of a call: the statement handle, or for `sqlite3_errmsg` the
connection. -/
def EngineCall.pointer : EngineCall → Option Nat
  | EngineCall.finalize p => p
  | EngineCall.errmsg p => p
  | EngineCall.column_count p => p
  | EngineCall.column_name p _ => p
  | EngineCall.column_type p _ => p
  | EngineCall.column_int64 p _ => p
  | EngineCall.column_double p _ => p
  | EngineCall.column_text p _ => p
  | EngineCall.column_bytes p _ => p
  | EngineCall.column_blob p _ => p
  | EngineCall.bind_null p _ => p
  | EngineCall.bind_int64 p _ _ => p
  | EngineCall.bind_double p _ _ => p
  | EngineCall.bind_text p _ _ => p
  | EngineCall.bind_blob64 p _ _ => p
  | EngineCall.bind_parameter_count p => p
  | EngineCall.bind_parameter_name p _ => p
  | EngineCall.clear_bindings p => p
  | EngineCall.reset p => p
  | EngineCall.step p => p

/-- The call is one of the `sqlite3_column_*` reads. -/
def EngineCall.is_column_read : EngineCall → Bool
  | EngineCall.column_count _ => true
  | EngineCall.column_name _ _ => true
  | EngineCall.column_type _ _ => true
  | EngineCall.column_int64 _ _ => true
  | EngineCall.column_double _ _ => true
  | EngineCall.column_text _ _ => true
  | EngineCall.column_bytes _ _ => true
  | EngineCall.column_blob _ _ => true
  | _ => false

/-- The call is `sqlite3_step`. -/
def EngineCall.is_step : EngineCall → Bool
  | EngineCall.step _ => true
  | _ => false

/-- The engine `e2` is `e` after column reads on the handle `stmt` only: same statements,
same error texts, and a log extended by such reads. -/
def reads (stmt : Option Nat) (e e2 : Engine) : Prop :=
  e2.stmts = e.stmts ∧ e2.errmsgs = e.errmsgs ∧
    ∃ l, e2.calls = e.calls ++ l ∧ ∀ c ∈ l, c.is_column_read = true ∧ c.pointer = stmt

/-- The column names the engine reports for a statement; none for `nullptr` and for a handle
that is not live. -/
def Engine.column_names (e : Engine) (stmt : Option Nat) : List String :=
  match e.data stmt with
  | none => []
  | some d => d.column_names

/-- The error text the engine reports for a connection. -/
def Engine.errtext (e : Engine) (db : Option Nat) : String :=
  (sqlite3_errmsg e db).1

/-- The name `marshal_current_row` uses for column `i`: the cached one when the cache
reaches that far, else the one the engine reports. -/
def column_key (self : SQLiteStatement) (e : Engine) (i : Nat) : String :=
  if i < self.column_names.length then self.column_names.getD i ""
  else (e.column_names self.stmt).getD i ""

/-- The key and the value `marshal_current_row` assigns for column `i`. -/
def marshal_pair (self : SQLiteStatement) (e : Engine) (i : Nat) : Variant × Variant :=
  (Variant.STRING_NAME (column_key self e i), decode (e.column self.stmt (i : Int)))

/-- The assignments `marshal_current_row` makes, in column order. -/
def row_pairs (self : SQLiteStatement) (e : Engine) : List (Variant × Variant) :=
  (List.range (e.column_names self.stmt).length).map (marshal_pair self e)

/-- The mapping that results from the assignments `dict[key] = value`, made in order on an
empty mapping. -/
def Dictionary.of_pairs (kvs : List (Variant × Variant)) : Dictionary :=
  kvs.foldl (fun d p => Dictionary.set d p.1 p.2) []

/-- The mapping of a row with the given column names: column `i` is assigned, decoded, under
name `i`, in column order. -/
def marshal_row (names : List String) (row : List Column) : Dictionary :=
  Dictionary.of_pairs ((List.range names.length).map
    (fun i => (Variant.STRING_NAME (names.getD i ""), decode (row.getD i missing_column))))

/-- The outcome the next `sqlite3_step` on a statement has: the head of its script, or
completion when nothing is left. -/
def next_outcome (d : StmtData) : StepOutcome :=
  d.script.headD done_outcome

/-- The row an outcome makes current on a statement: its cells, the parameter cells as the
slots of the statement are bound. -/
def StmtData.row_of (d : StmtData) (o : StepOutcome) : List Column :=
  o.row.map (Cell.shown d.params)

/-- The statement after one `sqlite3_step`. -/
def advance (d : StmtData) : StmtData :=
  { d with current := d.row_of (next_outcome d), script := d.script.tail, busy := true }

/-- The script makes the statement produce `k` rows and then, as first other outcome, the
code `c`; a script that ends after its rows ends in completion. -/
def runs_to : List StepOutcome → Nat → Int → Prop
  | [], 0, c => c = SQLITE_DONE
  | [], _ + 1, _ => False
  | o :: _, 0, c => o.rc = c ∧ c ≠ SQLITE_ROW
  | o :: rest, k + 1, c => o.rc = SQLITE_ROW ∧ runs_to rest k c

instance runs_to_decidable : (s : List StepOutcome) → (k : Nat) → (c : Int) →
    Decidable (runs_to s k c)
  | [], 0, c => by unfold runs_to; infer_instance
  | [], _ + 1, _ => by unfold runs_to; infer_instance
  | _ :: _, 0, c => by unfold runs_to; infer_instance
  | _ :: rest, k + 1, c => by
    unfold runs_to
    exact @instDecidableAnd _ _ _ (runs_to_decidable rest k c)

/-- The script of a statement, empty for `nullptr` and for a handle that is not live. -/
def Engine.script (e : Engine) (stmt : Option Nat) : List StepOutcome :=
  match e.data stmt with
  | none => []
  | some d => d.script

/-- The names `marshal_current_row` uses for the columns, given the cache and the names the
engine reports: for each column the cached name when the cache reaches that far, else
the engine's. -/
def effective_names (cache names : List String) : List String :=
  (List.range names.length).map
    (fun i => if i < cache.length then cache.getD i "" else names.getD i "")

/-- The column-name cache after `cache_column_names`, for a statement with a handle whose
engine-side column names are `names`. -/
def cached_names (cache names : List String) : List String :=
  if cache ≠ [] then cache else names

/-- A current row is there only on a statement whose status is `INITIALIZED`. -/
def row_ok (w : World) : Prop :=
  w.self.has_row = true → w.self.status = StatementStatus.INITIALIZED

/-- The engine `e2` is `e` after calls that were all made with a non-null pointer and that
left the column names of every statement as they were. -/
def follows (e e2 : Engine) : Prop :=
  (∀ stmt, e2.column_names stmt = e.column_names stmt) ∧
    ∃ l, e2.calls = e.calls ++ l ∧ ∀ c ∈ l, c.pointer ≠ none

/-- The engine-side data of the statement `10` of `sample_engine`. -/
def sample_data : StmtData :=
  { db := 1,
    params := [⟨some ":a", SqlValue.null⟩, ⟨some "@b", SqlValue.int64 5⟩],
    column_names := ["x", "y"],
    script := [⟨SQLITE_ROW, [Cell.value ⟨SQLITE_INTEGER, 7, ⟨0⟩, "", []⟩,
                             Cell.value ⟨SQLITE_TEXT, 0, ⟨0⟩, "hi", []⟩],
                 "another row available"⟩,
               ⟨SQLITE_DONE, [], "no more rows available"⟩],
    current := [], busy := false,
    reset_rc := SQLITE_OK, reset_errmsg := "not an error",
    finalize_rc := SQLITE_OK, finalize_errmsg := "not an error" }

/-- Whether the statement has been stepped since it was prepared or last reset; false for
`nullptr` and for a handle that is not live. -/
def Engine.stepped (e : Engine) (stmt : Option Nat) : Bool :=
  match e.data stmt with
  | none => false
  | some d => d.busy

/-- What a slot of the engine holds after the bind call the encoder makes for a value and
the engine accepts: the encoding of the value, but null for a NaN double. -/
def stored : Variant → SqlValue
  | Variant.FLOAT d => if d.is_nan = true then SqlValue.null else SqlValue.double d
  | v => encoding v

/-- The parameter with the value `v` when `ok`, and as it is otherwise. -/
def Param.take (ok : Bool) (p : Param) (v : SqlValue) : Param :=
  if ok = true then { p with value := v } else p

/-- The parameter list with the value `v` at position `i` when `ok`, and as it is
otherwise. -/
def put (ok : Bool) (ps : List Param) (i : Nat) (v : SqlValue) : List Param :=
  if ok = true then set_value ps i v else ps

/-- The message is the diagnosis of the state of a statement that the validity check
refuses: the explicitly-finalized message for status `FINALIZED`; the lost-connection
message for status `CONNECTION_FINALIZED` and, the status not being `FINALIZED`, for a
null connection reference; with a connection reference stored, the uninitialized message
for status `UNINITIALIZED` and the invalid-internal-state message for status
`INITIALIZED`. -/
def guard_diagnosed (s : SQLiteStatement) (m : String) : Prop :=
  (s.status = StatementStatus.FINALIZED →
      m = "Statement was explicitly finalized and can no longer be used.") ∧
    (s.status ≠ StatementStatus.FINALIZED →
      (s.status = StatementStatus.CONNECTION_FINALIZED ∨ s.db = none) →
      m = "Statement is invalid because the associated database connection is no longer available.") ∧
    (s.status = StatementStatus.UNINITIALIZED → s.db ≠ none →
      m = "Statement is uninitialized.") ∧
    (s.status = StatementStatus.INITIALIZED → s.db ≠ none →
      m = "Statement is in an invalid internal state.")

/-- The diagnostic `bind_named` has for a parameter with the given engine-reported name;
none when the mapping supplies a value of a supported type for it. -/
def named_diagnostic (m : Dictionary) (name : Option String) : Option String :=
  match name with
  | none => some "Named binding failed because a parameter in the statement is nameless."
  | some parameter_name =>
    match named_value m (parameter_key parameter_name) with
    | none => some ("Missing named parameter: " ++ parameter_key parameter_name)
    | some v =>
      if supported v = true then none
      else some "Binding a parameter of this Variant type is not supported."

/-- Result code `SQLITE_IOERR` of `sqlite3.h`. -/
def SQLITE_IOERR : Int := 10

/-- The engine-side data of a statement of connection `1` whose first step fails. -/
def failing_data : StmtData :=
  { db := 1, params := [], column_names := ["x"],
    script := [⟨SQLITE_IOERR, [], "disk I/O error"⟩],
    current := [], busy := false,
    reset_rc := SQLITE_IOERR, reset_errmsg := "disk I/O error",
    finalize_rc := SQLITE_OK, finalize_errmsg := "not an error" }

/-- An engine with the one live statement `40`, whose first step fails. -/
def failing_engine : Engine :=
  { stmts := [(40, failing_data)], errmsgs := [(1, "not an error")], calls := [] }

/-- A statement initialized with connection `1` and handle `40` of `failing_engine`. -/
def failing_world : World :=
  initialize_ (some 1) (some 40) (fresh failing_engine)

/-- The path condition of the fourth test of `check_valid`, the one that diagnoses an
invalid internal state: the three tests before it fail and the status is not
`INITIALIZED` or the handle is null. -/
def corruption_branch (s : SQLiteStatement) : Prop :=
  ¬ s.status = StatementStatus.FINALIZED ∧
    ¬ (s.status = StatementStatus.CONNECTION_FINALIZED ∨ s.db = none) ∧
    ¬ s.status = StatementStatus.UNINITIALIZED ∧
    (s.status ≠ StatementStatus.INITIALIZED ∨ s.stmt = none)

/-- The engine `e2` is `e` after calls that were all made with a non-null pointer. -/
def well_called (e e2 : Engine) : Prop :=
  ∃ l, e2.calls = e.calls ++ l ∧ ∀ c ∈ l, c.pointer ≠ none

/-! ## The validity check -/

theorem only_message_refl (s : SQLiteStatement) : only_message s s :=
  ⟨s.error_message, rfl⟩

theorem only_message_trans {s t u : SQLiteStatement} (h1 : only_message s t)
    (h2 : only_message t u) : only_message s u := by
  obtain ⟨m1, rfl⟩ := h1
  obtain ⟨m2, rfl⟩ := h2
  exact ⟨m2, rfl⟩

theorem check_valid_only_message (s : SQLiteStatement) : only_message s (check_valid s).2 := by
  unfold check_valid
  split_ifs
  · exact ⟨_, rfl⟩
  · exact ⟨_, rfl⟩
  · exact ⟨_, rfl⟩
  · exact ⟨_, rfl⟩
  · exact only_message_refl s

theorem check_valid_true_iff (s : SQLiteStatement) :
    (check_valid s).1 = true ↔
      s.status = StatementStatus.INITIALIZED ∧ s.db ≠ none ∧ s.stmt ≠ none := by
  unfold check_valid
  cases hs : s.status <;> cases hd : s.db <;> cases ht : s.stmt <;> simp

theorem check_valid_true_snd (s : SQLiteStatement) (h : (check_valid s).1 = true) :
    (check_valid s).2 = s := by
  unfold check_valid at h ⊢
  split_ifs at h ⊢
  simp_all

theorem check_valid_terminal (s : SQLiteStatement) (h : terminal s.status) :
    (check_valid s).1 = false := by
  cases hc : (check_valid s).1
  · rfl
  · have := (check_valid_true_iff s).1 hc
    rcases h with h | h <;> simp [h] at this

/-! ## What the operations leave alone -/

theorem bind_sqlite_parameter_only_message (v : Variant) (i : Int) (w : World) :
    only_message w.self (bind_sqlite_parameter v i w).2.self := by
  unfold bind_sqlite_parameter
  split
  all_goals first
    | exact only_message_refl _
    | exact ⟨_, rfl⟩
    | (split_ifs <;> exact only_message_refl _)

theorem bind_all_loop_only_message (vs : List Variant) (is : List Nat) (w : World) :
    only_message w.self (bind_all_loop vs is w).2.self := by
  induction is generalizing w with
  | nil => exact only_message_refl _
  | cons i rest ih =>
    unfold bind_all_loop
    simp only []
    split_ifs
    · exact bind_sqlite_parameter_only_message _ _ w
    · exact only_message_trans (bind_sqlite_parameter_only_message _ _ w) (ih _)

theorem bind_named_loop_only_message (m : Dictionary) (is : List Nat) (w : World) :
    only_message w.self (bind_named_loop m is w).2.self := by
  induction is generalizing w with
  | nil => exact only_message_refl _
  | cons i rest ih =>
    unfold bind_named_loop
    simp only []
    split
    · exact ⟨_, rfl⟩
    · split_ifs
      · exact bind_sqlite_parameter_only_message _ _ ⟨w.self, _⟩
      · refine only_message_trans ?_ (ih _)
        exact bind_sqlite_parameter_only_message _ _ ⟨w.self, _⟩
      · exact bind_sqlite_parameter_only_message _ _ ⟨w.self, _⟩
      · refine only_message_trans ?_ (ih _)
        exact bind_sqlite_parameter_only_message _ _ ⟨w.self, _⟩
      · exact ⟨_, rfl⟩

theorem bind_only_message (i : Int) (v : Variant) (w : World) :
    only_message w.self (bind i v w).2.self := by
  unfold bind
  simp only []
  split_ifs
  · exact check_valid_only_message _
  · exact only_message_trans (check_valid_only_message _) ⟨_, rfl⟩
  · exact only_message_trans (check_valid_only_message _)
      (bind_sqlite_parameter_only_message _ _ { self := (check_valid w.self).2, eng := _ })

theorem bind_all_only_message (vs : List Variant) (w : World) :
    only_message w.self (bind_all vs w).2.self := by
  unfold bind_all
  simp only []
  split_ifs
  · exact check_valid_only_message _
  · exact only_message_trans (check_valid_only_message _) ⟨_, rfl⟩
  · exact only_message_trans (check_valid_only_message _)
      (bind_all_loop_only_message _ _ { self := (check_valid w.self).2, eng := _ })

theorem bind_named_only_message (m : Dictionary) (w : World) :
    only_message w.self (bind_named m w).2.self := by
  unfold bind_named
  simp only []
  split_ifs
  · exact check_valid_only_message _
  · exact only_message_trans (check_valid_only_message _)
      (bind_named_loop_only_message _ _ { self := (check_valid w.self).2, eng := _ })

theorem clear_bindings_only_message (w : World) :
    only_message w.self (clear_bindings w).self := by
  unfold clear_bindings
  simp only []
  split_ifs
  · exact check_valid_only_message _
  · exact check_valid_only_message _

/-! ## Guarded operations on a statement that is not valid -/

theorem bind_invalid (i : Int) (v : Variant) (w : World) (h : (check_valid w.self).1 = false) :
    bind i v w = (false, { w with self := (check_valid w.self).2 }) := by
  unfold bind; simp [h]

theorem bind_all_invalid (vs : List Variant) (w : World) (h : (check_valid w.self).1 = false) :
    bind_all vs w = (false, { w with self := (check_valid w.self).2 }) := by
  unfold bind_all; simp [h]

theorem bind_named_invalid (m : Dictionary) (w : World) (h : (check_valid w.self).1 = false) :
    bind_named m w = (false, { w with self := (check_valid w.self).2 }) := by
  unfold bind_named; simp [h]

theorem clear_bindings_invalid (w : World) (h : (check_valid w.self).1 = false) :
    clear_bindings w = { w with self := (check_valid w.self).2 } := by
  unfold clear_bindings; simp [h]

theorem reset_invalid (w : World) (h : (check_valid w.self).1 = false) :
    reset w = (false, { w with self := (check_valid w.self).2 }) := by
  unfold reset; simp [h]

theorem step_invalid (w : World) (h : (check_valid w.self).1 = false) :
    step w = (SQLITE_MISUSE, { w with self := (check_valid w.self).2 }) := by
  unfold step; simp [h]

theorem execute_invalid (fuel : Nat) (w : World) (h : (check_valid w.self).1 = false) :
    execute fuel w = some (false, { w with self := (check_valid w.self).2 }) := by
  unfold execute; simp [h]

theorem fetch_all_invalid (fuel : Nat) (w : World) (h : (check_valid w.self).1 = false) :
    fetch_all fuel w = some ([], { w with self := (check_valid w.self).2 }) := by
  unfold fetch_all; simp [h]

theorem only_message_status {s t : SQLiteStatement} (h : only_message s t) :
    t.status = s.status ∧ t.stmt = s.stmt ∧ t.db = s.db ∧ t.has_row = s.has_row ∧
      t.current_row = s.current_row ∧ t.column_names = s.column_names := by
  obtain ⟨m, rfl⟩ := h
  exact ⟨rfl, rfl, rfl, rfl, rfl, rfl⟩

/-! ## Release -/

theorem release_statement_status (n : StatementStatus) (w : World) (hn : terminal n) :
    (release_statement n w).self.status = n := by
  unfold release_statement
  rcases hn with rfl | rfl <;> simp only [] <;> split_ifs <;>
    first | rfl | simp_all [reset_row_state]

theorem release_statement_stmt (n : StatementStatus) (w : World) :
    (release_statement n w).self.stmt = none := by
  unfold release_statement
  simp only []
  split_ifs <;> rfl

theorem release_statement_row (n : StatementStatus) (w : World) :
    (release_statement n w).self.has_row = false ∧
      (release_statement n w).self.current_row = [] ∧
      (release_statement n w).self.column_names = [] := by
  unfold release_statement
  simp only []
  split_ifs <;> exact ⟨rfl, rfl, rfl⟩

theorem release_statement_db (n : StatementStatus) (w : World) :
    (release_statement n w).self.db = w.self.db := by
  unfold release_statement
  cases n <;> simp only [] <;> split_ifs <;> rfl

theorem release_statement_no_handle (n : StatementStatus) (w : World) (hn : terminal n)
    (h : w.self.stmt = none) :
    release_statement n w =
      { w with self := { w.self with status := n, stmt := none, has_row := false,
                                     current_row := [], column_names := [] } } := by
  unfold release_statement
  rcases hn with rfl | rfl <;> simp [h, reset_row_state]

theorem release_statement_calls (n : StatementStatus) (w : World) (h : w.self.stmt ≠ none) :
    (release_statement n w).eng.calls =
      w.eng.calls ++ [EngineCall.finalize w.self.stmt] ++
        (if w.self.db ≠ none ∧ (sqlite3_finalize w.eng w.self.stmt).1 ≠ SQLITE_OK
          then [EngineCall.errmsg w.self.db] else []) := by
  have hc : (sqlite3_finalize w.eng w.self.stmt).2.calls =
      w.eng.calls ++ [EngineCall.finalize w.self.stmt] := by
    unfold sqlite3_finalize
    cases w.self.stmt with
    | none => rfl
    | some x =>
      simp only [Engine.log]
      split <;> rfl
  have he : ∀ e db, (sqlite3_errmsg e db).2.calls = e.calls ++ [EngineCall.errmsg db] := by
    intro e db
    unfold sqlite3_errmsg
    cases db <;> rfl
  unfold release_statement
  cases n <;> simp only [] <;> rw [if_neg h] <;> simp only [reset_row_state] <;>
    split_ifs <;> simp_all

/-! ## Column-name cache and stepping -/

theorem cache_column_names_loop_only_columns (is : List Nat) (w : World) :
    only_columns w.self (cache_column_names_loop is w).self := by
  induction is generalizing w with
  | nil => exact ⟨_, rfl⟩
  | cons i rest ih =>
    unfold cache_column_names_loop
    obtain ⟨c, hc⟩ := ih
      { self := { w.self with column_names :=
          w.self.column_names ++ [(sqlite3_column_name w.eng w.self.stmt (i : Int)).1] },
        eng := (sqlite3_column_name w.eng w.self.stmt (i : Int)).2 }
    exact ⟨c, hc⟩

theorem cache_column_names_only_columns (w : World) :
    only_columns w.self (cache_column_names w).self := by
  unfold cache_column_names
  split_ifs
  · exact ⟨_, rfl⟩
  · exact cache_column_names_loop_only_columns _ { w with eng := _ }

theorem cache_column_names_no_handle (w : World) (h : w.self.stmt = none) :
    cache_column_names w = w := by
  unfold cache_column_names
  simp [h]

theorem step_valid_self (w : World) (h : (check_valid w.self).1 = true) :
    ∃ c, ((step w).2.self = { w.self with column_names := c, has_row := true,
                                          current_row := (step w).2.self.current_row } ∧
            (step w).1 = SQLITE_ROW) ∨
         ((step w).2.self = { w.self with column_names := c, has_row := false,
                                          current_row := [],
                                          error_message := (step w).2.self.error_message } ∧
            (step w).1 ≠ SQLITE_ROW) := by
  have hs := check_valid_true_snd _ h
  obtain ⟨c, hc⟩ := cache_column_names_only_columns { w with self := (check_valid w.self).2 }
  rw [hs] at hc
  simp only [] at hc
  refine ⟨c, ?_⟩
  unfold step
  simp only [h, hs]
  simp only [Bool.true_eq_false, if_false]
  split_ifs with h1 h2
  · left
    refine ⟨?_, h1⟩
    simp only [hc]
  · right
    refine ⟨?_, h1⟩
    simp only [hc, reset_row_state]
  · right
    refine ⟨?_, h1⟩
    simp only [hc, reset_row_state]

/-! ## The invariant of the reachable states -/

theorem inv_of_only_message {w w2 : World} (h : only_message w.self w2.self) (hi : Inv w) :
    Inv w2 := by
  obtain ⟨m, hm⟩ := h
  exact ⟨by rw [hm]; exact hi.init_iff, by rw [hm]; exact hi.term_stmt,
    by rw [hm]; exact hi.no_stmt, by rw [hm]; exact hi.no_row⟩

theorem inv_fresh (e : Engine) : Inv (fresh e) := by
  constructor <;> simp [fresh, terminal]

theorem inv_initialize (p_db p_stmt : Option Nat) (w : World) :
    Inv (initialize_ p_db p_stmt w) := by
  cases p_db <;> cases p_stmt <;> constructor <;>
    simp [initialize_, reset_row_state, terminal]

theorem inv_release_statement (n : StatementStatus) (w : World) (hn : terminal n) :
    Inv (release_statement n w) := by
  have h1 := release_statement_status n w hn
  have h2 := release_statement_stmt n w
  have h3 := release_statement_row n w
  constructor
  · rw [h1, h2]
    rcases hn with rfl | rfl <;> simp
  · intro _; exact h2
  · intro _; exact ⟨h3.2.2, h3.1⟩
  · intro _; exact h3.2.1

theorem inv_connection_finalized (w : World) : Inv (connection_finalized w) := by
  have hi := inv_release_statement StatementStatus.CONNECTION_FINALIZED w (Or.inr rfl)
  have h1 := release_statement_status StatementStatus.CONNECTION_FINALIZED w (Or.inr rfl)
  unfold connection_finalized
  constructor
  · simp [h1]
  · intro _; exact release_statement_stmt _ w
  · exact hi.no_stmt
  · exact hi.no_row

theorem inv_step (w : World) (hi : Inv w) : Inv (step w).2 := by
  cases hv : (check_valid w.self).1
  · rw [step_invalid w hv]
    exact inv_of_only_message (check_valid_only_message w.self) hi
  · obtain ⟨hs, hd, ht⟩ := (check_valid_true_iff _).1 hv
    obtain ⟨c, h | h⟩ := step_valid_self w hv
    · constructor
      · rw [h.1]; exact hi.init_iff
      · rw [h.1]; exact hi.term_stmt
      · rw [h.1]; intro h0; exact absurd h0 ht
      · rw [h.1]; intro h0; simp at h0
    · constructor
      · rw [h.1]; exact hi.init_iff
      · rw [h.1]; exact hi.term_stmt
      · rw [h.1]; intro h0; exact absurd h0 ht
      · rw [h.1]; intro _; rfl

theorem inv_reset (w : World) (hi : Inv w) : Inv (reset w).2 := by
  cases hv : (check_valid w.self).1
  · rw [reset_invalid w hv]
    exact inv_of_only_message (check_valid_only_message w.self) hi
  · obtain ⟨hs, hd, ht⟩ := (check_valid_true_iff _).1 hv
    have hs2 := check_valid_true_snd _ hv
    unfold reset
    simp only [hv, hs2, Bool.true_eq_false, if_false, reset_row_state]
    split_ifs <;> constructor <;> first
      | exact hi.init_iff
      | exact hi.term_stmt
      | (intro h0; exact absurd h0 ht)
      | (intro _; rfl)

theorem inv_execute_loop (fuel : Nat) (w : World) (r : Bool × World) (hi : Inv w)
    (h : execute_loop fuel w = some r) : Inv r.2 := by
  induction fuel generalizing w with
  | zero => simp [execute_loop] at h
  | succ n ih =>
    unfold execute_loop at h
    simp only [] at h
    split_ifs at h
    · exact ih _ (inv_step w hi) h
    · cases h
      exact inv_step w hi

theorem inv_fetch_all_loop (fuel : Nat) (rows : List Dictionary) (w : World)
    (r : List Dictionary × World) (hi : Inv w) (h : fetch_all_loop fuel rows w = some r) :
    Inv r.2 := by
  induction fuel generalizing w rows with
  | zero => simp [fetch_all_loop] at h
  | succ n ih =>
    unfold fetch_all_loop at h
    simp only [] at h
    split_ifs at h
    · exact ih _ _ (inv_step w hi) h
    · cases h
      exact inv_step w hi

theorem inv_cache_column_names (w : World) (hi : Inv w) : Inv (cache_column_names w) := by
  cases ht : w.self.stmt with
  | none => rw [cache_column_names_no_handle w ht]; exact hi
  | some x =>
    obtain ⟨c, hc⟩ := cache_column_names_only_columns w
    have hne : w.self.stmt ≠ none := by simp [ht]
    constructor
    · rw [hc]; exact hi.init_iff
    · rw [hc]; exact hi.term_stmt
    · rw [hc]; intro h0; exact absurd h0 hne
    · rw [hc]; exact hi.no_row

theorem inv_apply (o : Op) (w w2 : World) (hi : Inv w) (h : o.apply w = some w2) : Inv w2 := by
  cases o with
  | init p_db p_stmt => cases h; exact inv_initialize _ _ _
  | connection_finalized => cases h; exact inv_connection_finalized _
  | finalize => cases h; exact inv_release_statement _ _ (Or.inl rfl)
  | bind i v => cases h; exact inv_of_only_message (bind_only_message i v w) hi
  | bind_all vs => cases h; exact inv_of_only_message (bind_all_only_message vs w) hi
  | bind_named m => cases h; exact inv_of_only_message (bind_named_only_message m w) hi
  | clear_bindings => cases h; exact inv_of_only_message (clear_bindings_only_message w) hi
  | reset => cases h; exact inv_reset w hi
  | execute fuel =>
    simp only [Op.apply, Option.map_eq_some'] at h
    obtain ⟨r, hr, rfl⟩ := h
    cases hv : (check_valid w.self).1
    · rw [execute_invalid fuel w hv] at hr
      cases hr
      exact inv_of_only_message (check_valid_only_message w.self) hi
    · unfold execute at hr
      simp only [hv, Bool.true_eq_false, if_false] at hr
      exact inv_execute_loop fuel _ r
        (inv_of_only_message (check_valid_only_message w.self) hi) hr
  | step => cases h; exact inv_step w hi
  | fetch_all fuel =>
    simp only [Op.apply, Option.map_eq_some'] at h
    obtain ⟨r, hr, rfl⟩ := h
    cases hv : (check_valid w.self).1
    · rw [fetch_all_invalid fuel w hv] at hr
      cases hr
      exact inv_of_only_message (check_valid_only_message w.self) hi
    · unfold fetch_all at hr
      simp only [hv, Bool.true_eq_false, if_false] at hr
      exact inv_fetch_all_loop fuel _ _ r
        (inv_of_only_message (check_valid_only_message w.self) hi) hr
  | get_row => cases h; exact hi
  | get_column_names =>
    cases h
    unfold get_column_names
    simp only []
    split_ifs
    · exact inv_cache_column_names w hi
    · exact hi
  | get_parameter_count =>
    cases h
    unfold get_parameter_count
    split_ifs
    · exact hi
    · exact ⟨hi.init_iff, hi.term_stmt, hi.no_stmt, hi.no_row⟩
  | is_valid => cases h; exact hi
  | get_status => cases h; exact hi
  | get_error_message => cases h; exact hi

theorem reachable_inv (w : World) (h : Reachable w) : Inv w := by
  induction h with
  | fresh e => exact inv_fresh e
  | op o w w2 _ happ ih => exact inv_apply o w w2 ih happ

/-! ## Lifecycle claims -/

/-- C1, counterexample: a statement that was finalized and is then given a connection and a
handle by `initialize` is `INITIALIZED` again. -/
theorem initialize_after_finalize_is_initialized :
    (finalize (fresh sample_engine)).self.status = StatementStatus.FINALIZED ∧
      (Op.apply (Op.init (some 1) (some 10)) (finalize (fresh sample_engine))).map
        (fun w => w.self.status) = some StatementStatus.INITIALIZED := by
  decide

/-- C1, amended: from a terminal status, every operation other than `initialize` with a
non-null connection and a non-null handle returns, and the status after it is not
`INITIALIZED`. -/
theorem terminal_status_not_left (w : World) (o : Op) (hterm : terminal w.self.status)
    (hop : ∀ c h, o ≠ Op.init (some c) (some h)) :
    ∃ w2, o.apply w = some w2 ∧ w2.self.status ≠ StatementStatus.INITIALIZED := by
  have hv := check_valid_terminal w.self hterm
  have hs : (check_valid w.self).2.status ≠ StatementStatus.INITIALIZED := by
    rw [(only_message_status (check_valid_only_message w.self)).1]
    rcases hterm with h | h <;> simp [h]
  have hw : w.self.status ≠ StatementStatus.INITIALIZED := by
    rcases hterm with h | h <;> simp [h]
  cases o with
  | init p_db p_stmt =>
    cases p_db with
    | none => exact ⟨_, rfl, by simp [initialize_, reset_row_state]⟩
    | some c =>
      cases p_stmt with
      | none => exact ⟨_, rfl, by simp [initialize_, reset_row_state]⟩
      | some h => exact absurd rfl (hop c h)
  | connection_finalized =>
    refine ⟨_, rfl, ?_⟩
    have := release_statement_status StatementStatus.CONNECTION_FINALIZED w (Or.inr rfl)
    simp [connection_finalized, this]
  | finalize =>
    refine ⟨_, rfl, ?_⟩
    have := release_statement_status StatementStatus.FINALIZED w (Or.inl rfl)
    simp [finalize, this]
  | bind i v => exact ⟨_, rfl, by rw [bind_invalid i v w hv]; exact hs⟩
  | bind_all vs => exact ⟨_, rfl, by rw [bind_all_invalid vs w hv]; exact hs⟩
  | bind_named m => exact ⟨_, rfl, by rw [bind_named_invalid m w hv]; exact hs⟩
  | clear_bindings => exact ⟨_, rfl, by rw [clear_bindings_invalid w hv]; exact hs⟩
  | reset => exact ⟨_, rfl, by rw [reset_invalid w hv]; exact hs⟩
  | execute fuel => exact ⟨_, by simp only [Op.apply, execute_invalid fuel w hv]; rfl, hs⟩
  | step => exact ⟨_, rfl, by rw [step_invalid w hv]; exact hs⟩
  | fetch_all fuel => exact ⟨_, by simp only [Op.apply, fetch_all_invalid fuel w hv]; rfl, hs⟩
  | get_row => exact ⟨_, rfl, hw⟩
  | get_column_names =>
    refine ⟨_, rfl, ?_⟩
    simp [get_column_names, hw]
  | get_parameter_count =>
    refine ⟨_, rfl, ?_⟩
    simp [get_parameter_count, hw]
  | is_valid => exact ⟨_, rfl, hw⟩
  | get_status => exact ⟨_, rfl, hw⟩
  | get_error_message => exact ⟨_, rfl, hw⟩

/-- C1, witness: `step` on a finalized statement. -/
theorem terminal_status_not_left_witness :
    terminal (finalize sample_world).self.status ∧
      ∃ w2, Op.step.apply (finalize sample_world) = some w2 ∧
        w2.self.status ≠ StatementStatus.INITIALIZED :=
  ⟨by decide,
    terminal_status_not_left (finalize sample_world) Op.step (by decide)
      (by intro c h; exact Op.noConfusion)⟩

/-- C2, the code at the failing input: `initialize` makes no engine call at all; on a
statement that holds handle `10`, a second `initialize` with handle `11` attaches `11`
and ends `INITIALIZED` with empty cache and no row, but the engine's log is unchanged
(no disposal call for `10`) and `10` is still a live statement of the engine. -/
theorem reinitialize_does_not_dispose :
    (∀ (p_db p_stmt : Option Nat) (w : World), (initialize_ p_db p_stmt w).eng = w.eng) ∧
      sample_world.self.status = StatementStatus.INITIALIZED ∧
      sample_world.self.stmt = some 10 ∧
      (initialize_ (some 1) (some 11) sample_world).self.stmt = some 11 ∧
      (initialize_ (some 1) (some 11) sample_world).self.status =
        StatementStatus.INITIALIZED ∧
      (initialize_ (some 1) (some 11) sample_world).self.column_names = [] ∧
      get_row (initialize_ (some 1) (some 11) sample_world) = [] ∧
      new_calls sample_world.eng (initialize_ (some 1) (some 11) sample_world).eng = [] ∧
      ((initialize_ (some 1) (some 11) sample_world).eng.data (some 10)).isSome = true := by
  refine ⟨fun _ _ _ => rfl, ?_⟩
  decide

/-- C3, counterexample: on a statement in `CONNECTION_FINALIZED`, `finalize` changes the
status (to `FINALIZED`). -/
theorem finalize_after_connection_finalized_changes_status :
    terminal (connection_finalized sample_world).self.status ∧
      (finalize (connection_finalized sample_world)).self.status ≠
        (connection_finalized sample_world).self.status := by
  decide

/-- C3, amended: on a reachable statement whose status is terminal, `finalize` sets the
status to `FINALIZED` and changes nothing else: handle, connection reference,
column-name cache, current row and error message are as before and the engine is not
called; when the status was already `FINALIZED` nothing changes at all. -/
theorem finalize_terminal_only_status (w : World) (hr : Reachable w)
    (ht : terminal w.self.status) :
    finalize w = { w with self := { w.self with status := StatementStatus.FINALIZED } } ∧
      (finalize w).self.stmt = w.self.stmt ∧ (finalize w).self.db = w.self.db ∧
      (finalize w).self.column_names = w.self.column_names ∧
      get_row (finalize w) = get_row w ∧
      (finalize w).self.error_message = w.self.error_message ∧
      new_calls w.eng (finalize w).eng = [] ∧
      (w.self.status = StatementStatus.FINALIZED → finalize w = w) := by
  have hi := reachable_inv w hr
  have h0 := hi.term_stmt ht
  have h1 := hi.no_stmt h0
  have h2 := hi.no_row h1.2
  have hf : finalize w =
      { w with self := { w.self with status := StatementStatus.FINALIZED } } := by
    unfold finalize
    rw [release_statement_no_handle _ w (Or.inl rfl) h0]
    cases w with
    | mk self eng =>
      cases self
      simp_all
  refine ⟨hf, ?_, ?_, ?_, ?_, ?_, ?_, ?_⟩
  · rw [hf]
  · rw [hf]
  · rw [hf]
  · rw [hf]; rfl
  · rw [hf]
  · rw [hf]; simp [new_calls]
  · intro hs
    rw [hf]
    cases w with
    | mk self eng =>
      cases self
      simp_all

/-- C3, witness: a second `finalize`. -/
theorem finalize_terminal_only_status_witness :
    finalize (finalize sample_world) = finalize sample_world :=
  (finalize_terminal_only_status (finalize sample_world)
    (Reachable.op Op.finalize _ _
      (Reachable.op (Op.init (some 1) (some 10)) _ _ (Reachable.fresh sample_engine) rfl) rfl)
    (by decide)).2.2.2.2.2.2.2 (by decide)

theorem connection_finalized_fixed (w : World) (h1 : w.self.stmt = none)
    (h2 : w.self.status = StatementStatus.CONNECTION_FINALIZED) (h3 : w.self.db = none)
    (h4 : w.self.has_row = false) (h5 : w.self.current_row = [])
    (h6 : w.self.column_names = []) : connection_finalized w = w := by
  unfold connection_finalized
  rw [release_statement_no_handle _ w (Or.inr rfl) h1]
  cases w with
  | mk self eng =>
    cases self
    simp_all

/-- C4: on an `INITIALIZED` statement with handle `h` and a current row,
`connection_finalized` leaves `get_row` empty, the column-name cache empty, handle and
connection reference null and the status `CONNECTION_FINALIZED` (3, not 2); the calls it
adds to the engine's log contain exactly one disposal call, the one for `h`; a second
`connection_finalized` changes nothing, so it adds no call and the status stays. -/
theorem connection_finalized_releases_once (w : World) (h : Nat)
    (_hs : w.self.status = StatementStatus.INITIALIZED) (hh : w.self.stmt = some h)
    (_hrow : w.self.has_row = true) :
    get_row (connection_finalized w) = [] ∧
      (connection_finalized w).self.column_names = [] ∧
      (connection_finalized w).self.stmt = none ∧
      (connection_finalized w).self.db = none ∧
      get_status (connection_finalized w) = 3 ∧
      get_status (connection_finalized w) ≠ StatementStatus.FINALIZED.toInt ∧
      (new_calls w.eng (connection_finalized w).eng).filter EngineCall.is_disposal =
        [EngineCall.finalize (some h)] ∧
      connection_finalized (connection_finalized w) = connection_finalized w ∧
      new_calls (connection_finalized w).eng
        (connection_finalized (connection_finalized w)).eng = [] ∧
      get_status (connection_finalized (connection_finalized w)) = 3 := by
  have hst := release_statement_status StatementStatus.CONNECTION_FINALIZED w (Or.inr rfl)
  have hnone := release_statement_stmt StatementStatus.CONNECTION_FINALIZED w
  have hr := release_statement_row StatementStatus.CONNECTION_FINALIZED w
  have hne : w.self.stmt ≠ none := by simp [hh]
  have hcalls := release_statement_calls StatementStatus.CONNECTION_FINALIZED w hne
  have hidem : connection_finalized (connection_finalized w) = connection_finalized w :=
    connection_finalized_fixed _ hnone hst rfl hr.1 hr.2.1 hr.2.2
  have hstatus : get_status (connection_finalized w) = 3 := by
    simp only [get_status, connection_finalized, hst]
    rfl
  refine ⟨?_, hr.2.2, hnone, rfl, hstatus, ?_, ?_, hidem, ?_, ?_⟩
  · simp only [get_row, connection_finalized, hr.1, if_true]
  · rw [hstatus]; decide
  · simp only [new_calls, connection_finalized, hcalls, hh]
    split_ifs <;> simp [EngineCall.is_disposal]
  · rw [hidem]; simp [new_calls]
  · rw [hidem]; exact hstatus

/-- C4, witness: the sample statement after a `step` that produced a row. -/
theorem connection_finalized_releases_once_witness :
    get_row (step sample_world).2 ≠ [] ∧
      get_row (connection_finalized (step sample_world).2) = [] ∧
      get_status (connection_finalized (step sample_world).2) = 3 :=
  ⟨by decide,
    (connection_finalized_releases_once (step sample_world).2 10 (by decide) (by decide)
      (by decide)).1,
    (connection_finalized_releases_once (step sample_world).2 10 (by decide) (by decide)
      (by decide)).2.2.2.2.1⟩

/-- C5: on every freshly constructed statement, which was never initialized and whose status
is `UNINITIALIZED`, a guarded operation fails and records the message of the lost
connection, not 'Statement is uninitialized.': the test for a null connection reference
comes before the test for the status `UNINITIALIZED`. -/
theorem fresh_statement_reports_lost_connection (e : Engine) :
    (fresh e).self.status = StatementStatus.UNINITIALIZED ∧
      (bind 0 Variant.NIL (fresh e)).1 = false ∧
      (bind 0 Variant.NIL (fresh e)).2.self.error_message =
        "Statement is invalid because the associated database connection is no longer available." ∧
      (bind 0 Variant.NIL (fresh e)).2.self.error_message ≠ "Statement is uninitialized." ∧
      (step (fresh e)).1 = SQLITE_MISUSE ∧
      (step (fresh e)).2.self.error_message =
        "Statement is invalid because the associated database connection is no longer available." :=
  ⟨rfl, rfl, rfl,
    (show "Statement is invalid because the associated database connection is no longer available." ≠
      "Statement is uninitialized." by decide),
    rfl, rfl⟩

/-- Whenever the validity check fails, every guarded operation returns having changed
nothing but the error message, which is the check's diagnosis: the 'explicitly
finalized' message exactly when the status is `FINALIZED`; the 'connection is no longer
available' message exactly when the status is `CONNECTION_FINALIZED` or, the status not
being `FINALIZED`, the connection reference is null (as on a freshly constructed
statement); 'Statement is uninitialized.' exactly when the status is `UNINITIALIZED`
and a connection reference is stored.  The three messages are pairwise distinct. -/
theorem guarded_operation_diagnosis (w : World) (o : Op) (hg : o.guarded = true)
    (hv : (check_valid w.self).1 = false) :
    o.apply w = some { w with self :=
        { w.self with error_message := (check_valid w.self).2.error_message } } ∧
      ((check_valid w.self).2.error_message =
          "Statement was explicitly finalized and can no longer be used." ↔
        w.self.status = StatementStatus.FINALIZED) ∧
      ((check_valid w.self).2.error_message =
          "Statement is invalid because the associated database connection is no longer available." ↔
        (w.self.status = StatementStatus.CONNECTION_FINALIZED ∨
          (w.self.status ≠ StatementStatus.FINALIZED ∧ w.self.db = none))) ∧
      ((check_valid w.self).2.error_message = "Statement is uninitialized." ↔
        (w.self.status = StatementStatus.UNINITIALIZED ∧ w.self.db ≠ none)) ∧
      "Statement was explicitly finalized and can no longer be used." ≠
        "Statement is invalid because the associated database connection is no longer available." ∧
      "Statement was explicitly finalized and can no longer be used." ≠
        "Statement is uninitialized." ∧
      "Statement is invalid because the associated database connection is no longer available." ≠
        "Statement is uninitialized." := by
  have hc : (check_valid w.self).2 =
      { w.self with error_message := (check_valid w.self).2.error_message } := by
    obtain ⟨m, hm⟩ := check_valid_only_message w.self
    rw [hm]
  have hmsg : (check_valid w.self).2.error_message =
      if w.self.status = StatementStatus.FINALIZED then
        "Statement was explicitly finalized and can no longer be used."
      else if w.self.status = StatementStatus.CONNECTION_FINALIZED ∨ w.self.db = none then
        "Statement is invalid because the associated database connection is no longer available."
      else if w.self.status = StatementStatus.UNINITIALIZED then "Statement is uninitialized."
      else "Statement is in an invalid internal state." := by
    have hv2 := hv
    unfold check_valid at hv2 ⊢
    split_ifs at hv2 ⊢
    · rfl
    · rfl
    · rfl
    · rfl
  have hAB : "Statement was explicitly finalized and can no longer be used." ≠
      "Statement is invalid because the associated database connection is no longer available." := by
    decide
  have hAC : "Statement was explicitly finalized and can no longer be used." ≠
      "Statement is uninitialized." := by decide
  have hAD : "Statement was explicitly finalized and can no longer be used." ≠
      "Statement is in an invalid internal state." := by decide
  have hBC :
      "Statement is invalid because the associated database connection is no longer available." ≠
      "Statement is uninitialized." := by decide
  have hBD :
      "Statement is invalid because the associated database connection is no longer available." ≠
      "Statement is in an invalid internal state." := by decide
  have hCD : "Statement is uninitialized." ≠ "Statement is in an invalid internal state." := by
    decide
  have hBA := hAB.symm
  have hCA := hAC.symm
  have hDA := hAD.symm
  have hCB := hBC.symm
  have hDB := hBD.symm
  have hDC := hCD.symm
  refine ⟨?_, ?_, ?_, ?_, hAB, hAC, hBC⟩
  · cases o with
    | bind i v => simp only [Op.apply, bind_invalid i v w hv]; rw [← hc]
    | bind_all vs => simp only [Op.apply, bind_all_invalid vs w hv]; rw [← hc]
    | bind_named m => simp only [Op.apply, bind_named_invalid m w hv]; rw [← hc]
    | clear_bindings => simp only [Op.apply, clear_bindings_invalid w hv]; rw [← hc]
    | reset => simp only [Op.apply, reset_invalid w hv]; rw [← hc]
    | execute fuel =>
      simp only [Op.apply, execute_invalid fuel w hv, Option.map_some']; rw [← hc]
    | step => simp only [Op.apply, step_invalid w hv]; rw [← hc]
    | fetch_all fuel =>
      simp only [Op.apply, fetch_all_invalid fuel w hv, Option.map_some']; rw [← hc]
    | _ => simp [Op.guarded] at hg
  · rw [hmsg]
    cases hs : w.self.status <;> cases hd : w.self.db <;>
      simp [hAB, hAC, hAD, hBA, hBC, hBD, hCA, hCB, hCD, hDA, hDB, hDC]
  · rw [hmsg]
    cases hs : w.self.status <;> cases hd : w.self.db <;>
      simp [hAB, hAC, hAD, hBA, hBC, hBD, hCA, hCB, hCD, hDA, hDB, hDC]
  · rw [hmsg]
    cases hs : w.self.status <;> cases hd : w.self.db <;>
      simp [hAB, hAC, hAD, hBA, hBC, hBD, hCA, hCB, hCD, hDA, hDB, hDC]

/-- The diagnosis of `step` on a statement given a connection but a null handle. -/
theorem guarded_operation_diagnosis_witness :
    (Op.step.apply (initialize_ (some 1) none (fresh sample_engine))).map
        (fun w => w.self.error_message) = some "Statement is uninitialized." := by
  have h := guarded_operation_diagnosis (initialize_ (some 1) none (fresh sample_engine))
    Op.step (by decide) (by decide)
  rw [h.1, Option.map_some', h.2.2.2.1.2 ⟨by decide, by decide⟩]

/-- C6, counterexample: `initialize` with a null connection and a non-null handle gives a
reachable state in which the handle is stored and the status is `UNINITIALIZED`. -/
theorem null_connection_initialize_keeps_handle :
    Reachable (initialize_ none (some 10) (fresh sample_engine)) ∧
      (initialize_ none (some 10) (fresh sample_engine)).self.stmt ≠ none ∧
      (initialize_ none (some 10) (fresh sample_engine)).self.status ≠
        StatementStatus.INITIALIZED :=
  ⟨Reachable.op (Op.init none (some 10)) _ _ (Reachable.fresh sample_engine) rfl,
    by decide, by decide⟩

/-- C6, amended: in every reachable state, a non-null handle next to a non-null connection
reference implies status `INITIALIZED`, and a non-null handle always implies a status
that is `INITIALIZED` or, the connection reference being null, `UNINITIALIZED`;
`initialize` stores the handle it is given in every case and sets `INITIALIZED` exactly
when connection and handle are both non-null, `UNINITIALIZED` otherwise. -/
theorem handle_implies_not_terminal (w : World) (hr : Reachable w) :
    (w.self.stmt ≠ none → w.self.db ≠ none →
        w.self.status = StatementStatus.INITIALIZED) ∧
      (w.self.stmt ≠ none →
        w.self.status = StatementStatus.INITIALIZED ∨
          (w.self.status = StatementStatus.UNINITIALIZED ∧ w.self.db = none)) ∧
      (∀ p_db p_stmt : Option Nat,
        (initialize_ p_db p_stmt w).self.stmt = p_stmt ∧
        ((initialize_ p_db p_stmt w).self.status = StatementStatus.INITIALIZED ↔
          (p_db ≠ none ∧ p_stmt ≠ none)) ∧
        (¬ (p_db ≠ none ∧ p_stmt ≠ none) →
          (initialize_ p_db p_stmt w).self.status = StatementStatus.UNINITIALIZED)) := by
  have hi := reachable_inv w hr
  refine ⟨fun h1 h2 => hi.init_iff.2 ⟨h1, h2⟩, ?_, ?_⟩
  · intro h1
    cases hd : w.self.db with
    | some c =>
      left
      exact hi.init_iff.2 ⟨h1, by simp [hd]⟩
    | none =>
      right
      refine ⟨?_, rfl⟩
      cases hs : w.self.status with
      | UNINITIALIZED => rfl
      | INITIALIZED => have := (hi.init_iff.1 hs).2; simp [hd] at this
      | FINALIZED => exact absurd (hi.term_stmt (Or.inl hs)) h1
      | CONNECTION_FINALIZED => exact absurd (hi.term_stmt (Or.inr hs)) h1
  · intro p_db p_stmt
    cases p_db <;> cases p_stmt <;> simp [initialize_, reset_row_state]

/-- C6, witness: the sample statement, initialized with connection `1` and handle `10`. -/
theorem handle_implies_not_terminal_witness :
    sample_world.self.stmt ≠ none ∧ sample_world.self.db ≠ none ∧
      sample_world.self.status = StatementStatus.INITIALIZED :=
  ⟨by decide, by decide,
    (handle_implies_not_terminal sample_world
      (Reachable.op (Op.init (some 1) (some 10)) _ _ (Reachable.fresh sample_engine) rfl)).1
      (by decide) (by decide)⟩

theorem still_finalized_of_only_message (w w2 : World)
    (hs : w.self.status = StatementStatus.FINALIZED) (hn : w.self.stmt = none)
    (hc : w.self.column_names = []) (he : w2.eng = w.eng)
    (hm : only_message w.self w2.self) : still_finalized w w2 := by
  obtain ⟨h1, h2, _, _, _, h6⟩ := only_message_status hm
  refine ⟨he, by rw [h1, hs], by rw [h2, hn], by rw [h6, hc], ?_, ?_⟩
  · simp [get_column_names, h1, hs, h6, hc]
  · simp [is_valid, h1, hs]

/-- C7: after `finalize`, whatever the state before it and whatever the arguments: `bind`,
`bind_all`, `bind_named`, `reset` and `execute` return false, `step` returns a code
that is neither `SQLITE_ROW` nor `SQLITE_DONE`, `fetch_all` returns the empty sequence
(`execute` and `fetch_all` for every bound on their loops); after each of these calls
the engine is as before (no call reached it), the status is still `FINALIZED`, the
handle still null, the column-name cache still empty, `get_column_names` still returns
the empty list and `is_valid` false, as they do right after `finalize`. -/
theorem after_finalize_operations_fail (w0 : World) :
    still_finalized (finalize w0) (finalize w0) ∧
      (∀ i v, (bind i v (finalize w0)).1 = false ∧
        still_finalized (finalize w0) (bind i v (finalize w0)).2) ∧
      (∀ vs, (bind_all vs (finalize w0)).1 = false ∧
        still_finalized (finalize w0) (bind_all vs (finalize w0)).2) ∧
      (∀ m, (bind_named m (finalize w0)).1 = false ∧
        still_finalized (finalize w0) (bind_named m (finalize w0)).2) ∧
      ((reset (finalize w0)).1 = false ∧
        still_finalized (finalize w0) (reset (finalize w0)).2) ∧
      (∀ fuel, ∃ w2, execute fuel (finalize w0) = some (false, w2) ∧
        still_finalized (finalize w0) w2) ∧
      ((step (finalize w0)).1 ≠ SQLITE_ROW ∧ (step (finalize w0)).1 ≠ SQLITE_DONE ∧
        still_finalized (finalize w0) (step (finalize w0)).2) ∧
      (∀ fuel, ∃ w2, fetch_all fuel (finalize w0) = some ([], w2) ∧
        still_finalized (finalize w0) w2) ∧
      still_finalized (finalize w0) (clear_bindings (finalize w0)) := by
  have hs : (finalize w0).self.status = StatementStatus.FINALIZED :=
    release_statement_status _ w0 (Or.inl rfl)
  have hn : (finalize w0).self.stmt = none := release_statement_stmt _ w0
  have hc : (finalize w0).self.column_names = [] := (release_statement_row _ w0).2.2
  have hv : (check_valid (finalize w0).self).1 = false :=
    check_valid_terminal _ (Or.inl hs)
  have key : still_finalized (finalize w0)
      { finalize w0 with self := (check_valid (finalize w0).self).2 } :=
    still_finalized_of_only_message _ _ hs hn hc rfl (check_valid_only_message _)
  refine ⟨still_finalized_of_only_message _ _ hs hn hc rfl (only_message_refl _),
    ?_, ?_, ?_, ?_, ?_, ?_, ?_, ?_⟩
  · intro i v
    rw [bind_invalid i v _ hv]
    exact ⟨rfl, key⟩
  · intro vs
    rw [bind_all_invalid vs _ hv]
    exact ⟨rfl, key⟩
  · intro m
    rw [bind_named_invalid m _ hv]
    exact ⟨rfl, key⟩
  · rw [reset_invalid _ hv]
    exact ⟨rfl, key⟩
  · intro fuel
    exact ⟨_, execute_invalid fuel _ hv, key⟩
  · rw [step_invalid _ hv]
    exact ⟨by simp [SQLITE_MISUSE, SQLITE_ROW], by simp [SQLITE_MISUSE, SQLITE_DONE], key⟩
  · intro fuel
    exact ⟨_, fetch_all_invalid fuel _ hv, key⟩
  · rw [clear_bindings_invalid _ hv]
    exact key

/-! ## The engine's parameter slots -/

theorem set_value_length (ps : List Param) (i : Nat) (v : SqlValue) :
    (set_value ps i v).length = ps.length := by
  induction ps generalizing i with
  | nil => rfl
  | cons p ps ih =>
    cases i with
    | zero => rfl
    | succ k => simp [set_value, ih]

theorem set_value_names (ps : List Param) (i : Nat) (v : SqlValue) :
    (set_value ps i v).map (fun p => p.name) = ps.map (fun p => p.name) := by
  induction ps generalizing i with
  | nil => rfl
  | cons p ps ih =>
    cases i with
    | zero => rfl
    | succ k => simp [set_value, ih]

theorem set_value_getElem? (ps : List Param) (i j : Nat) (v : SqlValue) :
    (set_value ps i v)[j]? =
      if j = i then (ps[j]?).map (fun p => { p with value := v }) else ps[j]? := by
  induction ps generalizing i j with
  | nil => simp [set_value]
  | cons p ps ih =>
    cases i with
    | zero =>
      cases j with
      | zero => simp [set_value]
      | succ j => simp [set_value]
    | succ i =>
      cases j with
      | zero => simp [set_value]
      | succ j => simp [set_value, ih]

theorem find_update (l : List (Nat × StmtData)) (h k : Nat) (f : StmtData → StmtData) :
    find_stmt (update_stmts l h f) k =
      if k = h then (find_stmt l k).map f else find_stmt l k := by
  induction l with
  | nil => simp [update_stmts, find_stmt]
  | cons p l ih =>
    by_cases ha : p.1 = h
    · by_cases hk : k = h
      · subst hk
        simp [update_stmts, find_stmt, ha]
      · have : ¬ p.1 = k := fun hp => hk (by rw [← hp, ha])
        have hh : ¬ h = k := fun hp => hk hp.symm
        simp [update_stmts, find_stmt, ha, hk, ih, hh]
    · by_cases hk : k = h
      · subst hk
        simp [update_stmts, find_stmt, ha, ih]
      · simp only [update_stmts, find_stmt, ha, hk, ih, if_false]

theorem params_log (e : Engine) (c : EngineCall) (stmt : Option Nat) :
    (e.log c).params stmt = e.params stmt := rfl

theorem data_log (e : Engine) (c : EngineCall) (stmt : Option Nat) :
    (e.log c).data stmt = e.data stmt := rfl

theorem data_set_errmsg (e : Engine) (db : Nat) (m : String) (stmt : Option Nat) :
    (e.set_errmsg db m).data stmt = e.data stmt := rfl

theorem data_update (e : Engine) (h : Nat) (f : StmtData → StmtData) (stmt : Option Nat) :
    (e.update h f).data stmt =
      if stmt = some h then (e.data stmt).map f else e.data stmt := by
  cases stmt with
  | none => simp [Engine.data]
  | some k =>
    simp only [Engine.data, Engine.update, find_update, Option.some.injEq]

theorem put_length (ok : Bool) (ps : List Param) (i : Nat) (v : SqlValue) :
    (put ok ps i v).length = ps.length := by
  unfold put
  split_ifs
  · exact set_value_length _ _ _
  · rfl

theorem put_getElem? (ok : Bool) (ps : List Param) (i j : Nat) (v : SqlValue) :
    (put ok ps i v)[j]? =
      if j = i then (ps[j]?).map (fun p => p.take ok v) else ps[j]? := by
  cases ok with
  | false =>
    have : (fun p : Param => p.take false v) = id := by
      funext p; simp [Param.take]
    simp only [put, Bool.false_eq_true, if_false, this, Option.map_id, id, ite_self]
  | true =>
    have : (fun p : Param => p.take true v) = (fun p => { p with value := v }) := by
      funext p; simp [Param.take]
    simp only [put, if_true, this, set_value_getElem?]

theorem put_name_at (ok : Bool) (ps : List Param) (i j : Nat) (v : SqlValue) :
    ((put ok ps i v)[j]?).bind (fun p => p.name) = (ps[j]?).bind (fun p => p.name) := by
  rw [put_getElem?]
  split_ifs
  · cases ps[j]? with
    | none => rfl
    | some p => cases ok <;> simp [Param.take]
  · rfl

theorem put_beyond (ok : Bool) (ps : List Param) (i : Nat) (v : SqlValue)
    (h : ps.length ≤ i) : put ok ps i v = ps := by
  apply List.ext_getElem?
  intro j
  rw [put_getElem?]
  split_ifs with hj
  · subst hj
    rw [List.getElem?_eq_none h]; rfl
  · rfl

/-- What a bind call does to the engine-side data of the statements: the statement named
takes the value at the slot, provided it is live and has not been stepped; every other
field and every other statement is as it was. -/
theorem data_bind_value (e : Engine) (stmt stmt2 : Option Nat) (i : Nat) (v : SqlValue) :
    (e.bind_value stmt ((i : Int) + 1) v).2.data stmt2 =
      if stmt2 = stmt then
        (e.data stmt2).map (fun d => { d with params := put (!d.busy) d.params i v })
      else e.data stmt2 := by
  have hidx : (((i : Int) + 1).toNat - 1) = i := by omega
  cases stmt with
  | none =>
    by_cases h2 : stmt2 = none
    · subst h2; simp [Engine.bind_value, Engine.data]
    · simp [Engine.bind_value, h2]
  | some h =>
    unfold Engine.bind_value
    simp only []
    cases hl : find_stmt e.stmts h with
    | none =>
      by_cases h2 : stmt2 = some h
      · subst h2; simp [Engine.data, hl]
      · simp [h2]
    | some d =>
      simp only []
      by_cases h2 : stmt2 = some h
      · subst h2
        have hd : e.data (some h) = some d := hl
        rw [if_pos rfl, hd, Option.map_some']
        by_cases hb : d.busy = true
        · rw [if_pos hb, hd]
          have hput : put (!d.busy) d.params i v = d.params := by simp [put, hb]
          rw [hput]
        · rw [if_neg hb]
          have hb2 : d.busy = false := by simpa using hb
          have hput : put (!d.busy) d.params i v = set_value d.params i v := by
            simp [put, hb2]
          split_ifs with hr
          · rw [data_update, if_pos rfl, hd, Option.map_some', hidx, hput]
          · have hlen : d.params.length ≤ i := by
              by_contra hc
              exact hr ⟨by omega, by omega⟩
            have hsame := put_beyond true d.params i v hlen
            simp only [put, if_true] at hsame
            rw [hd, hput, hsame]
      · rw [if_neg h2]
        split_ifs
        · rfl
        · cases stmt2 with
          | none => rfl
          | some k =>
            have hk : k ≠ h := fun hh => h2 (by rw [hh])
            simp [Engine.data, Engine.update, find_update, hk]
        · rfl

theorem params_of_data {e e2 : Engine} {stmt : Option Nat} {ps : StmtData → List Param}
    (h : e2.data stmt = (e.data stmt).map (fun d => { d with params := ps d })) :
    e2.params stmt = match e.data stmt with
      | none => []
      | some d => ps d := by
  unfold Engine.params
  rw [h]
  cases e.data stmt <;> rfl

theorem stepped_of_data {e e2 : Engine} {stmt : Option Nat} {ps : StmtData → List Param}
    (h : e2.data stmt = (e.data stmt).map (fun d => { d with params := ps d })) :
    e2.stepped stmt = e.stepped stmt := by
  unfold Engine.stepped
  rw [h]
  cases e.data stmt <;> rfl

theorem params_eq_of_data {e e2 : Engine} {stmt : Option Nat}
    (h : e2.data stmt = e.data stmt) : e2.params stmt = e.params stmt := by
  unfold Engine.params
  rw [h]

theorem stepped_eq_of_data {e e2 : Engine} {stmt : Option Nat}
    (h : e2.data stmt = e.data stmt) : e2.stepped stmt = e.stepped stmt := by
  unfold Engine.stepped
  rw [h]

/-- The parameter slots after a change of the data that only puts a value. -/
theorem params_put {e e2 : Engine} {stmt : Option Nat} {i : Nat} {v : SqlValue}
    (h : e2.data stmt =
      (e.data stmt).map (fun d => { d with params := put (!d.busy) d.params i v })) :
    e2.params stmt = put (!e.stepped stmt) (e.params stmt) i v := by
  rw [params_of_data h]
  unfold Engine.params Engine.stepped
  cases e.data stmt with
  | none => simp [put, set_value]
  | some d => rfl

theorem bind_value_calls (e : Engine) (stmt : Option Nat) (idx : Int) (v : SqlValue) :
    (e.bind_value stmt idx v).2.calls = e.calls := by
  unfold Engine.bind_value
  split
  · rfl
  · split
    · rfl
    · split_ifs <;> rfl

/-- The code a bind call returns on a live statement that has been stepped. -/
theorem bind_value_stepped (e : Engine) (stmt : Option Nat) (idx : Int) (v : SqlValue)
    (h : e.stepped stmt = true) : e.bind_value stmt idx v = (SQLITE_MISUSE, e) := by
  unfold Engine.stepped Engine.data at h
  unfold Engine.bind_value
  cases stmt with
  | none => rfl
  | some k =>
    simp only [] at h ⊢
    cases hd : find_stmt e.stmts k with
    | none => rfl
    | some d =>
      rw [hd] at h
      simp only [] at h ⊢
      rw [if_pos h]

theorem param_count_eq (e : Engine) (stmt : Option Nat) :
    (sqlite3_bind_parameter_count e stmt).1 = ((e.params stmt).length : Int) ∧
      (sqlite3_bind_parameter_count e stmt).2.params = e.params ∧
      (sqlite3_bind_parameter_count e stmt).2 = e.log (EngineCall.bind_parameter_count stmt) := by
  unfold sqlite3_bind_parameter_count Engine.params
  simp only [Engine.log, Engine.data]
  refine ⟨?_, ?_, ?_⟩
  · cases stmt with
    | none => rfl
    | some h => simp only []; split <;> simp_all
  · cases stmt with
    | none => rfl
    | some h => simp only []; split <;> rfl
  · cases stmt with
    | none => rfl
    | some h => simp only []; split <;> rfl

theorem param_name_log (e : Engine) (stmt : Option Nat) (idx : Int) :
    (sqlite3_bind_parameter_name e stmt idx).2 =
      e.log (EngineCall.bind_parameter_name stmt idx) := by
  unfold sqlite3_bind_parameter_name
  simp only []
  split <;> rfl

/-- The effect of `bind_sqlite_parameter` at slot `i + 1`: for a value of a supported type
the bind call is made and the object is as it was; the statement takes the value at the
slot when it is live and has not been stepped, and nothing else of the engine's data
changes.  A value of another type only leaves the error message. -/
theorem bind_sqlite_parameter_effect (v : Variant) (i : Nat) (w : World) :
    (bind_sqlite_parameter v ((i : Int) + 1) w).1 = supported v ∧
      (supported v = true →
        (bind_sqlite_parameter v ((i : Int) + 1) w).2.self = w.self ∧
        ∀ stmt2, (bind_sqlite_parameter v ((i : Int) + 1) w).2.eng.data stmt2 =
          if stmt2 = w.self.stmt then
            (w.eng.data stmt2).map
              (fun d => { d with params := put (!d.busy) d.params i (stored v) })
          else w.eng.data stmt2) ∧
      (supported v = false →
        (bind_sqlite_parameter v ((i : Int) + 1) w).2.eng = w.eng) := by
  cases v with
  | NIL =>
    refine ⟨rfl, fun _ => ⟨rfl, fun s2 => ?_⟩, fun h => by simp [supported] at h⟩
    simp only [bind_sqlite_parameter, sqlite3_bind_null, data_bind_value, data_log, stored,
      encoding]
  | BOOL b =>
    refine ⟨rfl, fun _ => ⟨rfl, fun s2 => ?_⟩, fun h => by simp [supported] at h⟩
    simp only [bind_sqlite_parameter, sqlite3_bind_int64, data_bind_value, data_log, stored,
      encoding]
  | INT x =>
    refine ⟨rfl, fun _ => ⟨rfl, fun s2 => ?_⟩, fun h => by simp [supported] at h⟩
    simp only [bind_sqlite_parameter, sqlite3_bind_int64, data_bind_value, data_log, stored,
      encoding]
  | FLOAT d =>
    refine ⟨rfl, fun _ => ⟨rfl, fun s2 => ?_⟩, fun h => by simp [supported] at h⟩
    simp only [bind_sqlite_parameter, sqlite3_bind_double, data_bind_value, data_log, stored]
  | STRING s =>
    refine ⟨rfl, fun _ => ⟨rfl, fun s2 => ?_⟩, fun h => by simp [supported] at h⟩
    simp only [bind_sqlite_parameter, sqlite3_bind_text, data_bind_value, data_log, stored,
      encoding]
  | STRING_NAME s =>
    refine ⟨rfl, fun _ => ⟨rfl, fun s2 => ?_⟩, fun h => by simp [supported] at h⟩
    simp only [bind_sqlite_parameter, sqlite3_bind_text, data_bind_value, data_log, stored,
      encoding]
  | PACKED_BYTE_ARRAY bytes =>
    cases bytes with
    | nil =>
      refine ⟨rfl, fun _ => ⟨rfl, fun s2 => ?_⟩, fun h => by simp [supported] at h⟩
      simp [bind_sqlite_parameter, sqlite3_bind_null, data_bind_value, data_log, stored,
        encoding]
    | cons b bs =>
      refine ⟨rfl, fun _ => ⟨rfl, fun s2 => ?_⟩, fun h => by simp [supported] at h⟩
      simp [bind_sqlite_parameter, sqlite3_bind_blob64, data_bind_value, data_log, stored,
        encoding]
  | OTHER t =>
    exact ⟨rfl, fun h => by simp [supported] at h, fun _ => rfl⟩

/-- The effect of `bind_sqlite_parameter` on the parameter slots, `ok` saying that the
statement has not been stepped: the slot takes the value when `ok`; whether a statement
has been stepped does not change. -/
theorem bind_sqlite_parameter_slots (v : Variant) (i : Nat) (w : World) (ok : Bool)
    (hok : (!w.eng.stepped w.self.stmt) = ok) :
    (bind_sqlite_parameter v ((i : Int) + 1) w).1 = supported v ∧
      (supported v = true →
        (bind_sqlite_parameter v ((i : Int) + 1) w).2.self = w.self ∧
        ∀ stmt2, (bind_sqlite_parameter v ((i : Int) + 1) w).2.eng.params stmt2 =
          if stmt2 = w.self.stmt then put ok (w.eng.params stmt2) i (stored v)
          else w.eng.params stmt2) ∧
      (supported v = false →
        (bind_sqlite_parameter v ((i : Int) + 1) w).2.eng = w.eng) ∧
      (∀ stmt2, (bind_sqlite_parameter v ((i : Int) + 1) w).2.eng.stepped stmt2 =
        w.eng.stepped stmt2) := by
  obtain ⟨e1, e2, e3⟩ := bind_sqlite_parameter_effect v i w
  refine ⟨e1, fun hs => ⟨(e2 hs).1, fun stmt2 => ?_⟩, e3, fun stmt2 => ?_⟩
  · have hd := (e2 hs).2 stmt2
    split_ifs with hst
    · rw [if_pos hst] at hd
      rw [params_put hd, hst, hok]
    · rw [if_neg hst] at hd
      exact params_eq_of_data hd
  · cases hs : supported v
    · rw [e3 hs]
    · have hd := (e2 hs).2 stmt2
      split_ifs at hd with hst
      · exact stepped_of_data hd
      · exact stepped_eq_of_data hd

theorem toInt32_of_range (x : Int) (h0 : 0 ≤ x) (h1 : x < 2 ^ 31) : toInt32 x = x := by
  unfold toInt32
  omega

theorem binding_of_params_eq (e e2 : Engine) (stmt : Option Nat) (k : Nat)
    (h : e2.params stmt = e.params stmt) : e2.binding stmt k = e.binding stmt k := by
  unfold Engine.binding
  rw [h]

theorem binding_set_value (e e2 : Engine) (stmt : Option Nat) (i : Nat) (x : SqlValue)
    (h : e2.params stmt = set_value (e.params stmt) i x) (hi : i < (e.params stmt).length)
    (k : Nat) :
    e2.binding stmt k = if k = i + 1 then some x else e.binding stmt k := by
  unfold Engine.binding
  rw [h]
  by_cases hk : k = 0
  · subst hk; simp
  · simp only [hk, if_false, set_value_getElem?]
    by_cases hki : k = i + 1
    · subst hki
      simp [List.getElem?_eq_getElem hi]
    · have : ¬ k - 1 = i := by omega
      simp [this, hki]

theorem binding_put (e e2 : Engine) (stmt : Option Nat) (i : Nat) (x : SqlValue) (ok : Bool)
    (h : e2.params stmt = put ok (e.params stmt) i x) (hi : i < (e.params stmt).length)
    (k : Nat) :
    e2.binding stmt k = if k = i + 1 ∧ ok = true then some x else e.binding stmt k := by
  cases ok with
  | false =>
    simp only [Bool.false_eq_true, and_false, if_false]
    exact binding_of_params_eq _ _ _ _ (by rw [h]; rfl)
  | true =>
    simp only [and_true]
    exact binding_set_value _ _ _ _ _ (by rw [h]; rfl) hi k

theorem stored_eq_encoding (v : Variant) (h : ∀ d, v = Variant.FLOAT d → d.is_nan = false) :
    stored v = encoding v := by
  cases v with
  | FLOAT d => simp [stored, encoding, h d rfl]
  | _ => rfl

/-- The body of `bind` once the validity check has passed. -/
theorem bind_valid_eq (w : World) (i : Int) (v : Variant) (hv : valid w) :
    bind i v w =
      if i < 0 ∨ i ≥ ((w.eng.params w.self.stmt).length : Int) then
        (false, { self := { w.self with error_message := "Binding index is out of range." },
                  eng := (sqlite3_bind_parameter_count w.eng w.self.stmt).2 })
      else bind_sqlite_parameter v (toInt32 i + 1)
        { self := w.self, eng := (sqlite3_bind_parameter_count w.eng w.self.stmt).2 } := by
  have hs2 := check_valid_true_snd _ hv
  obtain ⟨pc1, -, -⟩ := param_count_eq w.eng w.self.stmt
  unfold bind
  unfold valid at hv
  simp only [hv, hs2, pc1, Bool.true_eq_false, if_false]

/-- C8: on a valid statement whose engine reports `n` parameters (`n` an `int`), for every
64-bit index `i` and every value `v`: `bind(i, v)` returns true exactly when
`0 ≤ i < n` and `v` has a supported type, and then leaves the object, its error message
included, as it was.  When the statement has not been stepped since it was prepared or
last reset and `bind` returns true, the engine's slot `i + 1` of this statement holds
the value bound for `v` (its encoding, null for a NaN double) and every other slot, of
this and of every other statement, holds what it held.  When the statement has been
stepped, the engine refuses the bind call, whose result code the code does not look at:
every slot holds what it held, also when `bind` returns true.  When `bind` returns
false, every slot holds what it held. -/
theorem bind_index_and_type (w : World) (i : Int) (v : Variant) (hv : valid w)
    (hn : (sqlite3_bind_parameter_count w.eng w.self.stmt).1 < 2 ^ 31) :
    ((bind i v w).1 = true ↔
        (0 ≤ i ∧ i < (sqlite3_bind_parameter_count w.eng w.self.stmt).1 ∧
          supported v = true)) ∧
      ((bind i v w).1 = true → (bind i v w).2.self = w.self) ∧
      (w.eng.stepped w.self.stmt = false → (bind i v w).1 = true →
        ∀ (stmt2 : Option Nat) (k : Nat),
          (bind i v w).2.eng.binding stmt2 k =
            if stmt2 = w.self.stmt ∧ (k : Int) = i + 1 then some (stored v)
            else w.eng.binding stmt2 k) ∧
      (w.eng.stepped w.self.stmt = true → ∀ (stmt2 : Option Nat) (k : Nat),
        (bind i v w).2.eng.binding stmt2 k = w.eng.binding stmt2 k) ∧
      ((bind i v w).1 = false → ∀ (stmt2 : Option Nat) (k : Nat),
        (bind i v w).2.eng.binding stmt2 k = w.eng.binding stmt2 k) ∧
      ((∀ d, v = Variant.FLOAT d → d.is_nan = false) → stored v = encoding v) := by
  obtain ⟨pc1, pc2, pc3⟩ := param_count_eq w.eng w.self.stmt
  rw [pc1] at hn ⊢
  have hb := bind_valid_eq w i v hv
  refine ⟨?_, ?_, ?_, ?_, ?_, stored_eq_encoding v⟩
  all_goals by_cases hr : i < 0 ∨ i ≥ ((w.eng.params w.self.stmt).length : Int)
  · rw [hb, if_pos hr]
    constructor
    · intro h; exact Bool.noConfusion h
    · rintro ⟨h0, h1, -⟩; omega
  · have h0 : 0 ≤ i := by omega
    have h1 : i < ((w.eng.params w.self.stmt).length : Int) := by omega
    have hcast : toInt32 i + 1 = ((i.toNat : Nat) : Int) + 1 := by
      rw [toInt32_of_range i h0 (by omega)]
      omega
    rw [hb, if_neg hr, hcast]
    obtain ⟨e1, -, -⟩ := bind_sqlite_parameter_effect v i.toNat
      { self := w.self, eng := (sqlite3_bind_parameter_count w.eng w.self.stmt).2 }
    rw [e1]
    constructor
    · intro h; exact ⟨h0, h1, h⟩
    · rintro ⟨-, -, h⟩; exact h
  · rw [hb, if_pos hr]
    intro h; exact Bool.noConfusion h
  · have h0 : 0 ≤ i := by omega
    have hcast : toInt32 i + 1 = ((i.toNat : Nat) : Int) + 1 := by
      rw [toInt32_of_range i h0 (by omega)]
      omega
    rw [hb, if_neg hr, hcast]
    obtain ⟨e1, e2, -⟩ := bind_sqlite_parameter_effect v i.toNat
      { self := w.self, eng := (sqlite3_bind_parameter_count w.eng w.self.stmt).2 }
    intro hsup
    rw [e1] at hsup
    exact (e2 hsup).1
  · rw [hb, if_pos hr]
    intro _ h; exact Bool.noConfusion h
  · have h0 : 0 ≤ i := by omega
    have hcast : toInt32 i + 1 = ((i.toNat : Nat) : Int) + 1 := by
      rw [toInt32_of_range i h0 (by omega)]
      omega
    rw [hb, if_neg hr, hcast]
    intro hst
    have hok : (!(sqlite3_bind_parameter_count w.eng w.self.stmt).2.stepped w.self.stmt) =
        true := by
      rw [pc3]
      show (!w.eng.stepped w.self.stmt) = true
      rw [hst]; rfl
    obtain ⟨e1, e2, -, -⟩ := bind_sqlite_parameter_slots v i.toNat
      { self := w.self, eng := (sqlite3_bind_parameter_count w.eng w.self.stmt).2 } true hok
    intro hsup stmt2 k
    rw [e1] at hsup
    have hp := (e2 hsup).2 stmt2
    simp only [pc2] at hp
    by_cases hst2 : stmt2 = w.self.stmt
    · subst hst2
      rw [if_pos rfl] at hp
      rw [binding_put _ _ _ _ _ _ hp (by omega) k]
      have : ((k : Int) = i + 1) ↔ k = i.toNat + 1 := by omega
      simp only [true_and, and_true, this]
    · rw [if_neg hst2] at hp
      simp only [hst2, false_and, if_false]
      exact binding_of_params_eq _ _ _ _ hp
  · rw [hb, if_pos hr]
    intro _ stmt2 k
    exact binding_of_params_eq _ _ _ _ (by simp only [pc2])
  · have h0 : 0 ≤ i := by omega
    have hcast : toInt32 i + 1 = ((i.toNat : Nat) : Int) + 1 := by
      rw [toInt32_of_range i h0 (by omega)]
      omega
    rw [hb, if_neg hr, hcast]
    intro hst stmt2 k
    have hok : (!(sqlite3_bind_parameter_count w.eng w.self.stmt).2.stepped w.self.stmt) =
        false := by
      rw [pc3]
      show (!w.eng.stepped w.self.stmt) = false
      rw [hst]; rfl
    obtain ⟨e1, e2, e3, -⟩ := bind_sqlite_parameter_slots v i.toNat
      { self := w.self, eng := (sqlite3_bind_parameter_count w.eng w.self.stmt).2 } false hok
    cases hsup : supported v
    · rw [e3 hsup]
      exact binding_of_params_eq _ _ _ _ (by simp only [pc2])
    · have hp := (e2 hsup).2 stmt2
      simp only [pc2] at hp
      apply binding_of_params_eq
      rw [hp]
      split_ifs <;> rfl
  · rw [hb, if_pos hr]
    intro _ stmt2 k
    exact binding_of_params_eq _ _ _ _ (by simp only [pc2])
  · have h0 : 0 ≤ i := by omega
    have hcast : toInt32 i + 1 = ((i.toNat : Nat) : Int) + 1 := by
      rw [toInt32_of_range i h0 (by omega)]
      omega
    rw [hb, if_neg hr, hcast]
    obtain ⟨e1, -, e3⟩ := bind_sqlite_parameter_effect v i.toNat
      { self := w.self, eng := (sqlite3_bind_parameter_count w.eng w.self.stmt).2 }
    intro hsup stmt2 k
    rw [e1] at hsup
    rw [e3 hsup]
    exact binding_of_params_eq _ _ _ _ (by simp only [pc2])

/-- C8, witness: the sample statement after one `step`.  It is valid, the engine refuses a
bind call with `SQLITE_MISUSE`, `bind` of the integer 2 to index 0 returns true and
leaves the error message as it was, and slot 1 still holds the null value it held;
before the `step` the same `bind` puts the integer into slot 1. -/
theorem bind_index_and_type_witness :
    valid (step sample_world).2 ∧
      (sqlite3_bind_int64 (step sample_world).2.eng (some 10) 1 2).1 = SQLITE_MISUSE ∧
      (bind 0 (Variant.INT 2) (step sample_world).2).1 = true ∧
      (bind 0 (Variant.INT 2) (step sample_world).2).2.self.error_message =
        (step sample_world).2.self.error_message ∧
      (step sample_world).2.eng.binding (some 10) 1 = some SqlValue.null ∧
      (bind 0 (Variant.INT 2) (step sample_world).2).2.eng.binding (some 10) 1 =
        some SqlValue.null ∧
      (bind 0 (Variant.INT 2) sample_world).2.eng.binding (some 10) 1 =
        some (SqlValue.int64 2) :=
  ⟨by decide, by decide,
    (bind_index_and_type (step sample_world).2 0 (Variant.INT 2) (by decide) (by decide)).1.2
      (by decide),
    by decide, by decide,
    ((bind_index_and_type (step sample_world).2 0 (Variant.INT 2) (by decide)
      (by decide)).2.2.2.1 (by decide) (some 10) 1).trans (by decide),
    by decide⟩

/-! ## Positional binding of all parameters -/

/-- The loop of `bind_all` over the indices `a, …, a + m - 1`, `ok` saying that the statement
has not been stepped: it makes the bind calls for the values at `a, …, a + c - 1`, where
`a + c` is the first index of a value of an unsupported type (`c = m` when there is
none), and returns true exactly when `c = m`; the slots take the values when `ok`. -/
theorem bind_all_loop_effect (vs : List Variant) (m a : Nat) (w : World) (ok : Bool)
    (hok : (!w.eng.stepped w.self.stmt) = ok)
    (hlen : a + m ≤ (w.eng.params w.self.stmt).length) :
    ∃ c, c ≤ m ∧
      (∀ j, a ≤ j → j < a + c → supported (vs.getD j Variant.NIL) = true) ∧
      ((bind_all_loop vs (List.range' a m) w).1 = true ↔ c = m) ∧
      (c < m → supported (vs.getD (a + c) Variant.NIL) = false) ∧
      ((bind_all_loop vs (List.range' a m) w).2.eng.params w.self.stmt).length =
        (w.eng.params w.self.stmt).length ∧
      (∀ j, ((bind_all_loop vs (List.range' a m) w).2.eng.params w.self.stmt)[j]? =
        if a ≤ j ∧ j < a + c then
          ((w.eng.params w.self.stmt)[j]?).map
            (fun p => p.take ok (stored (vs.getD j Variant.NIL)))
        else (w.eng.params w.self.stmt)[j]?) ∧
      (∀ stmt2, stmt2 ≠ w.self.stmt →
        (bind_all_loop vs (List.range' a m) w).2.eng.params stmt2 = w.eng.params stmt2) := by
  induction m generalizing a w with
  | zero =>
    refine ⟨0, le_refl _, ?_, ?_, ?_, rfl, ?_, ?_⟩
    · intro j h1 h2; omega
    · simp [bind_all_loop]
    · intro h; omega
    · intro j
      have : ¬ (a ≤ j ∧ j < a + 0) := by omega
      rw [if_neg this]
      rfl
    · intro stmt2 _; rfl
  | succ m ih =>
    obtain ⟨e1, e2, e3, e4⟩ := bind_sqlite_parameter_slots (vs.getD a Variant.NIL) a w ok hok
    have hstep : bind_all_loop vs (List.range' a (m + 1)) w =
        if (bind_sqlite_parameter (vs.getD a Variant.NIL) ((a : Int) + 1) w).1 = false then
          (false, (bind_sqlite_parameter (vs.getD a Variant.NIL) ((a : Int) + 1) w).2)
        else bind_all_loop vs (List.range' (a + 1) m)
          (bind_sqlite_parameter (vs.getD a Variant.NIL) ((a : Int) + 1) w).2 := rfl
    cases hsup : supported (vs.getD a Variant.NIL)
    · rw [hstep, e1, hsup, if_pos rfl]
      refine ⟨0, Nat.zero_le _, ?_, ?_, ?_, ?_, ?_, ?_⟩
      · intro j h1 h2; omega
      · constructor
        · intro h; exact Bool.noConfusion h
        · intro h; omega
      · intro _; exact hsup
      · rw [e3 hsup]
      · intro j
        have : ¬ (a ≤ j ∧ j < a + 0) := by omega
        rw [e3 hsup, if_neg this]
      · intro stmt2 _; rw [e3 hsup]
    · obtain ⟨f1, f2⟩ := e2 hsup
      have hp := f2 w.self.stmt
      rw [if_pos rfl] at hp
      have hst : (bind_sqlite_parameter (vs.getD a Variant.NIL) ((a : Int) + 1) w).2.self.stmt =
          w.self.stmt := by rw [f1]
      have hne : ¬ ((bind_sqlite_parameter (vs.getD a Variant.NIL) ((a : Int) + 1) w).1 = false) := by
        rw [e1, hsup]; simp
      rw [hstep, if_neg hne]
      obtain ⟨c, hc, g1, g2, g3, g4, g5, g6⟩ := ih (a + 1)
        (bind_sqlite_parameter (vs.getD a Variant.NIL) ((a : Int) + 1) w).2
        (by rw [hst, e4, hok])
        (by rw [hst, hp, put_length]; omega)
      rw [hst] at g4 g5 g6
      rw [hp] at g4 g5
      rw [put_length] at g4
      refine ⟨c + 1, by omega, ?_, ?_, ?_, g4, ?_, ?_⟩
      · intro j h1 h2
        by_cases hj : j = a
        · rw [hj]; exact hsup
        · exact g1 j (by omega) (by omega)
      · rw [g2]; omega
      · intro h
        have := g3 (by omega)
        rw [show a + (c + 1) = a + 1 + c by omega]
        exact this
      · intro j
        rw [g5 j, put_getElem?]
        by_cases hj : j = a
        · subst hj
          have h1 : ¬ (j + 1 ≤ j ∧ j < j + 1 + c) := by omega
          have h2 : j ≤ j ∧ j < j + (c + 1) := by omega
          rw [if_neg h1, if_pos h2, if_pos rfl]
        · by_cases hr : a + 1 ≤ j ∧ j < a + 1 + c
          · have h2 : a ≤ j ∧ j < a + (c + 1) := by omega
            rw [if_pos hr, if_pos h2, if_neg hj]
          · have h2 : ¬ (a ≤ j ∧ j < a + (c + 1)) := by omega
            rw [if_neg hr, if_neg h2, if_neg hj]
      · intro stmt2 h2
        rw [g6 stmt2 h2]
        have := f2 stmt2
        rw [if_neg h2] at this
        exact this

theorem bind_all_loop_congr (vs vs2 : List Variant) (is : List Nat) (w : World)
    (h : ∀ i, i ∈ is → vs2.getD i Variant.NIL = vs.getD i Variant.NIL) :
    bind_all_loop vs2 is w = bind_all_loop vs is w := by
  induction is generalizing w with
  | nil => rfl
  | cons i rest ih =>
    unfold bind_all_loop
    simp only []
    rw [h i (List.mem_cons_self _ _)]
    split_ifs
    · rfl
    · exact ih _ (fun k hk => h k (List.mem_cons_of_mem _ hk))

theorem binding_succ (e : Engine) (stmt : Option Nat) (j : Nat) :
    e.binding stmt (j + 1) = ((e.params stmt)[j]?).map (fun p => p.value) := by
  simp [Engine.binding]

theorem binding_zero (e : Engine) (stmt : Option Nat) : e.binding stmt 0 = none := by
  simp [Engine.binding]

/-- The value of a slot whose parameter took, or did not take, a value. -/
theorem value_take (ps : List Param) (j : Nat) (ok : Bool) (x : SqlValue)
    (hj : j < ps.length) :
    ((ps[j]?).map (fun p => p.take ok x)).map (fun p => p.value) =
      if ok = true then some x else (ps[j]?).map (fun p => p.value) := by
  rw [List.getElem?_eq_getElem hj]
  cases ok <;> simp [Param.take]

/-- The body of `bind_all` once the validity check has passed, for a statement of `n`
parameters. -/
theorem bind_all_valid_eq (w : World) (vs : List Variant) (n : Nat) (hv : valid w)
    (hcount : (sqlite3_bind_parameter_count w.eng w.self.stmt).1 = (n : Int)) :
    bind_all vs w =
      if (vs.length : Int) < (n : Int) then
        (false, { self := { w.self with error_message :=
            "Insufficient number of parameters to satisfy required bindings in statement." },
                  eng := (sqlite3_bind_parameter_count w.eng w.self.stmt).2 })
      else bind_all_loop vs (List.range' 0 n)
        { self := w.self, eng := (sqlite3_bind_parameter_count w.eng w.self.stmt).2 } := by
  have hs2 := check_valid_true_snd _ hv
  unfold bind_all
  unfold valid at hv
  simp only [hv, hs2, hcount, Bool.true_eq_false, if_false, Int.toNat_ofNat,
    List.range_eq_range']

/-- C9: on a valid statement whose engine reports `n` parameters, for every sequence of
values.  With fewer than `n` values `bind_all` returns false and no binding changes.
With at least `n` values, the first `n` of supported types, it returns true and, when
the statement has not been stepped since it was prepared or last reset, slot `k + 1`
holds the value bound for `values[k]` (its encoding, null for a NaN double) for every
`k < n`.  With at least `n` values, the values from position `n` on are ignored (any
other sequence with the same first `n` values gives the same result and state).  When
`k < n` is the position of the first value of an unsupported type, it returns false,
slots `1..k` hold the values bound for `values[0..k-1]` when the statement has not been
stepped, and the slots from `k + 1` on hold what they held.  When the statement has been
stepped, the engine refuses every bind call, whose result code the code does not look
at: every slot holds what it held, also when `bind_all` returns true. -/
theorem bind_all_positional (w : World) (vs : List Variant) (n : Nat) (hv : valid w)
    (hcount : (sqlite3_bind_parameter_count w.eng w.self.stmt).1 = (n : Int)) :
    (vs.length < n →
        (bind_all vs w).1 = false ∧
        ∀ (stmt2 : Option Nat) (k : Nat),
          (bind_all vs w).2.eng.binding stmt2 k = w.eng.binding stmt2 k) ∧
      (n ≤ vs.length → (∀ k, k < n → supported (vs.getD k Variant.NIL) = true) →
        (bind_all vs w).1 = true ∧
        (w.eng.stepped w.self.stmt = false →
          ∀ k, k < n → (bind_all vs w).2.eng.binding w.self.stmt (k + 1) =
            some (stored (vs.getD k Variant.NIL)))) ∧
      (n ≤ vs.length → ∀ vs2 : List Variant, n ≤ vs2.length →
        (∀ k, k < n → vs2.getD k Variant.NIL = vs.getD k Variant.NIL) →
        bind_all vs2 w = bind_all vs w) ∧
      (n ≤ vs.length → ∀ k, k < n → supported (vs.getD k Variant.NIL) = false →
        (∀ j, j < k → supported (vs.getD j Variant.NIL) = true) →
        (bind_all vs w).1 = false ∧
        (w.eng.stepped w.self.stmt = false →
          ∀ j, j < k → (bind_all vs w).2.eng.binding w.self.stmt (j + 1) =
            some (stored (vs.getD j Variant.NIL))) ∧
        (∀ j, k ≤ j → (bind_all vs w).2.eng.binding w.self.stmt (j + 1) =
          w.eng.binding w.self.stmt (j + 1))) ∧
      (w.eng.stepped w.self.stmt = true → ∀ (stmt2 : Option Nat) (k : Nat),
        (bind_all vs w).2.eng.binding stmt2 k = w.eng.binding stmt2 k) := by
  obtain ⟨pc1, pc2, pc3⟩ := param_count_eq w.eng w.self.stmt
  have hnlen : (w.eng.params w.self.stmt).length = n := by
    rw [pc1] at hcount; exact_mod_cast hcount
  have hb := fun us => bind_all_valid_eq w us n hv hcount
  have hok : (!(sqlite3_bind_parameter_count w.eng w.self.stmt).2.stepped w.self.stmt) =
      !w.eng.stepped w.self.stmt := by
    rw [pc3]; rfl
  obtain ⟨c, hc, g1, g2, g3, -, g5, g6⟩ := bind_all_loop_effect vs n 0
    { self := w.self, eng := (sqlite3_bind_parameter_count w.eng w.self.stmt).2 }
    (!w.eng.stepped w.self.stmt) hok
    (by simp only [pc2]; omega)
  simp only [pc2] at g5 g6
  have hslot : ∀ j, n ≤ vs.length →
      (bind_all vs w).2.eng.binding w.self.stmt (j + 1) =
        if j < c ∧ w.eng.stepped w.self.stmt = false then
          some (stored (vs.getD j Variant.NIL))
        else w.eng.binding w.self.stmt (j + 1) := by
    intro j hle
    have hlt : ¬ ((vs.length : Int) < (n : Int)) := by omega
    rw [hb vs, if_neg hlt, binding_succ, binding_succ, g5 j]
    by_cases hj : j < c
    · have h1 : 0 ≤ j ∧ j < 0 + c := by omega
      have h2 : j < (w.eng.params w.self.stmt).length := by omega
      rw [if_pos h1, value_take _ _ _ _ h2]
      cases hst : w.eng.stepped w.self.stmt <;> simp [hj]
    · have h1 : ¬ (0 ≤ j ∧ j < 0 + c) := by omega
      have h3 : ¬ (j < c ∧ w.eng.stepped w.self.stmt = false) := fun h => hj h.1
      rw [if_neg h1, if_neg h3]
  have hshort : vs.length < n → ∀ (stmt2 : Option Nat) (k : Nat),
      (bind_all vs w).2.eng.binding stmt2 k = w.eng.binding stmt2 k := by
    intro hlt stmt2 k
    have hlt2 : (vs.length : Int) < (n : Int) := by omega
    rw [hb vs, if_pos hlt2]
    exact binding_of_params_eq _ _ _ _ (by simp only [pc2])
  refine ⟨?_, ?_, ?_, ?_, ?_⟩
  · intro hlt
    have hlt2 : (vs.length : Int) < (n : Int) := by omega
    refine ⟨?_, hshort hlt⟩
    rw [hb vs, if_pos hlt2]
  · intro hle hall
    have hlt : ¬ ((vs.length : Int) < (n : Int)) := by omega
    have hcn : c = n := by
      by_contra hne
      have hlt2 : c < n := by omega
      have h1 := g3 hlt2
      have h2 := hall c hlt2
      rw [Nat.zero_add] at h1
      rw [h1] at h2
      exact Bool.noConfusion h2
    refine ⟨?_, ?_⟩
    · rw [hb vs, if_neg hlt]; exact g2.2 hcn
    · intro hst k hk
      rw [hslot k hle, if_pos ⟨by omega, hst⟩]
  · intro hle vs2 hle2 hagree
    have hlt : ¬ ((vs.length : Int) < (n : Int)) := by omega
    have hlt2 : ¬ ((vs2.length : Int) < (n : Int)) := by omega
    rw [hb vs, hb vs2, if_neg hlt, if_neg hlt2]
    apply bind_all_loop_congr
    intro i hi
    rw [List.mem_range'_1] at hi
    exact hagree i (by omega)
  · intro hle k hk hbad hgood
    have hlt : ¬ ((vs.length : Int) < (n : Int)) := by omega
    have hck : c = k := by
      rcases Nat.lt_trichotomy c k with h | h | h
      · have h1 := g3 (by omega)
        rw [Nat.zero_add] at h1
        have h2 := hgood c h
        rw [h1] at h2
        exact Bool.noConfusion h2
      · exact h
      · have h1 := g1 k (Nat.zero_le _) (by omega)
        rw [hbad] at h1
        exact Bool.noConfusion h1
    refine ⟨?_, ?_, ?_⟩
    · rw [hb vs, if_neg hlt]
      cases hr : (bind_all_loop vs (List.range' 0 n)
        { self := w.self, eng := (sqlite3_bind_parameter_count w.eng w.self.stmt).2 }).1
      · rfl
      · have := g2.1 hr; omega
    · intro hst j hj
      rw [hslot j hle, if_pos ⟨by omega, hst⟩]
    · intro j hj
      have h3 : ¬ (j < c ∧ w.eng.stepped w.self.stmt = false) := fun h => by omega
      rw [hslot j hle, if_neg h3]
  · intro hst stmt2 k
    by_cases hlen : vs.length < n
    · exact hshort hlen stmt2 k
    · have hle : n ≤ vs.length := by omega
      have hlt : ¬ ((vs.length : Int) < (n : Int)) := by omega
      by_cases hs2 : stmt2 = w.self.stmt
      · subst hs2
        cases k with
        | zero => rw [binding_zero, binding_zero]
        | succ j =>
          have h3 : ¬ (j < c ∧ w.eng.stepped w.self.stmt = false) := by
            rw [hst]; simp
          rw [hslot j hle, if_neg h3]
      · apply binding_of_params_eq
        rw [hb vs, if_neg hlt]
        exact g6 stmt2 hs2

/-- C9, witness: the sample statement, of two parameters, after one `step`.  It is valid,
`bind_all` of two integers returns true, and the two slots still hold the null value
and the integer 5 they held. -/
theorem bind_all_positional_witness :
    valid (step sample_world).2 ∧
      (bind_all [Variant.INT 4, Variant.INT 6] (step sample_world).2).1 = true ∧
      (bind_all [Variant.INT 4, Variant.INT 6] (step sample_world).2).2.eng.binding
        (some 10) 1 = some SqlValue.null ∧
      (bind_all [Variant.INT 4, Variant.INT 6] (step sample_world).2).2.eng.binding
        (some 10) 2 = some (SqlValue.int64 5) :=
  ⟨by decide,
    ((bind_all_positional (step sample_world).2 [Variant.INT 4, Variant.INT 6] 2 (by decide)
      (by decide)).2.1 (by decide) (by intro k hk; interval_cases k <;> decide)).1,
    ((bind_all_positional (step sample_world).2 [Variant.INT 4, Variant.INT 6] 2 (by decide)
      (by decide)).2.2.2.2 (by decide) (some 10) 1).trans (by decide),
    ((bind_all_positional (step sample_world).2 [Variant.INT 4, Variant.INT 6] 2 (by decide)
      (by decide)).2.2.2.2 (by decide) (some 10) 2).trans (by decide)⟩

/-! ## Binding by name -/

theorem has_set_ne (d : Dictionary) (k k2 v : Variant) (h : k2 ≠ k) :
    Dictionary.has (Dictionary.set d k v) k2 = Dictionary.has d k2 := by
  induction d with
  | nil =>
    have : ¬ k = k2 := fun hh => h hh.symm
    simp [Dictionary.set, Dictionary.has, this]
  | cons p rest ih =>
    unfold Dictionary.has at ih ⊢
    unfold Dictionary.set
    split_ifs with hp
    · simp [List.any_cons]
    · simp only [List.any_cons, ih]

theorem get_set_ne (d : Dictionary) (k k2 v : Variant) (h : k2 ≠ k) :
    Dictionary.get (Dictionary.set d k v) k2 = Dictionary.get d k2 := by
  induction d with
  | nil =>
    have : ¬ k = k2 := fun hh => h hh.symm
    simp [Dictionary.set, Dictionary.get, this]
  | cons p rest ih =>
    unfold Dictionary.set
    split_ifs with hp
    · have : ¬ p.1 = k2 := fun hh => h (by rw [← hh, hp])
      simp [Dictionary.get, this]
    · simp only [Dictionary.get, ih]

theorem has_erase_ne (d : Dictionary) (k k2 : Variant) (h : k2 ≠ k) :
    Dictionary.has (Dictionary.erase d k) k2 = Dictionary.has d k2 := by
  induction d with
  | nil => rfl
  | cons p rest ih =>
    unfold Dictionary.has at ih ⊢
    unfold Dictionary.erase
    split_ifs with hp
    · have : ¬ p.1 = k2 := fun hh => h (by rw [← hh, hp])
      simp [List.any_cons, this, ih]
    · simp only [List.any_cons, ih]

theorem get_erase_ne (d : Dictionary) (k k2 : Variant) (h : k2 ≠ k) :
    Dictionary.get (Dictionary.erase d k) k2 = Dictionary.get d k2 := by
  induction d with
  | nil => rfl
  | cons p rest ih =>
    unfold Dictionary.erase
    split_ifs with hp
    · have : ¬ p.1 = k2 := fun hh => h (by rw [← hh, hp])
      simp [Dictionary.get, this, ih]
    · simp only [Dictionary.get, ih]

theorem agree_on_set (m : Dictionary) (k v : Variant) (key : String)
    (h : k ≠ Variant.STRING key ∧ k ≠ Variant.STRING_NAME key) :
    agree_on m (Dictionary.set m k v) key :=
  ⟨has_set_ne m k _ v (Ne.symm h.1), get_set_ne m k _ v (Ne.symm h.1),
    has_set_ne m k _ v (Ne.symm h.2), get_set_ne m k _ v (Ne.symm h.2)⟩

theorem agree_on_erase (m : Dictionary) (k : Variant) (key : String)
    (h : k ≠ Variant.STRING key ∧ k ≠ Variant.STRING_NAME key) :
    agree_on m (Dictionary.erase m k) key :=
  ⟨has_erase_ne m k _ (Ne.symm h.1), get_erase_ne m k _ (Ne.symm h.1),
    has_erase_ne m k _ (Ne.symm h.2), get_erase_ne m k _ (Ne.symm h.2)⟩

theorem param_name_eq (e : Engine) (stmt : Option Nat) (a : Nat) :
    (sqlite3_bind_parameter_name e stmt ((a : Int) + 1)).1 =
        ((e.params stmt)[a]?).bind (fun p => p.name) ∧
      (sqlite3_bind_parameter_name e stmt ((a : Int) + 1)).2.params = e.params := by
  have hidx : (((a : Int) + 1).toNat - 1) = a := by omega
  have h1 : (1 : Int) ≤ (a : Int) + 1 := by omega
  unfold sqlite3_bind_parameter_name Engine.params
  simp only [Engine.log, Engine.data]
  cases stmt with
  | none => exact ⟨rfl, rfl⟩
  | some h =>
    simp only []
    cases find_stmt e.stmts h with
    | none => exact ⟨rfl, rfl⟩
    | some d => exact ⟨by simp only [hidx, h1, if_true], rfl⟩

/-- One iteration of the loop of `bind_named`, with the two lookups read as
`named_value`. -/
theorem bind_named_loop_cons (mp : Dictionary) (a : Nat) (rest : List Nat) (w : World) :
    bind_named_loop mp (a :: rest) w =
      match (sqlite3_bind_parameter_name w.eng w.self.stmt ((a : Int) + 1)).1 with
      | none =>
        (false, { self := { w.self with error_message :=
            "Named binding failed because a parameter in the statement is nameless." },
                  eng := (sqlite3_bind_parameter_name w.eng w.self.stmt ((a : Int) + 1)).2 })
      | some pn =>
        match named_value mp (parameter_key pn) with
        | none =>
          (false, { self := { w.self with error_message :=
              "Missing named parameter: " ++ parameter_key pn },
                    eng := (sqlite3_bind_parameter_name w.eng w.self.stmt ((a : Int) + 1)).2 })
        | some v =>
          if (bind_sqlite_parameter v ((a : Int) + 1)
              { w with eng :=
                (sqlite3_bind_parameter_name w.eng w.self.stmt ((a : Int) + 1)).2 }).1 = false
          then (false, (bind_sqlite_parameter v ((a : Int) + 1)
              { w with eng :=
                (sqlite3_bind_parameter_name w.eng w.self.stmt ((a : Int) + 1)).2 }).2)
          else bind_named_loop mp rest (bind_sqlite_parameter v ((a : Int) + 1)
              { w with eng :=
                (sqlite3_bind_parameter_name w.eng w.self.stmt ((a : Int) + 1)).2 }).2 := by
  conv_lhs => unfold bind_named_loop
  simp only []
  cases (sqlite3_bind_parameter_name w.eng w.self.stmt ((a : Int) + 1)).1 with
  | none => rfl
  | some pn =>
    simp only [named_value]
    cases h1 : Dictionary.has mp (Variant.STRING (parameter_key pn)) <;>
      cases h2 : Dictionary.has mp (Variant.STRING_NAME (parameter_key pn)) <;>
      simp

theorem set_value_name_at (ps : List Param) (i j : Nat) (v : SqlValue) :
    ((set_value ps i v)[j]?).bind (fun p => p.name) = (ps[j]?).bind (fun p => p.name) := by
  rw [set_value_getElem?]
  split_ifs
  · cases ps[j]? <;> rfl
  · rfl

/-- The loop of `bind_named` over the parameter indices `a, …, a + m - 1`, `ok` saying that
the statement has not been stepped: it makes the bind calls for what the mapping
supplies for the parameters at `a, …, a + c - 1`, where `a + c` is the first index of a
parameter for which the mapping supplies nothing (`c = m` when there is none), and
returns true exactly when `c = m`; the slots take the values when `ok`. -/
theorem bind_named_loop_effect (mp : Dictionary) (m a : Nat) (w : World) (ok : Bool)
    (hok : (!w.eng.stepped w.self.stmt) = ok)
    (hlen : a + m ≤ (w.eng.params w.self.stmt).length) :
    ∃ c, c ≤ m ∧
      (∀ j, a ≤ j → j < a + c →
        ∃ v, supplied mp (((w.eng.params w.self.stmt)[j]?).bind (fun p => p.name)) = some v) ∧
      ((bind_named_loop mp (List.range' a m) w).1 = true ↔ c = m) ∧
      (c < m →
        supplied mp (((w.eng.params w.self.stmt)[a + c]?).bind (fun p => p.name)) = none) ∧
      ((bind_named_loop mp (List.range' a m) w).2.eng.params w.self.stmt).length =
        (w.eng.params w.self.stmt).length ∧
      (∀ j, ((bind_named_loop mp (List.range' a m) w).2.eng.params w.self.stmt)[j]? =
        if a ≤ j ∧ j < a + c then
          ((w.eng.params w.self.stmt)[j]?).map
            (fun p => p.take ok (stored ((supplied mp p.name).getD Variant.NIL)))
        else (w.eng.params w.self.stmt)[j]?) ∧
      (∀ stmt2, stmt2 ≠ w.self.stmt →
        (bind_named_loop mp (List.range' a m) w).2.eng.params stmt2 = w.eng.params stmt2) := by
  induction m generalizing a w with
  | zero =>
    refine ⟨0, le_refl _, ?_, ?_, ?_, rfl, ?_, ?_⟩
    · intro j h1 h2; omega
    · simp [bind_named_loop]
    · intro h; omega
    · intro j
      have : ¬ (a ≤ j ∧ j < a + 0) := by omega
      rw [if_neg this]
      rfl
    · intro stmt2 _; rfl
  | succ m ih =>
    obtain ⟨n1, n2⟩ := param_name_eq w.eng w.self.stmt a
    have ha : a < (w.eng.params w.self.stmt).length := by omega
    have hget : (w.eng.params w.self.stmt)[a]? = some ((w.eng.params w.self.stmt)[a]) :=
      List.getElem?_eq_getElem ha
    have hzero : ∀ j, ¬ (a ≤ j ∧ j < a + 0) := by intro j; omega
    rw [hget] at n1
    simp only [Option.some_bind] at n1
    have hcons : List.range' a (m + 1) = a :: List.range' (a + 1) m := rfl
    rw [hcons, bind_named_loop_cons]
    cases hnm : ((w.eng.params w.self.stmt)[a]).name with
    | none =>
      rw [hnm] at n1
      simp only [n1]
      refine ⟨0, Nat.zero_le _, ?_, ?_, ?_, ?_, ?_, ?_⟩
      · intro j h1 h2; omega
      · constructor
        · intro h; exact Bool.noConfusion h
        · intro h; omega
      · intro _
        rw [Nat.add_zero, hget]
        simp only [Option.some_bind, hnm, supplied]
      · simp only [n2]
      · intro j; rw [if_neg (hzero j)]; simp only [n2]
      · intro stmt2 _; simp only [n2]
    | some pn =>
      rw [hnm] at n1
      simp only [n1]
      cases hval : named_value mp (parameter_key pn) with
      | none =>
        simp only []
        refine ⟨0, Nat.zero_le _, ?_, ?_, ?_, ?_, ?_, ?_⟩
        · intro j h1 h2; omega
        · constructor
          · intro h; exact Bool.noConfusion h
          · intro h; omega
        · intro _
          rw [Nat.add_zero, hget]
          simp only [Option.some_bind, hnm, supplied, hval]
        · simp only [n2]
        · intro j; rw [if_neg (hzero j)]; simp only [n2]
        · intro stmt2 _; simp only [n2]
      | some v =>
        simp only []
        have hok1 : (!(sqlite3_bind_parameter_name w.eng w.self.stmt
            ((a : Int) + 1)).2.stepped w.self.stmt) = ok := by
          rw [param_name_log]; exact hok
        obtain ⟨e1, e2, e3, e4⟩ := bind_sqlite_parameter_slots v a
          { w with eng := (sqlite3_bind_parameter_name w.eng w.self.stmt ((a : Int) + 1)).2 }
          ok hok1
        cases hsup : supported v
        · rw [e1, hsup, if_pos rfl]
          refine ⟨0, Nat.zero_le _, ?_, ?_, ?_, ?_, ?_, ?_⟩
          · intro j h1 h2; omega
          · constructor
            · intro h; exact Bool.noConfusion h
            · intro h; omega
          · intro _
            rw [Nat.add_zero, hget]
            simp [Option.some_bind, hnm, supplied, hval, hsup]
          · rw [e3 hsup]; simp only [n2]
          · intro j; rw [if_neg (hzero j), e3 hsup]; simp only [n2]
          · intro stmt2 _; rw [e3 hsup]; simp only [n2]
        · obtain ⟨f1, f2⟩ := e2 hsup
          have hp := f2 w.self.stmt
          simp only [if_true, n2] at hp
          have hne : ¬ ((bind_sqlite_parameter v ((a : Int) + 1)
              { w with eng :=
                (sqlite3_bind_parameter_name w.eng w.self.stmt ((a : Int) + 1)).2 }).1 =
              false) := by
            rw [e1, hsup]; simp
          rw [if_neg hne]
          have hst : (bind_sqlite_parameter v ((a : Int) + 1)
              { w with eng :=
                (sqlite3_bind_parameter_name w.eng w.self.stmt ((a : Int) + 1)).2 }).2.self.stmt =
              w.self.stmt := by rw [f1]
          obtain ⟨c, hc, g1, g2, g3, g4, g5, g6⟩ := ih (a + 1)
            (bind_sqlite_parameter v ((a : Int) + 1)
              { w with eng :=
                (sqlite3_bind_parameter_name w.eng w.self.stmt ((a : Int) + 1)).2 }).2
            (by rw [hst, e4]; exact hok1)
            (by rw [hst, hp, put_length]; omega)
          rw [hst] at g1 g3 g4 g5 g6
          rw [hp] at g1 g3 g4 g5
          rw [put_length] at g4
          have hsupp : supplied mp (some pn) = some v := by
            simp [supplied, hval, hsup]
          refine ⟨c + 1, by omega, ?_, ?_, ?_, g4, ?_, ?_⟩
          · intro j h1 h2
            by_cases hj : j = a
            · rw [hj, hget]
              exact ⟨v, by simp only [Option.some_bind, hnm, hsupp]⟩
            · have := g1 j (by omega) (by omega)
              rw [put_name_at] at this
              exact this
          · rw [g2]; omega
          · intro h
            have := g3 (by omega)
            rw [put_name_at] at this
            rw [show a + (c + 1) = a + 1 + c by omega]
            exact this
          · intro j
            rw [g5 j, put_getElem?]
            by_cases hj : j = a
            · subst hj
              have h1 : ¬ (j + 1 ≤ j ∧ j < j + 1 + c) := by omega
              have h2 : j ≤ j ∧ j < j + (c + 1) := by omega
              rw [if_neg h1, if_pos h2, if_pos rfl, hget]
              simp only [Option.map_some', hnm, hsupp, Option.getD_some]
            · by_cases hr : a + 1 ≤ j ∧ j < a + 1 + c
              · have h2 : a ≤ j ∧ j < a + (c + 1) := by omega
                rw [if_pos hr, if_pos h2, if_neg hj]
              · have h2 : ¬ (a ≤ j ∧ j < a + (c + 1)) := by omega
                rw [if_neg hr, if_neg h2, if_neg hj]
          · intro stmt2 h2
            rw [g6 stmt2 h2]
            have := f2 stmt2
            simp only [if_neg h2, n2] at this
            exact this

theorem named_value_agree (m m2 : Dictionary) (key : String) (h : agree_on m m2 key) :
    named_value m2 key = named_value m key := by
  obtain ⟨h1, h2, h3, h4⟩ := h
  simp only [named_value, h1, h2, h3, h4]

theorem bind_named_loop_congr (mp mp2 : Dictionary) (m a : Nat) (w : World)
    (h : ∀ (j : Nat) (pn : String),
      ((w.eng.params w.self.stmt)[j]?).bind (fun p => p.name) = some pn →
      agree_on mp mp2 (parameter_key pn)) :
    bind_named_loop mp2 (List.range' a m) w = bind_named_loop mp (List.range' a m) w := by
  induction m generalizing a w with
  | zero => rfl
  | succ m ih =>
    obtain ⟨n1, n2⟩ := param_name_eq w.eng w.self.stmt a
    have hcons : List.range' a (m + 1) = a :: List.range' (a + 1) m := rfl
    rw [hcons, bind_named_loop_cons, bind_named_loop_cons]
    cases hnm : (sqlite3_bind_parameter_name w.eng w.self.stmt ((a : Int) + 1)).1 with
    | none => rfl
    | some pn =>
      simp only []
      rw [named_value_agree mp mp2 _ (h a pn (by rw [← n1, hnm]))]
      cases hval : named_value mp (parameter_key pn) with
      | none => rfl
      | some v =>
        simp only []
        obtain ⟨e1, e2, -, -⟩ := bind_sqlite_parameter_slots v a
          { w with eng := (sqlite3_bind_parameter_name w.eng w.self.stmt ((a : Int) + 1)).2 }
          _ rfl
        split_ifs with hr
        · rfl
        · apply ih
          have hsup : supported v = true := by
            rw [e1] at hr
            simpa using hr
          obtain ⟨f1, f2⟩ := e2 hsup
          intro j pn2 hj
          rw [f1] at hj
          have hp := f2 w.self.stmt
          simp only [if_true, n2] at hp
          rw [hp, put_name_at] at hj
          exact h j pn2 hj

theorem mem_names_iff (ps : List Param) (x : Option String) :
    x ∈ ps.map (fun p => p.name) ↔
      ∃ j, j < ps.length ∧ (ps[j]?).bind (fun p => p.name) = x := by
  constructor
  · intro h
    obtain ⟨p, hp, rfl⟩ := List.mem_map.1 h
    obtain ⟨j, hj, rfl⟩ := List.getElem_of_mem hp
    exact ⟨j, hj, by simp [List.getElem?_eq_getElem hj]⟩
  · rintro ⟨j, hj, rfl⟩
    rw [List.getElem?_eq_getElem hj]
    exact List.mem_map.2 ⟨ps[j], List.getElem_mem _, rfl⟩

theorem supplied_some_iff (m : Dictionary) (pn : String) (v : Variant) :
    supplied m (some pn) = some v ↔
      (named_value m (parameter_key pn) = some v ∧ supported v = true) := by
  unfold supplied
  simp only []
  cases named_value m (parameter_key pn) with
  | none => simp
  | some u =>
    simp only []
    by_cases hs : supported u = true
    · simp only [hs, if_true, Option.some.injEq]
      constructor
      · rintro rfl; exact ⟨rfl, hs⟩
      · rintro ⟨h, -⟩; exact h
    · simp only [hs, if_false]
      constructor
      · intro h; exact Option.noConfusion h
      · rintro ⟨h, h2⟩
        rw [Option.some.injEq] at h
        rw [h] at hs
        exact absurd h2 hs

theorem take_false (ps : List Param) (j : Nat) (f : Param → SqlValue) :
    (ps[j]?).map (fun p => p.take false (f p)) = ps[j]? := by
  cases ps[j]? with
  | none => rfl
  | some p => simp [Param.take]

/-- The body of `bind_named` once the validity check has passed. -/
theorem bind_named_valid_eq (w : World) (us : Dictionary) (hv : valid w) :
    bind_named us w =
      bind_named_loop us (List.range' 0 (w.eng.params w.self.stmt).length)
        { self := w.self, eng := (sqlite3_bind_parameter_count w.eng w.self.stmt).2 } := by
  have hs2 := check_valid_true_snd _ hv
  obtain ⟨pc1, -, -⟩ := param_count_eq w.eng w.self.stmt
  unfold bind_named
  unfold valid at hv
  simp only [hv, hs2, pc1, Bool.true_eq_false, if_false, Int.toNat_ofNat,
    List.range_eq_range']

/-- C10: on a valid statement, for every mapping `m`.  If some parameter has no name,
`bind_named(m)` returns false; otherwise it returns true exactly when, for every
parameter, `m` has a key equal to the engine-reported name without its first character
and the value under that key has a supported type.  When it returns true and the
statement has not been stepped since it was prepared or last reset, each slot holds the
value bound for the value under its parameter's name (its encoding, null for a NaN
double).  A mapping that answers like `m` for every parameter name gives the same
result and state, so setting or erasing a key that is the name of no parameter changes
neither.  The value under a name is the one under the `String` key, else the one under
the `StringName` key.  When the statement has been stepped, the engine refuses every
bind call, whose result code the code does not look at: every slot holds what it held,
also when `bind_named` returns true. -/
theorem bind_named_by_name (w : World) (m : Dictionary) (hv : valid w) :
    (none ∈ w.eng.param_names w.self.stmt → (bind_named m w).1 = false) ∧
      (none ∉ w.eng.param_names w.self.stmt →
        ((bind_named m w).1 = true ↔
          ∀ pn, some pn ∈ w.eng.param_names w.self.stmt →
            ∃ v, named_value m (parameter_key pn) = some v ∧ supported v = true)) ∧
      (w.eng.stepped w.self.stmt = false → (bind_named m w).1 = true →
        ∀ (k : Nat) (pn : String), (w.eng.param_names w.self.stmt)[k]? = some (some pn) →
          ∃ v, named_value m (parameter_key pn) = some v ∧
            (bind_named m w).2.eng.binding w.self.stmt (k + 1) = some (stored v)) ∧
      (∀ m2 : Dictionary,
        (∀ pn, some pn ∈ w.eng.param_names w.self.stmt → agree_on m m2 (parameter_key pn)) →
        bind_named m2 w = bind_named m w) ∧
      (∀ key value : Variant, matches_no_parameter key (w.eng.param_names w.self.stmt) →
        bind_named (Dictionary.set m key value) w = bind_named m w ∧
        bind_named (Dictionary.erase m key) w = bind_named m w) ∧
      (w.eng.stepped w.self.stmt = true → ∀ (stmt2 : Option Nat) (k : Nat),
        (bind_named m w).2.eng.binding stmt2 k = w.eng.binding stmt2 k) := by
  obtain ⟨pc1, pc2, pc3⟩ := param_count_eq w.eng w.self.stmt
  have hb := fun us => bind_named_valid_eq w us hv
  have hok : (!(sqlite3_bind_parameter_count w.eng w.self.stmt).2.stepped w.self.stmt) =
      !w.eng.stepped w.self.stmt := by
    rw [pc3]; rfl
  obtain ⟨c, hc, g1, g2, g3, -, g5, g6⟩ := bind_named_loop_effect m
    (w.eng.params w.self.stmt).length 0
    { self := w.self, eng := (sqlite3_bind_parameter_count w.eng w.self.stmt).2 }
    (!w.eng.stepped w.self.stmt) hok
    (by simp only [pc2]; omega)
  simp only [pc2] at g1 g3 g5 g6
  rw [← hb m] at g2 g5 g6
  have hcongr : ∀ m2 : Dictionary,
      (∀ pn, some pn ∈ w.eng.param_names w.self.stmt → agree_on m m2 (parameter_key pn)) →
      bind_named m2 w = bind_named m w := by
    intro m2 hag
    rw [hb m, hb m2]
    apply bind_named_loop_congr
    intro j pn hj
    simp only [pc2] at hj
    apply hag pn
    unfold Engine.param_names
    rw [mem_names_iff]
    refine ⟨j, ?_, hj⟩
    by_contra hlt
    rw [List.getElem?_eq_none (by omega)] at hj
    exact Option.noConfusion hj
  refine ⟨?_, ?_, ?_, hcongr, ?_, ?_⟩
  · intro hmem
    unfold Engine.param_names at hmem
    obtain ⟨j, hj, hname⟩ := (mem_names_iff _ _).1 hmem
    cases hr : (bind_named m w).1
    · rfl
    · have hcn := g2.1 hr
      obtain ⟨v, hv2⟩ := g1 j (Nat.zero_le _) (by omega)
      rw [hname] at hv2
      simp [supplied] at hv2
  · intro hnone
    unfold Engine.param_names at hnone ⊢
    constructor
    · intro hr pn hpn
      have hcn := g2.1 hr
      obtain ⟨j, hj, hname⟩ := (mem_names_iff _ _).1 hpn
      obtain ⟨v, hv2⟩ := g1 j (Nat.zero_le _) (by omega)
      rw [hname] at hv2
      exact ⟨v, (supplied_some_iff m pn v).1 hv2⟩
    · intro hall
      apply g2.2
      by_contra hne
      have hlt : c < (w.eng.params w.self.stmt).length := by omega
      have h3 := g3 hlt
      rw [Nat.zero_add] at h3
      cases hname : ((w.eng.params w.self.stmt)[c]?).bind (fun p => p.name) with
      | none => exact hnone ((mem_names_iff _ _).2 ⟨c, hlt, hname⟩)
      | some pn =>
        obtain ⟨v, hv2⟩ := hall pn ((mem_names_iff _ _).2 ⟨c, hlt, hname⟩)
        rw [hname, (supplied_some_iff m pn v).2 hv2] at h3
        exact Option.noConfusion h3
  · intro hst hr k pn hk
    have hcn := g2.1 hr
    unfold Engine.param_names at hk
    rw [List.getElem?_map] at hk
    cases hpk : (w.eng.params w.self.stmt)[k]? with
    | none => rw [hpk] at hk; exact Option.noConfusion hk
    | some p =>
      rw [hpk] at hk
      simp only [Option.map_some', Option.some.injEq] at hk
      have hklt : k < (w.eng.params w.self.stmt).length := by
        by_contra hlt
        rw [List.getElem?_eq_none (by omega)] at hpk
        exact Option.noConfusion hpk
      obtain ⟨v, hv2⟩ := g1 k (Nat.zero_le _) (by omega)
      rw [hpk] at hv2
      simp only [Option.some_bind, hk] at hv2
      refine ⟨v, ((supplied_some_iff m pn v).1 hv2).1, ?_⟩
      rw [binding_succ, g5 k, if_pos (by omega), hpk, hst]
      simp [Param.take, hk, hv2]
  · intro key value hno
    refine ⟨hcongr _ (fun pn hpn => agree_on_set m key value _ (hno pn hpn)),
      hcongr _ (fun pn hpn => agree_on_erase m key _ (hno pn hpn))⟩
  · intro hst stmt2 k
    apply binding_of_params_eq
    by_cases hs2 : stmt2 = w.self.stmt
    · subst hs2
      apply List.ext_getElem?
      intro j
      rw [g5 j, hst]
      split_ifs
      · exact take_false _ _ (fun p => stored ((supplied m p.name).getD Variant.NIL))
      · rfl
    · exact g6 stmt2 hs2

/-- C10, witness: the sample statement, with the parameters `:a` and `@b`, after one `step`.
It is valid, `bind_named` of a mapping that supplies both names returns true, and the
two slots still hold the null value and the integer 5 they held. -/
theorem bind_named_by_name_witness :
    valid (step sample_world).2 ∧
      (bind_named [(Variant.STRING "a", Variant.INT 3), (Variant.STRING_NAME "b", Variant.INT 4)]
        (step sample_world).2).1 = true ∧
      (bind_named [(Variant.STRING "a", Variant.INT 3), (Variant.STRING_NAME "b", Variant.INT 4)]
        (step sample_world).2).2.eng.binding (some 10) 1 = some SqlValue.null ∧
      (bind_named [(Variant.STRING "a", Variant.INT 3), (Variant.STRING_NAME "b", Variant.INT 4)]
        (step sample_world).2).2.eng.binding (some 10) 2 = some (SqlValue.int64 5) :=
  ⟨by decide, by decide,
    ((bind_named_by_name (step sample_world).2
      [(Variant.STRING "a", Variant.INT 3), (Variant.STRING_NAME "b", Variant.INT 4)]
      (by decide)).2.2.2.2.2 (by decide) (some 10) 1).trans (by decide),
    ((bind_named_by_name (step sample_world).2
      [(Variant.STRING "a", Variant.INT 3), (Variant.STRING_NAME "b", Variant.INT 4)]
      (by decide)).2.2.2.2.2 (by decide) (some 10) 2).trans (by decide)⟩

/-! ## The value codec -/

theorem column_log (e : Engine) (c : EngineCall) (stmt : Option Nat) (i : Int) :
    (e.log c).column stmt i = e.column stmt i := rfl

/-- The value `marshal_current_row` computes for a column is the specification's decoding
of that column. -/
theorem marshal_column_value_decode (stmt : Option Nat) (i : Int) (e : Engine) :
    (marshal_column_value stmt i e).1 = decode (e.column stmt i) := by
  unfold marshal_column_value decode
  simp only [sqlite3_column_type, sqlite3_column_int64, sqlite3_column_double,
    sqlite3_column_text, sqlite3_column_bytes, sqlite3_column_blob, column_log]
  by_cases h1 : (e.column stmt i).type = SQLITE_INTEGER
  · simp [h1, SQLITE_INTEGER, SQLITE_NULL]
  · by_cases h2 : (e.column stmt i).type = SQLITE_FLOAT
    · simp [h2, SQLITE_INTEGER, SQLITE_NULL, SQLITE_FLOAT]
    · by_cases h3 : (e.column stmt i).type = SQLITE_TEXT
      · simp [h3, SQLITE_INTEGER, SQLITE_NULL, SQLITE_FLOAT, SQLITE_TEXT]
      · by_cases h4 : (e.column stmt i).type = SQLITE_BLOB
        · simp only [h4, SQLITE_INTEGER, SQLITE_NULL, SQLITE_FLOAT, SQLITE_TEXT, SQLITE_BLOB]
          cases hb : (e.column stmt i).blob with
          | nil => simp
          | cons b bs => simp
        · by_cases h5 : (e.column stmt i).type = SQLITE_NULL
          · simp [h5, SQLITE_INTEGER, SQLITE_NULL, SQLITE_FLOAT, SQLITE_TEXT, SQLITE_BLOB]
          · simp [h1, h2, h3, h4, h5]

/-! ## The engine under reads -/

theorem reads_refl (stmt : Option Nat) (e : Engine) : reads stmt e e :=
  ⟨rfl, rfl, [], by simp, by simp⟩

theorem reads_trans {stmt : Option Nat} {e e2 e3 : Engine} (h1 : reads stmt e e2)
    (h2 : reads stmt e2 e3) : reads stmt e e3 := by
  obtain ⟨a1, b1, l1, c1, d1⟩ := h1
  obtain ⟨a2, b2, l2, c2, d2⟩ := h2
  refine ⟨a2.trans a1, b2.trans b1, l1 ++ l2, ?_, ?_⟩
  · rw [c2, c1, List.append_assoc]
  · intro c hc
    rcases List.mem_append.1 hc with h | h
    · exact d1 c h
    · exact d2 c h

theorem reads_log (stmt : Option Nat) (e : Engine) (c : EngineCall)
    (h1 : c.is_column_read = true) (h2 : c.pointer = stmt) : reads stmt e (e.log c) := by
  refine ⟨rfl, rfl, [c], rfl, ?_⟩
  intro x hx
  rw [List.mem_singleton] at hx
  rw [hx]
  exact ⟨h1, h2⟩

theorem data_of_stmts {e e2 : Engine} (h : e2.stmts = e.stmts) (stmt : Option Nat) :
    e2.data stmt = e.data stmt := by
  unfold Engine.data
  rw [h]

theorem column_of_stmts {e e2 : Engine} (h : e2.stmts = e.stmts) (stmt : Option Nat)
    (i : Int) : e2.column stmt i = e.column stmt i := by
  unfold Engine.column
  rw [data_of_stmts h]

theorem column_names_of_stmts {e e2 : Engine} (h : e2.stmts = e.stmts) (stmt : Option Nat) :
    e2.column_names stmt = e.column_names stmt := by
  unfold Engine.column_names
  rw [data_of_stmts h]

theorem column_count_eq (e : Engine) (stmt : Option Nat) :
    (sqlite3_column_count e stmt).1 = ((e.column_names stmt).length : Int) ∧
      (sqlite3_column_count e stmt).2 = e.log (EngineCall.column_count stmt) := by
  unfold sqlite3_column_count Engine.column_names
  simp only []
  have : (e.log (EngineCall.column_count stmt)).data stmt = e.data stmt := rfl
  rw [this]
  cases e.data stmt <;> exact ⟨rfl, rfl⟩

theorem column_name_eq (e : Engine) (stmt : Option Nat) (i : Nat) :
    (sqlite3_column_name e stmt (i : Int)).1 = (e.column_names stmt).getD i "" ∧
      (sqlite3_column_name e stmt (i : Int)).2 = e.log (EngineCall.column_name stmt i) := by
  unfold sqlite3_column_name Engine.column_names
  simp only []
  have : (e.log (EngineCall.column_name stmt i)).data stmt = e.data stmt := rfl
  rw [this]
  cases e.data stmt with
  | none => exact ⟨rfl, rfl⟩
  | some d =>
    refine ⟨?_, rfl⟩
    have h0 : (0 : Int) ≤ (i : Int) := by omega
    simp only [h0, if_true, Int.toNat_ofNat]

theorem marshal_column_value_reads (stmt : Option Nat) (i : Int) (e : Engine) :
    reads stmt e (marshal_column_value stmt i e).2 := by
  have t := reads_log stmt e (EngineCall.column_type stmt i) rfl rfl
  unfold marshal_column_value
  simp only [sqlite3_column_type, sqlite3_column_int64, sqlite3_column_double,
    sqlite3_column_text, sqlite3_column_bytes, sqlite3_column_blob]
  split_ifs
  · exact reads_trans t (reads_log _ _ (EngineCall.column_int64 stmt i) rfl rfl)
  · exact reads_trans t (reads_log _ _ (EngineCall.column_double stmt i) rfl rfl)
  · exact reads_trans t (reads_log _ _ (EngineCall.column_text stmt i) rfl rfl)
  · exact reads_trans t (reads_trans (reads_log _ _ (EngineCall.column_bytes stmt i) rfl rfl)
      (reads_log _ _ (EngineCall.column_blob stmt i) rfl rfl))
  · exact reads_trans t (reads_log _ _ (EngineCall.column_bytes stmt i) rfl rfl)
  · exact t
  · exact t

theorem marshal_pair_of_stmts (self : SQLiteStatement) {e e2 : Engine}
    (h : e2.stmts = e.stmts) : marshal_pair self e2 = marshal_pair self e := by
  funext i
  unfold marshal_pair column_key
  rw [column_names_of_stmts h, column_of_stmts h]

theorem row_pairs_of_stmts (self : SQLiteStatement) {e e2 : Engine}
    (h : e2.stmts = e.stmts) : row_pairs self e2 = row_pairs self e := by
  unfold row_pairs
  rw [marshal_pair_of_stmts self h, column_names_of_stmts h]

/-- The loop of `marshal_current_row` makes the assignments `marshal_pair` for its indices
and only reads the engine. -/
theorem marshal_current_row_loop_eq (self : SQLiteStatement) (is : List Nat) (acc : Dictionary)
    (e : Engine) :
    (marshal_current_row_loop self is (acc, e)).1 =
        is.foldl (fun d i => Dictionary.set d (marshal_pair self e i).1 (marshal_pair self e i).2)
          acc ∧
      reads self.stmt e (marshal_current_row_loop self is (acc, e)).2 := by
  induction is generalizing acc e with
  | nil => exact ⟨rfl, reads_refl _ _⟩
  | cons i rest ih =>
    unfold marshal_current_row_loop
    simp only [List.foldl_cons]
    obtain ⟨n1, n2⟩ := column_name_eq e self.stmt i
    by_cases hi : i < self.column_names.length
    · simp only [hi, if_true]
      have r1 := marshal_column_value_reads self.stmt (i : Int) e
      obtain ⟨g1, g2⟩ := ih
        (Dictionary.set acc (Variant.STRING_NAME (self.column_names.getD i ""))
          (marshal_column_value self.stmt (i : Int) e).1)
        (marshal_column_value self.stmt (i : Int) e).2
      rw [marshal_pair_of_stmts self r1.1] at g1
      refine ⟨?_, reads_trans r1 g2⟩
      rw [g1]
      simp only [marshal_pair, column_key, hi, if_true, marshal_column_value_decode]
    · simp only [hi, if_false]
      have r0 : reads self.stmt e (sqlite3_column_name e self.stmt (i : Int)).2 := by
        rw [n2]; exact reads_log _ _ _ rfl rfl
      have r1 := marshal_column_value_reads self.stmt (i : Int)
        (sqlite3_column_name e self.stmt (i : Int)).2
      have r01 := reads_trans r0 r1
      obtain ⟨g1, g2⟩ := ih
        (Dictionary.set acc (Variant.STRING_NAME (sqlite3_column_name e self.stmt (i : Int)).1)
          (marshal_column_value self.stmt (i : Int)
            (sqlite3_column_name e self.stmt (i : Int)).2).1)
        (marshal_column_value self.stmt (i : Int)
          (sqlite3_column_name e self.stmt (i : Int)).2).2
      rw [marshal_pair_of_stmts self r01.1] at g1
      refine ⟨?_, reads_trans r01 g2⟩
      rw [g1]
      simp only [marshal_pair, column_key, hi, if_false, marshal_column_value_decode, n1,
        column_of_stmts r0.1]

/-- With a handle attached, `marshal_current_row` builds the mapping of the assignments
`row_pairs` and only reads the engine. -/
theorem marshal_current_row_eq (w : World) (h : w.self.stmt ≠ none) :
    (marshal_current_row w).1 = Dictionary.of_pairs (row_pairs w.self w.eng) ∧
      reads w.self.stmt w.eng (marshal_current_row w).2 := by
  obtain ⟨c1, c2⟩ := column_count_eq w.eng w.self.stmt
  have r0 : reads w.self.stmt w.eng (sqlite3_column_count w.eng w.self.stmt).2 := by
    rw [c2]; exact reads_log _ _ _ rfl rfl
  unfold marshal_current_row
  rw [if_neg h]
  simp only []
  obtain ⟨g1, g2⟩ := marshal_current_row_loop_eq w.self
    (List.range (sqlite3_column_count w.eng w.self.stmt).1.toNat) []
    (sqlite3_column_count w.eng w.self.stmt).2
  refine ⟨?_, reads_trans r0 g2⟩
  rw [g1, marshal_pair_of_stmts w.self r0.1, c1, Int.toNat_ofNat]
  unfold Dictionary.of_pairs row_pairs
  rw [List.foldl_map]

theorem map_getD_range (l : List String) :
    (List.range l.length).map (fun i => l.getD i "") = l := by
  apply List.ext_getElem
  · simp
  · intro i h1 h2
    simp [List.getD_eq_getElem?_getD, List.getElem?_eq_getElem h2]

theorem cache_column_names_loop_eq (is : List Nat) (w : World) :
    (cache_column_names_loop is w).self =
        { w.self with column_names :=
            w.self.column_names ++ is.map (fun i => (w.eng.column_names w.self.stmt).getD i "") } ∧
      reads w.self.stmt w.eng (cache_column_names_loop is w).eng := by
  induction is generalizing w with
  | nil =>
    refine ⟨?_, reads_refl _ _⟩
    simp [cache_column_names_loop]
  | cons i rest ih =>
    unfold cache_column_names_loop
    obtain ⟨n1, n2⟩ := column_name_eq w.eng w.self.stmt i
    have r0 : reads w.self.stmt w.eng (sqlite3_column_name w.eng w.self.stmt (i : Int)).2 := by
      rw [n2]; exact reads_log _ _ _ rfl rfl
    obtain ⟨g1, g2⟩ := ih
      { self := { w.self with column_names :=
          w.self.column_names ++ [(sqlite3_column_name w.eng w.self.stmt (i : Int)).1] },
        eng := (sqlite3_column_name w.eng w.self.stmt (i : Int)).2 }
    refine ⟨?_, reads_trans r0 g2⟩
    rw [g1]
    simp only [column_names_of_stmts r0.1, n1, List.map_cons, List.append_assoc,
      List.singleton_append]

/-- What `cache_column_names` does: nothing without a handle or with a non-empty cache;
else the cache becomes the list of the engine's column names; the engine is only
read. -/
theorem cache_column_names_eq (w : World) :
    (cache_column_names w).self =
        { w.self with column_names :=
            if w.self.stmt = none ∨ w.self.column_names ≠ [] then w.self.column_names
            else w.eng.column_names w.self.stmt } ∧
      reads w.self.stmt w.eng (cache_column_names w).eng := by
  unfold cache_column_names
  by_cases h : w.self.stmt = none ∨ w.self.column_names ≠ []
  · rw [if_pos h, if_pos h]
    exact ⟨rfl, reads_refl _ _⟩
  · rw [if_neg h, if_neg h]
    obtain ⟨c1, c2⟩ := column_count_eq w.eng w.self.stmt
    have r0 : reads w.self.stmt w.eng (sqlite3_column_count w.eng w.self.stmt).2 := by
      rw [c2]; exact reads_log _ _ _ rfl rfl
    obtain ⟨g1, g2⟩ := cache_column_names_loop_eq
      (List.range (sqlite3_column_count w.eng w.self.stmt).1.toNat)
      { w with eng := (sqlite3_column_count w.eng w.self.stmt).2 }
    refine ⟨?_, reads_trans r0 g2⟩
    have hc : w.self.column_names = [] := by
      by_contra hne
      exact h (Or.inr hne)
    rw [g1]
    simp only [column_names_of_stmts r0.1, c1, Int.toNat_ofNat, hc, List.nil_append]
    rw [map_getD_range]

/-! ## One step of a valid statement -/

/-- What `sqlite3_step` does to a live statement: it returns the code of the next outcome
and advances the statement; nothing else changes but the log. -/
theorem sqlite3_step_live (e : Engine) (h : Nat) (d : StmtData)
    (hd : e.data (some h) = some d) :
    (sqlite3_step e (some h)).1 = (next_outcome d).rc ∧
      (∀ stmt, (sqlite3_step e (some h)).2.data stmt =
        if stmt = some h then some (advance d) else e.data stmt) ∧
      (sqlite3_step e (some h)).2.errmsgs = (d.db, (next_outcome d).errmsg) :: e.errmsgs ∧
      (sqlite3_step e (some h)).2.calls = e.calls ++ [EngineCall.step (some h)] := by
  have hf : find_stmt (e.log (EngineCall.step (some h))).stmts h = some d := hd
  unfold sqlite3_step
  simp only [hf]
  cases hs : d.script with
  | nil =>
    refine ⟨by simp [next_outcome, hs, done_outcome], ?_, ?_, rfl⟩
    · intro stmt
      rw [data_set_errmsg, data_update, data_log]
      split_ifs with h1
      · rw [h1, hd]
        simp [advance, next_outcome, hs, StmtData.row_of, done_outcome]
      · rfl
    · simp [next_outcome, hs, Engine.set_errmsg, Engine.update, Engine.log]
  | cons o rest =>
    refine ⟨by simp [next_outcome, hs], ?_, ?_, rfl⟩
    · intro stmt
      rw [data_set_errmsg, data_update, data_log]
      split_ifs with h1
      · rw [h1, hd]
        simp [advance, next_outcome, hs, StmtData.row_of]
      · rfl
    · simp [next_outcome, hs, Engine.set_errmsg, Engine.update, Engine.log]

theorem errmsg_eq (e : Engine) (db : Option Nat) :
    (sqlite3_errmsg e db).2 = e.log (EngineCall.errmsg db) := by
  unfold sqlite3_errmsg
  cases db <;> rfl

theorem errtext_of_errmsgs {e e2 : Engine} (h : e2.errmsgs = e.errmsgs) (db : Option Nat) :
    e2.errtext db = e.errtext db := by
  unfold Engine.errtext sqlite3_errmsg
  cases db with
  | none => rfl
  | some c =>
    show ((e2.log _).errmsgs.lookup c).getD "" = ((e.log _).errmsgs.lookup c).getD ""
    simp only [Engine.log, h]

theorem errtext_set_errmsg (e : Engine) (c : Nat) (m : String) (db : Option Nat) :
    (e.set_errmsg c m).errtext db = if db = some c then m else e.errtext db := by
  unfold Engine.errtext sqlite3_errmsg
  cases db with
  | none => simp
  | some k =>
    show (((c, m) :: e.errmsgs).lookup k).getD "" = _
    by_cases hk : k = c
    · subst hk
      simp [List.lookup]
    · have hne : (k == c) = false := by simpa using hk
      simp only [List.lookup, hne, Option.some.injEq, hk, if_false]
      rfl

/-- The body of `step` once the validity check has passed. -/
theorem step_valid_eq (w : World) (hv : valid w) :
    step w =
      if (sqlite3_step (cache_column_names w).eng (cache_column_names w).self.stmt).1 =
          SQLITE_ROW then
        ((sqlite3_step (cache_column_names w).eng (cache_column_names w).self.stmt).1,
          { self := { (cache_column_names w).self with
              has_row := true,
              current_row := (marshal_current_row
                { self := { (cache_column_names w).self with has_row := true },
                  eng := (sqlite3_step (cache_column_names w).eng
                    (cache_column_names w).self.stmt).2 }).1 },
            eng := (marshal_current_row
              { self := { (cache_column_names w).self with has_row := true },
                eng := (sqlite3_step (cache_column_names w).eng
                  (cache_column_names w).self.stmt).2 }).2 })
      else if (sqlite3_step (cache_column_names w).eng (cache_column_names w).self.stmt).1 =
          SQLITE_DONE then
        ((sqlite3_step (cache_column_names w).eng (cache_column_names w).self.stmt).1,
          { self := reset_row_state (cache_column_names w).self,
            eng := (sqlite3_step (cache_column_names w).eng
              (cache_column_names w).self.stmt).2 })
      else
        ((sqlite3_step (cache_column_names w).eng (cache_column_names w).self.stmt).1,
          { self := { reset_row_state (cache_column_names w).self with
              error_message := (sqlite3_errmsg
                (sqlite3_step (cache_column_names w).eng (cache_column_names w).self.stmt).2
                (cache_column_names w).self.db).1 },
            eng := (sqlite3_errmsg
              (sqlite3_step (cache_column_names w).eng (cache_column_names w).self.stmt).2
              (cache_column_names w).self.db).2 }) := by
  have hs := check_valid_true_snd _ hv
  unfold valid at hv
  unfold step
  simp only [hv, hs, Bool.true_eq_false, if_false]
  rfl

theorem effective_names_nil (names : List String) :
    effective_names [] names = names := by
  unfold effective_names
  simp only [List.length_nil, Nat.not_lt_zero, if_false]
  exact map_getD_range names

theorem effective_names_length (cache names : List String) :
    (effective_names cache names).length = names.length := by
  simp [effective_names]

theorem column_live (e : Engine) (stmt : Option Nat) (d : StmtData)
    (hd : e.data stmt = some d) (i : Nat) :
    e.column stmt (i : Int) = d.current.getD i missing_column := by
  have h0 : (0 : Int) ≤ (i : Int) := by omega
  simp only [Engine.column, hd, h0, if_true, Int.toNat_ofNat]
  rfl

/-- The mapping `marshal_current_row` builds, in terms of the engine's data of the
statement. -/
theorem of_pairs_row_pairs (self : SQLiteStatement) (e : Engine) (d : StmtData)
    (hd : e.data self.stmt = some d) :
    Dictionary.of_pairs (row_pairs self e) =
      marshal_row (effective_names self.column_names d.column_names) d.current := by
  have hn : e.column_names self.stmt = d.column_names := by
    simp [Engine.column_names, hd]
  unfold marshal_row row_pairs
  rw [hn, effective_names_length]
  congr 1
  apply List.map_congr_left
  intro i hi
  have hi2 : i < d.column_names.length := List.mem_range.1 hi
  have hget : (effective_names self.column_names d.column_names).getD i "" =
      if i < self.column_names.length then self.column_names.getD i ""
      else d.column_names.getD i "" := by
    unfold effective_names
    rw [List.getD_eq_getElem?_getD, List.getElem?_map, List.getElem?_range hi2]
    rfl
  simp only [marshal_pair, column_key, hn, column_live e self.stmt d hd, hget]

/-- One `step` of a valid statement whose handle is live in the engine, with engine-side data
`d`: the code returned is that of the statement's next outcome; the engine's statement
is advanced and nothing else of the engine changes but the log, which gets exactly one
`sqlite3_step` call and only calls with non-null pointers; of the object, the
column-name cache is filled if it was empty, the row state is that of the outcome, and
the error message changes only when the outcome is neither a row nor completion. -/
theorem step_live (w : World) (h : Nat) (d : StmtData) (hv : valid w)
    (hh : w.self.stmt = some h) (hd : w.eng.data (some h) = some d) :
    (step w).1 = (next_outcome d).rc ∧
      (∀ stmt, (step w).2.eng.data stmt =
        if stmt = some h then some (advance d) else w.eng.data stmt) ∧
      (step w).2.eng.errmsgs = (d.db, (next_outcome d).errmsg) :: w.eng.errmsgs ∧
      (∃ l, (step w).2.eng.calls = w.eng.calls ++ l ∧
        l.filter EngineCall.is_step = [EngineCall.step (some h)] ∧
        ∀ c ∈ l, c.pointer ≠ none) ∧
      (step w).2.self =
        { w.self with
          column_names := cached_names w.self.column_names d.column_names,
          has_row := decide ((next_outcome d).rc = SQLITE_ROW),
          current_row :=
            if (next_outcome d).rc = SQLITE_ROW then
              marshal_row (effective_names (cached_names w.self.column_names d.column_names)
                d.column_names) (d.row_of (next_outcome d))
            else [],
          error_message :=
            if (next_outcome d).rc = SQLITE_ROW ∨ (next_outcome d).rc = SQLITE_DONE then
              w.self.error_message
            else (w.eng.set_errmsg d.db (next_outcome d).errmsg).errtext w.self.db } := by
  obtain ⟨hst, hdb, -⟩ := (check_valid_true_iff _).1 hv
  obtain ⟨cs, cr⟩ := cache_column_names_eq w
  have hne : w.self.stmt ≠ none := by simp [hh]
  have hcn : w.eng.column_names w.self.stmt = d.column_names := by
    simp [Engine.column_names, hh, hd]
  have hcache : (cache_column_names w).self =
      { w.self with column_names := cached_names w.self.column_names d.column_names } := by
    rw [cs]
    unfold cached_names
    by_cases hc : w.self.column_names = []
    · simp [hc, hne, hcn]
    · simp [hc]
  have hstmt1 : (cache_column_names w).self.stmt = some h := by rw [hcache]; exact hh
  have hd1 : (cache_column_names w).eng.data (some h) = some d := by
    rw [data_of_stmts cr.1]; exact hd
  obtain ⟨s1, s2, s3, s4⟩ := sqlite3_step_live (cache_column_names w).eng h d hd1
  obtain ⟨l1, hl1, hl1r⟩ := cr.2.2
  rw [hh] at hl1r
  have hread : ∀ l : List EngineCall,
      (∀ c ∈ l, c.is_column_read = true ∧ c.pointer = some h) →
      l.filter EngineCall.is_step = [] ∧ ∀ c ∈ l, c.pointer ≠ none := by
    intro l hl
    refine ⟨?_, ?_⟩
    · rw [List.filter_eq_nil_iff]
      intro c hc
      have := (hl c hc).1
      cases c <;> simp_all [EngineCall.is_column_read, EngineCall.is_step]
    · intro c hc
      rw [(hl c hc).2]
      simp
  rw [step_valid_eq w hv, hstmt1, s1]
  by_cases hrow : (next_outcome d).rc = SQLITE_ROW
  · rw [if_pos hrow]
    have hm := marshal_current_row_eq
      { self := { (cache_column_names w).self with has_row := true },
        eng := (sqlite3_step (cache_column_names w).eng (some h)).2 }
      (by show (cache_column_names w).self.stmt ≠ none; rw [hstmt1]; simp)
    obtain ⟨m1, m2⟩ := hm
    have hd2 : (sqlite3_step (cache_column_names w).eng (some h)).2.data
        ({ (cache_column_names w).self with has_row := true } : SQLiteStatement).stmt =
        some (advance d) := by
      show (sqlite3_step (cache_column_names w).eng (some h)).2.data
        (cache_column_names w).self.stmt = some (advance d)
      rw [hstmt1, s2, if_pos rfl]
    rw [of_pairs_row_pairs _ _ _ hd2] at m1
    obtain ⟨l2, hl2, hl2r⟩ := m2.2.2
    have hl2r' : ∀ c ∈ l2, c.is_column_read = true ∧ c.pointer = some h := by
      intro c hc
      have := hl2r c hc
      rw [← hstmt1]
      exact this
    refine ⟨rfl, ?_, ?_, ?_, ?_⟩
    · intro stmt
      show (marshal_current_row _).2.data stmt = _
      rw [data_of_stmts m2.1, s2]
      split_ifs
      · rfl
      · exact data_of_stmts cr.1 stmt
    · show (marshal_current_row _).2.errmsgs = _
      rw [m2.2.1, s3, cr.2.1]
    · refine ⟨l1 ++ [EngineCall.step (some h)] ++ l2, ?_, ?_, ?_⟩
      · show (marshal_current_row _).2.calls = _
        rw [hl2, s4, hl1]
        simp only [List.append_assoc]
      · simp only [List.filter_append, (hread l1 hl1r).1, (hread l2 hl2r').1]
        rfl
      · intro c hc
        simp only [List.mem_append, List.mem_singleton] at hc
        rcases hc with (hc | hc) | hc
        · exact (hread l1 hl1r).2 c hc
        · rw [hc]; simp [EngineCall.pointer]
        · exact (hread l2 hl2r').2 c hc
    · rw [m1]
      simp only [hcache, hrow, decide_True, if_true, true_or, advance]
  · rw [if_neg hrow]
    by_cases hdone : (next_outcome d).rc = SQLITE_DONE
    · rw [if_pos hdone]
      refine ⟨rfl, ?_, ?_, ?_, ?_⟩
      · intro stmt
        show (sqlite3_step _ _).2.data stmt = _
        rw [s2]
        split_ifs
        · rfl
        · exact data_of_stmts cr.1 stmt
      · show (sqlite3_step _ _).2.errmsgs = _
        rw [s3, cr.2.1]
      · refine ⟨l1 ++ [EngineCall.step (some h)], ?_, ?_, ?_⟩
        · show (sqlite3_step _ _).2.calls = _
          rw [s4, hl1]
          simp only [List.append_assoc]
        · simp only [List.filter_append, (hread l1 hl1r).1]
          rfl
        · intro c hc
          simp only [List.mem_append, List.mem_singleton] at hc
          rcases hc with hc | hc
          · exact (hread l1 hl1r).2 c hc
          · rw [hc]; simp [EngineCall.pointer]
      · rw [hcache, if_neg hrow, if_pos (Or.inr hdone), decide_eq_false hrow]
        rfl
    · rw [if_neg hdone]
      have he := errmsg_eq (sqlite3_step (cache_column_names w).eng (some h)).2
        (cache_column_names w).self.db
      have hdb1 : (cache_column_names w).self.db = w.self.db := by rw [hcache]
      refine ⟨rfl, ?_, ?_, ?_, ?_⟩
      · intro stmt
        show (sqlite3_errmsg _ _).2.data stmt = _
        rw [he, data_log, s2]
        split_ifs
        · rfl
        · exact data_of_stmts cr.1 stmt
      · show (sqlite3_errmsg _ _).2.errmsgs = _
        rw [he]
        show (sqlite3_step _ _).2.errmsgs = _
        rw [s3, cr.2.1]
      · refine ⟨l1 ++ [EngineCall.step (some h)] ++ [EngineCall.errmsg w.self.db], ?_, ?_, ?_⟩
        · show (sqlite3_errmsg _ _).2.calls = _
          rw [he, hdb1]
          show (sqlite3_step _ _).2.calls ++ _ = _
          rw [s4, hl1]
          simp only [List.append_assoc]
        · simp only [List.filter_append, (hread l1 hl1r).1]
          rfl
        · intro c hc
          simp only [List.mem_append, List.mem_singleton] at hc
          rcases hc with (hc | hc) | hc
          · exact (hread l1 hl1r).2 c hc
          · rw [hc]; simp [EngineCall.pointer]
          · rw [hc]; exact hdb
      · have ht : (sqlite3_errmsg (sqlite3_step (cache_column_names w).eng (some h)).2
            (cache_column_names w).self.db).1 =
            (w.eng.set_errmsg d.db (next_outcome d).errmsg).errtext w.self.db := by
          rw [hdb1]
          show (sqlite3_step (cache_column_names w).eng (some h)).2.errtext w.self.db = _
          apply errtext_of_errmsgs
          rw [s3, cr.2.1]
          rfl
        rw [ht, hcache, if_neg hrow, if_neg (not_or.2 ⟨hrow, hdone⟩), decide_eq_false hrow]
        rfl

/-! ## The current row -/

theorem row_ok_of_only_message {w w2 : World} (h : only_message w.self w2.self)
    (hi : row_ok w) : row_ok w2 := by
  obtain ⟨m, hm⟩ := h
  unfold row_ok
  rw [hm]
  exact hi

theorem row_ok_step (w : World) (hi : row_ok w) : row_ok (step w).2 := by
  cases hv : (check_valid w.self).1
  · rw [step_invalid w hv]
    exact row_ok_of_only_message (check_valid_only_message w.self) hi
  · obtain ⟨hs, -, -⟩ := (check_valid_true_iff _).1 hv
    obtain ⟨c, h | h⟩ := step_valid_self w hv
    · intro _; rw [h.1]; exact hs
    · intro _; rw [h.1]; exact hs

theorem reset_valid_self (w : World) (hv : valid w) :
    (reset w).2.self.has_row = false ∧ (reset w).2.self.current_row = [] ∧
      (reset w).2.self.status = w.self.status ∧ (reset w).2.self.stmt = w.self.stmt ∧
      (reset w).2.self.db = w.self.db ∧
      (reset w).2.self.column_names = w.self.column_names := by
  have hs2 := check_valid_true_snd _ hv
  unfold valid at hv
  unfold reset
  simp only [hv, hs2, Bool.true_eq_false, if_false, reset_row_state]
  split_ifs <;> exact ⟨rfl, rfl, rfl, rfl, rfl, rfl⟩

theorem row_ok_reset (w : World) (hi : row_ok w) : row_ok (reset w).2 := by
  cases hv : (check_valid w.self).1
  · rw [reset_invalid w hv]
    exact row_ok_of_only_message (check_valid_only_message w.self) hi
  · intro h
    rw [(reset_valid_self w hv).1] at h
    exact Bool.noConfusion h

theorem row_ok_execute_loop (fuel : Nat) (w : World) (r : Bool × World) (hi : row_ok w)
    (h : execute_loop fuel w = some r) : row_ok r.2 := by
  induction fuel generalizing w with
  | zero => simp [execute_loop] at h
  | succ n ih =>
    unfold execute_loop at h
    simp only [] at h
    split_ifs at h
    · exact ih _ (row_ok_step w hi) h
    · cases h
      exact row_ok_step w hi

theorem row_ok_fetch_all_loop (fuel : Nat) (rows : List Dictionary) (w : World)
    (r : List Dictionary × World) (hi : row_ok w)
    (h : fetch_all_loop fuel rows w = some r) : row_ok r.2 := by
  induction fuel generalizing w rows with
  | zero => simp [fetch_all_loop] at h
  | succ n ih =>
    unfold fetch_all_loop at h
    simp only [] at h
    split_ifs at h
    · exact ih _ _ (row_ok_step w hi) h
    · cases h
      exact row_ok_step w hi

theorem row_ok_apply (o : Op) (w w2 : World) (hi : row_ok w) (h : o.apply w = some w2) :
    row_ok w2 := by
  cases o with
  | init p_db p_stmt =>
    cases h
    intro h0
    simp [initialize_, reset_row_state] at h0
  | connection_finalized =>
    cases h
    intro h0
    have := (release_statement_row StatementStatus.CONNECTION_FINALIZED w).1
    simp only [connection_finalized] at h0
    rw [this] at h0
    exact Bool.noConfusion h0
  | finalize =>
    cases h
    intro h0
    have := (release_statement_row StatementStatus.FINALIZED w).1
    simp only [finalize] at h0
    rw [this] at h0
    exact Bool.noConfusion h0
  | bind i v => cases h; exact row_ok_of_only_message (bind_only_message i v w) hi
  | bind_all vs => cases h; exact row_ok_of_only_message (bind_all_only_message vs w) hi
  | bind_named m => cases h; exact row_ok_of_only_message (bind_named_only_message m w) hi
  | clear_bindings => cases h; exact row_ok_of_only_message (clear_bindings_only_message w) hi
  | reset => cases h; exact row_ok_reset w hi
  | execute fuel =>
    simp only [Op.apply, Option.map_eq_some'] at h
    obtain ⟨r, hr, rfl⟩ := h
    cases hv : (check_valid w.self).1
    · rw [execute_invalid fuel w hv] at hr
      cases hr
      exact row_ok_of_only_message (check_valid_only_message w.self) hi
    · unfold execute at hr
      simp only [hv, Bool.true_eq_false, if_false] at hr
      exact row_ok_execute_loop fuel _ r
        (row_ok_of_only_message (check_valid_only_message w.self) hi) hr
  | step => cases h; exact row_ok_step w hi
  | fetch_all fuel =>
    simp only [Op.apply, Option.map_eq_some'] at h
    obtain ⟨r, hr, rfl⟩ := h
    cases hv : (check_valid w.self).1
    · rw [fetch_all_invalid fuel w hv] at hr
      cases hr
      exact row_ok_of_only_message (check_valid_only_message w.self) hi
    · unfold fetch_all at hr
      simp only [hv, Bool.true_eq_false, if_false] at hr
      exact row_ok_fetch_all_loop fuel _ _ r
        (row_ok_of_only_message (check_valid_only_message w.self) hi) hr
  | get_row => cases h; exact hi
  | get_column_names =>
    cases h
    unfold get_column_names
    simp only []
    split_ifs
    · obtain ⟨c, hc⟩ := cache_column_names_only_columns w
      unfold row_ok
      rw [hc]
      exact hi
    · exact hi
  | get_parameter_count =>
    cases h
    unfold get_parameter_count
    split_ifs
    · exact hi
    · exact hi
  | is_valid => cases h; exact hi
  | get_status => cases h; exact hi
  | get_error_message => cases h; exact hi

theorem reachable_row_ok (w : World) (h : Reachable w) : row_ok w := by
  induction h with
  | fresh e => intro h0; simp [fresh] at h0
  | op o w w2 _ happ ih => exact row_ok_apply o w w2 ih happ

/-- In a reachable state, a statement that is not valid has no current row. -/
theorem reachable_invalid_no_row (w : World) (hr : Reachable w)
    (hv : (check_valid w.self).1 = false) : w.self.has_row = false := by
  cases hrow : w.self.has_row
  · rfl
  · have hs := reachable_row_ok w hr hrow
    have hi := reachable_inv w hr
    have := (check_valid_true_iff w.self).2 ⟨hs, (hi.init_iff.1 hs).2, (hi.init_iff.1 hs).1⟩
    rw [hv] at this
    exact Bool.noConfusion this

theorem row_pairs_of_self (self self2 : SQLiteStatement) (e : Engine)
    (h1 : self2.stmt = self.stmt) (h2 : self2.column_names = self.column_names) :
    row_pairs self2 e = row_pairs self e := by
  unfold row_pairs marshal_pair column_key
  rw [h1, h2]

/-- C12: in every reachable state: after `step` a row is current exactly when `step`
returned `SQLITE_ROW`; then `get_row` returns the mapping `marshal_current_row` gives
for the engine's current row; after a `step` that returned any other code, after
`reset` (whatever the engine's rewind returns), after `finalize`, after
`connection_finalized` and after `initialize`, `get_row` returns the empty mapping;
`get_row` itself is a query that leaves the state, the engine included, as it is. -/
theorem current_row_iff_last_step_row (w : World) (hr : Reachable w) :
    ((step w).2.self.has_row = true ↔ (step w).1 = SQLITE_ROW) ∧
      ((step w).1 = SQLITE_ROW →
        get_row (step w).2 = (marshal_current_row (step w).2).1) ∧
      ((step w).1 ≠ SQLITE_ROW → get_row (step w).2 = []) ∧
      get_row (reset w).2 = [] ∧
      get_row (finalize w) = [] ∧
      get_row (connection_finalized w) = [] ∧
      (∀ p_db p_stmt : Option Nat, get_row (initialize_ p_db p_stmt w) = []) ∧
      Op.get_row.apply w = some w := by
  have hrel : ∀ n, get_row (release_statement n w) = [] := by
    intro n
    simp [get_row, (release_statement_row n w).1]
  refine ⟨?_, ?_, ?_, ?_, hrel _, ?_, ?_, rfl⟩
  · cases hv : (check_valid w.self).1
    · have h0 := reachable_invalid_no_row w hr hv
      rw [step_invalid w hv]
      have := (only_message_status (check_valid_only_message w.self)).2.2.2.1
      simp only [this, h0]
      simp [SQLITE_MISUSE, SQLITE_ROW]
    · obtain ⟨c, h | h⟩ := step_valid_self w hv
      · rw [h.1]; simp [h.2]
      · rw [h.1]; simp [h.2]
  · intro hrow
    cases hv : (check_valid w.self).1
    · rw [step_invalid w hv] at hrow
      simp [SQLITE_MISUSE, SQLITE_ROW] at hrow
    · obtain ⟨-, -, hst⟩ := (check_valid_true_iff _).1 hv
      obtain ⟨cs, cr⟩ := cache_column_names_eq w
      have hst1 : (cache_column_names w).self.stmt ≠ none := by rw [cs]; exact hst
      have hm := marshal_current_row_eq
        { self := { (cache_column_names w).self with has_row := true },
          eng := (sqlite3_step (cache_column_names w).eng
            (cache_column_names w).self.stmt).2 } hst1
      have hstep := step_valid_eq w hv
      rw [if_pos (by rw [hstep] at hrow; split_ifs at hrow <;> assumption)]
        at hstep
      have hst2 : (step w).2.self.stmt ≠ none := by rw [hstep]; exact hst1
      obtain ⟨m1, -⟩ := marshal_current_row_eq (step w).2 hst2
      rw [m1]
      have hg : get_row (step w).2 = (step w).2.self.current_row := by
        rw [hstep]; rfl
      rw [hg]
      have hcur : (step w).2.self.current_row = (marshal_current_row
          { self := { (cache_column_names w).self with has_row := true },
            eng := (sqlite3_step (cache_column_names w).eng
              (cache_column_names w).self.stmt).2 }).1 := by
        rw [hstep]
      rw [hcur, hm.1]
      have heng : (step w).2.eng.stmts =
          (sqlite3_step (cache_column_names w).eng (cache_column_names w).self.stmt).2.stmts := by
        rw [hstep]; exact hm.2.1
      rw [row_pairs_of_stmts _ heng]
      apply congrArg
      apply (row_pairs_of_self _ _ _ _ _).symm
      · rw [hstep]
      · rw [hstep]
  · intro hrow
    cases hv : (check_valid w.self).1
    · have h0 := reachable_invalid_no_row w hr hv
      rw [step_invalid w hv]
      have := (only_message_status (check_valid_only_message w.self)).2.2.2.1
      simp [get_row, this, h0]
    · obtain ⟨c, h | h⟩ := step_valid_self w hv
      · exact absurd h.2 hrow
      · simp only [get_row]; rw [h.1]; rfl
  · cases hv : (check_valid w.self).1
    · have h0 := reachable_invalid_no_row w hr hv
      rw [reset_invalid w hv]
      have := (only_message_status (check_valid_only_message w.self)).2.2.2.1
      simp [get_row, this, h0]
    · simp [get_row, (reset_valid_self w hv).1]
  · have := (release_statement_row StatementStatus.CONNECTION_FINALIZED w).1
    simp [get_row, connection_finalized, this]
  · intro p_db p_stmt
    simp [get_row, initialize_, reset_row_state]

/-- C12, witness: the sample statement after its first `step`, which produces a row. -/
theorem current_row_iff_last_step_row_witness :
    (step sample_world).1 = SQLITE_ROW ∧
      get_row (step sample_world).2 = (marshal_current_row (step sample_world).2).1 ∧
      get_row (reset (step sample_world).2).2 = [] :=
  ⟨by decide,
    (current_row_iff_last_step_row sample_world
      (Reachable.op (Op.init (some 1) (some 10)) _ _ (Reachable.fresh sample_engine) rfl)).2.1
      (by decide),
    (current_row_iff_last_step_row (step sample_world).2
      (Reachable.op Op.step _ _
        (Reachable.op (Op.init (some 1) (some 10)) _ _ (Reachable.fresh sample_engine) rfl)
        rfl)).2.2.2.1⟩

/-! ## The engine across the operations -/

theorem follows_refl (e : Engine) : follows e e :=
  ⟨fun _ => rfl, [], by simp, by simp⟩

theorem follows_trans {e e2 e3 : Engine} (h1 : follows e e2) (h2 : follows e2 e3) :
    follows e e3 := by
  obtain ⟨a1, l1, c1, d1⟩ := h1
  obtain ⟨a2, l2, c2, d2⟩ := h2
  refine ⟨fun s => (a2 s).trans (a1 s), l1 ++ l2, ?_, ?_⟩
  · rw [c2, c1, List.append_assoc]
  · intro c hc
    rcases List.mem_append.1 hc with h | h
    · exact d1 c h
    · exact d2 c h

theorem follows_of_reads {stmt : Option Nat} {e e2 : Engine} (h : reads stmt e e2)
    (hs : stmt ≠ none) : follows e e2 := by
  obtain ⟨a, b, l, c, d⟩ := h
  refine ⟨fun s => column_names_of_stmts a s, l, c, ?_⟩
  intro x hx
  rw [(d x hx).2]
  exact hs

theorem follows_log (e : Engine) (c : EngineCall) (h : c.pointer ≠ none) :
    follows e (e.log c) := by
  refine ⟨fun _ => rfl, [c], rfl, ?_⟩
  intro x hx
  rw [List.mem_singleton] at hx
  rw [hx]
  exact h

theorem column_names_update (e : Engine) (h : Nat) (f : StmtData → StmtData)
    (hf : ∀ d, (f d).column_names = d.column_names) (stmt : Option Nat) :
    (e.update h f).column_names stmt = e.column_names stmt := by
  unfold Engine.column_names
  rw [data_update]
  split_ifs
  · cases e.data stmt with
    | none => rfl
    | some d => exact hf d
  · rfl

theorem follows_update (e : Engine) (h : Nat) (f : StmtData → StmtData)
    (hf : ∀ d, (f d).column_names = d.column_names) : follows e (e.update h f) :=
  ⟨column_names_update e h f hf, [], by simp [Engine.update], by simp⟩

theorem follows_set_errmsg (e : Engine) (c : Nat) (m : String) : follows e (e.set_errmsg c m) :=
  ⟨fun _ => rfl, [], by simp [Engine.set_errmsg], by simp⟩

theorem follows_bind_value (e : Engine) (stmt : Option Nat) (idx : Int) (v : SqlValue) :
    follows e (e.bind_value stmt idx v).2 := by
  unfold Engine.bind_value
  split
  · exact follows_refl e
  · split
    · exact follows_refl e
    · split_ifs
      · exact follows_refl e
      · exact follows_update e _ _ (fun _ => rfl)
      · exact follows_refl e

theorem follows_bind_sqlite_parameter (v : Variant) (i : Int) (w : World)
    (hs : w.self.stmt ≠ none) : follows w.eng (bind_sqlite_parameter v i w).2.eng := by
  have key : ∀ (c : EngineCall) (x : SqlValue), c.pointer = w.self.stmt →
      follows w.eng ((w.eng.log c).bind_value w.self.stmt i x).2 := by
    intro c x hc
    exact follows_trans (follows_log w.eng c (by rw [hc]; exact hs))
      (follows_bind_value _ _ _ _)
  unfold bind_sqlite_parameter
  split
  · exact key _ _ rfl
  · exact key _ _ rfl
  · exact key _ _ rfl
  · exact key _ _ rfl
  · exact key _ _ rfl
  · exact key _ _ rfl
  · split_ifs
    · exact key _ _ rfl
    · exact key _ _ rfl
  · exact follows_refl _

theorem bind_sqlite_parameter_stmt (v : Variant) (i : Int) (w : World) :
    (bind_sqlite_parameter v i w).2.self.stmt = w.self.stmt :=
  (only_message_status (bind_sqlite_parameter_only_message v i w)).2.1

theorem follows_bind_all_loop (vs : List Variant) (is : List Nat) (w : World)
    (hs : w.self.stmt ≠ none) : follows w.eng (bind_all_loop vs is w).2.eng := by
  induction is generalizing w with
  | nil => exact follows_refl _
  | cons i rest ih =>
    unfold bind_all_loop
    simp only []
    have h1 := follows_bind_sqlite_parameter (vs.getD i Variant.NIL) ((i : Int) + 1) w hs
    split_ifs
    · exact h1
    · exact follows_trans h1 (ih _ (by rw [bind_sqlite_parameter_stmt]; exact hs))

theorem follows_bind_named_loop (m : Dictionary) (is : List Nat) (w : World)
    (hs : w.self.stmt ≠ none) : follows w.eng (bind_named_loop m is w).2.eng := by
  induction is generalizing w with
  | nil => exact follows_refl _
  | cons i rest ih =>
    have h0 : follows w.eng (sqlite3_bind_parameter_name w.eng w.self.stmt ((i : Int) + 1)).2 := by
      have : (sqlite3_bind_parameter_name w.eng w.self.stmt ((i : Int) + 1)).2 =
          w.eng.log (EngineCall.bind_parameter_name w.self.stmt ((i : Int) + 1)) := by
        unfold sqlite3_bind_parameter_name
        simp only []
        split <;> rfl
      rw [this]
      exact follows_log _ _ hs
    have h1 : ∀ v : Variant, follows
        (sqlite3_bind_parameter_name w.eng w.self.stmt ((i : Int) + 1)).2
        (bind_sqlite_parameter v ((i : Int) + 1)
          { w with eng :=
            (sqlite3_bind_parameter_name w.eng w.self.stmt ((i : Int) + 1)).2 }).2.eng :=
      fun v => follows_bind_sqlite_parameter v ((i : Int) + 1)
        { w with eng := (sqlite3_bind_parameter_name w.eng w.self.stmt ((i : Int) + 1)).2 } hs
    rw [bind_named_loop_cons]
    split
    · exact h0
    · split
      · exact h0
      · rename_i v _
        have h1 := h1 v
        split_ifs
        · exact follows_trans h0 h1
        · refine follows_trans (follows_trans h0 h1) (ih _ ?_)
          rw [bind_sqlite_parameter_stmt]
          exact hs

theorem follows_param_count (e : Engine) (stmt : Option Nat) (hs : stmt ≠ none) :
    follows e (sqlite3_bind_parameter_count e stmt).2 := by
  rw [(param_count_eq e stmt).2.2]
  exact follows_log _ _ hs

theorem follows_bind (i : Int) (v : Variant) (w : World) :
    follows w.eng (bind i v w).2.eng := by
  cases hv : (check_valid w.self).1
  · rw [bind_invalid i v w hv]; exact follows_refl _
  · obtain ⟨-, -, hst⟩ := (check_valid_true_iff _).1 hv
    have hs2 := check_valid_true_snd _ hv
    have h0 := follows_param_count w.eng w.self.stmt hst
    unfold bind
    simp only [hv, hs2, Bool.true_eq_false, if_false]
    split_ifs
    · exact h0
    · exact follows_trans h0 (follows_bind_sqlite_parameter _ _
        { self := w.self, eng := (sqlite3_bind_parameter_count w.eng w.self.stmt).2 } hst)

theorem follows_bind_all (vs : List Variant) (w : World) :
    follows w.eng (bind_all vs w).2.eng := by
  cases hv : (check_valid w.self).1
  · rw [bind_all_invalid vs w hv]; exact follows_refl _
  · obtain ⟨-, -, hst⟩ := (check_valid_true_iff _).1 hv
    have hs2 := check_valid_true_snd _ hv
    have h0 := follows_param_count w.eng w.self.stmt hst
    unfold bind_all
    simp only [hv, hs2, Bool.true_eq_false, if_false]
    split_ifs
    · exact h0
    · exact follows_trans h0 (follows_bind_all_loop _ _
        { self := w.self, eng := (sqlite3_bind_parameter_count w.eng w.self.stmt).2 } hst)

theorem follows_bind_named (m : Dictionary) (w : World) :
    follows w.eng (bind_named m w).2.eng := by
  cases hv : (check_valid w.self).1
  · rw [bind_named_invalid m w hv]; exact follows_refl _
  · obtain ⟨-, -, hst⟩ := (check_valid_true_iff _).1 hv
    have hs2 := check_valid_true_snd _ hv
    have h0 := follows_param_count w.eng w.self.stmt hst
    unfold bind_named
    simp only [hv, hs2, Bool.true_eq_false, if_false]
    exact follows_trans h0 (follows_bind_named_loop _ _
      { self := w.self, eng := (sqlite3_bind_parameter_count w.eng w.self.stmt).2 } hst)

theorem follows_clear_bindings (w : World) : follows w.eng (clear_bindings w).eng := by
  cases hv : (check_valid w.self).1
  · rw [clear_bindings_invalid w hv]; exact follows_refl _
  · obtain ⟨-, -, hst⟩ := (check_valid_true_iff _).1 hv
    have hs2 := check_valid_true_snd _ hv
    unfold clear_bindings
    simp only [hv, hs2, Bool.true_eq_false, if_false]
    unfold sqlite3_clear_bindings
    cases hh : w.self.stmt with
    | none => exact absurd hh hst
    | some h =>
      exact follows_trans (follows_log _ _ (by simp [EngineCall.pointer]))
        (follows_update _ _ _ (fun _ => rfl))

theorem follows_sqlite3_reset (e : Engine) (h : Nat) :
    follows e (sqlite3_reset e (some h)).2 := by
  have h0 : follows e (e.log (EngineCall.reset (some h))) :=
    follows_log _ _ (by simp [EngineCall.pointer])
  unfold sqlite3_reset
  simp only []
  split
  · exact h0
  · refine follows_trans ?_ (follows_set_errmsg _ _ _)
    exact follows_trans h0 (follows_update _ _ _ (fun _ => rfl))

theorem follows_sqlite3_step (e : Engine) (h : Nat) :
    follows e (sqlite3_step e (some h)).2 := by
  have h0 : follows e (e.log (EngineCall.step (some h))) :=
    follows_log _ _ (by simp [EngineCall.pointer])
  unfold sqlite3_step
  simp only []
  split
  · exact h0
  · split
    · refine follows_trans ?_ (follows_set_errmsg _ _ _)
      exact follows_trans h0 (follows_update _ _ _ (fun _ => rfl))
    · refine follows_trans ?_ (follows_set_errmsg _ _ _)
      exact follows_trans h0 (follows_update _ _ _ (fun _ => rfl))

theorem follows_errmsg (e : Engine) (db : Option Nat) (h : db ≠ none) :
    follows e (sqlite3_errmsg e db).2 := by
  rw [errmsg_eq]
  exact follows_log _ _ h

theorem follows_reset (w : World) : follows w.eng (reset w).2.eng := by
  cases hv : (check_valid w.self).1
  · rw [reset_invalid w hv]; exact follows_refl _
  · obtain ⟨-, hdb, hst⟩ := (check_valid_true_iff _).1 hv
    have hs2 := check_valid_true_snd _ hv
    unfold reset
    simp only [hv, hs2, Bool.true_eq_false, if_false, reset_row_state]
    cases hh : w.self.stmt with
    | none => exact absurd hh hst
    | some h =>
      split_ifs
      · exact follows_trans (follows_sqlite3_reset _ h) (follows_errmsg _ _ hdb)
      · exact follows_sqlite3_reset _ h

theorem follows_cache_column_names (w : World) :
    follows w.eng (cache_column_names w).eng := by
  cases hh : w.self.stmt with
  | none => rw [cache_column_names_no_handle w hh]; exact follows_refl _
  | some h =>
    exact follows_of_reads (cache_column_names_eq w).2 (by simp [hh])

theorem follows_step (w : World) : follows w.eng (step w).2.eng := by
  cases hv : (check_valid w.self).1
  · rw [step_invalid w hv]; exact follows_refl _
  · obtain ⟨-, hdb, hst⟩ := (check_valid_true_iff _).1 hv
    obtain ⟨cs, -⟩ := cache_column_names_eq w
    have hc := follows_cache_column_names w
    have hst1 : (cache_column_names w).self.stmt = w.self.stmt := by rw [cs]
    have hdb1 : (cache_column_names w).self.db = w.self.db := by rw [cs]
    rw [step_valid_eq w hv, hst1, hdb1]
    cases hh : w.self.stmt with
    | none => exact absurd hh hst
    | some h =>
      have h1 := follows_trans hc (follows_sqlite3_step (cache_column_names w).eng h)
      split_ifs
      · refine follows_trans h1 (follows_of_reads (marshal_current_row_eq _ ?_).2 ?_)
        · show (cache_column_names w).self.stmt ≠ none
          rw [hst1]; exact hst
        · show (cache_column_names w).self.stmt ≠ none
          rw [hst1]; exact hst
      · exact h1
      · exact follows_trans h1 (follows_errmsg _ _ hdb)

theorem step_self_fields (w : World) :
    (step w).2.self.stmt = w.self.stmt ∧ (step w).2.self.db = w.self.db ∧
      (step w).2.self.status = w.self.status := by
  cases hv : (check_valid w.self).1
  · rw [step_invalid w hv]
    obtain ⟨h1, h2, h3, -⟩ := only_message_status (check_valid_only_message w.self)
    exact ⟨h2, h3, h1⟩
  · obtain ⟨c, h | h⟩ := step_valid_self w hv
    · rw [h.1]; exact ⟨rfl, rfl, rfl⟩
    · rw [h.1]; exact ⟨rfl, rfl, rfl⟩

theorem follows_execute_loop (fuel : Nat) (w : World) (r : Bool × World)
    (h : execute_loop fuel w = some r) : follows w.eng r.2.eng := by
  induction fuel generalizing w with
  | zero => simp [execute_loop] at h
  | succ n ih =>
    unfold execute_loop at h
    simp only [] at h
    split_ifs at h
    · exact follows_trans (follows_step w) (ih _ h)
    · cases h
      exact follows_step w

theorem follows_fetch_all_loop (fuel : Nat) (rows : List Dictionary) (w : World)
    (r : List Dictionary × World) (h : fetch_all_loop fuel rows w = some r) :
    follows w.eng r.2.eng := by
  induction fuel generalizing w rows with
  | zero => simp [fetch_all_loop] at h
  | succ n ih =>
    unfold fetch_all_loop at h
    simp only [] at h
    split_ifs at h
    · exact follows_trans (follows_step w) (ih _ _ h)
    · cases h
      exact follows_step w

/-! ## The column-name cache in the reachable states -/

theorem runs_to_zero (d : StmtData) (c : Int) (h : runs_to d.script 0 c) :
    (next_outcome d).rc = c ∧ c ≠ SQLITE_ROW := by
  unfold next_outcome
  cases hs : d.script with
  | nil =>
    rw [hs] at h
    simp only [runs_to] at h
    rw [h]
    exact ⟨rfl, by decide⟩
  | cons o rest =>
    rw [hs] at h
    simp only [runs_to] at h
    exact ⟨h.1, h.2⟩

theorem runs_to_succ (d : StmtData) (k : Nat) (c : Int) (h : runs_to d.script (k + 1) c) :
    (next_outcome d).rc = SQLITE_ROW ∧ runs_to (advance d).script k c ∧
      d.script = next_outcome d :: (advance d).script := by
  unfold next_outcome advance
  cases hs : d.script with
  | nil =>
    rw [hs] at h
    simp only [runs_to] at h
  | cons o rest =>
    rw [hs] at h
    simp only [runs_to] at h
    exact ⟨h.1, h.2, rfl⟩

theorem valid_step (w : World) (hv : valid w) : valid (step w).2 := by
  obtain ⟨h1, h2, h3⟩ := step_self_fields w
  unfold valid at hv ⊢
  rw [check_valid_true_iff] at hv ⊢
  rw [h1, h2, h3]
  exact hv

/-- The loop of `execute` on a valid statement whose script runs to the code `c` after `k`
rows: with a bound above `k` it returns, true exactly for completion, without current
row, after `k + 1` calls of `sqlite3_step`; with a smaller bound it does not return. -/
theorem execute_loop_runs (k : Nat) :
    ∀ (w : World) (h : Nat) (d : StmtData) (c : Int), valid w → w.self.stmt = some h →
      w.eng.data (some h) = some d → runs_to d.script k c → ∀ fuel,
      (k < fuel → ∃ w2, execute_loop fuel w = some (decide (c = SQLITE_DONE), w2) ∧
        w2.self.has_row = false ∧ w2.self.current_row = [] ∧
        ∃ l, w2.eng.calls = w.eng.calls ++ l ∧
          l.filter EngineCall.is_step = List.replicate (k + 1) (EngineCall.step (some h))) ∧
      (fuel ≤ k → execute_loop fuel w = none) := by
  induction k with
  | zero =>
    intro w h d c hv hh hd hrun fuel
    obtain ⟨r1, r2⟩ := runs_to_zero d c hrun
    obtain ⟨s1, -, -, ⟨l, hl, hf, -⟩, s5⟩ := step_live w h d hv hh hd
    refine ⟨?_, ?_⟩
    · intro hfuel
      cases fuel with
      | zero => omega
      | succ f =>
        have hne : ¬ (step w).1 = SQLITE_ROW := by rw [s1, r1]; exact r2
        refine ⟨(step w).2, ?_, ?_, ?_, l, hl, hf⟩
        · unfold execute_loop
          simp only [hne, if_false, s1, r1]
          rw [if_neg r2]
        · rw [s5]
          simp [r1, r2]
        · rw [s5]
          simp [r1, r2]
    · intro hfuel
      have : fuel = 0 := by omega
      rw [this]
      rfl
  | succ k ih =>
    intro w h d c hv hh hd hrun fuel
    obtain ⟨r1, r2, -⟩ := runs_to_succ d k c hrun
    obtain ⟨s1, s2, -, ⟨l, hl, hf, -⟩, -⟩ := step_live w h d hv hh hd
    have hrow : (step w).1 = SQLITE_ROW := by rw [s1, r1]
    have hd2 : (step w).2.eng.data (some h) = some (advance d) := by
      rw [s2, if_pos rfl]
    have hh2 : (step w).2.self.stmt = some h := by rw [(step_self_fields w).1, hh]
    obtain ⟨i1, i2⟩ := ih (step w).2 h (advance d) c (valid_step w hv) hh2 hd2 r2 (fuel - 1)
    refine ⟨?_, ?_⟩
    · intro hfuel
      cases fuel with
      | zero => omega
      | succ f =>
        obtain ⟨w2, e1, e2, e3, l2, hl2, hf2⟩ := i1 (by omega)
        refine ⟨w2, ?_, e2, e3, l ++ l2, ?_, ?_⟩
        · unfold execute_loop
          simp only [hrow, if_true]
          exact e1
        · rw [hl2, hl, List.append_assoc]
        · rw [List.filter_append, hf, hf2]
          rfl
    · intro hfuel
      cases fuel with
      | zero => rfl
      | succ f =>
        unfold execute_loop
        simp only [hrow, if_true]
        exact i2 (by omega)

theorem new_calls_append (e e2 : Engine) (l : List EngineCall)
    (h : e2.calls = e.calls ++ l) : new_calls e e2 = l := by
  simp [new_calls, h]

/-- C14: on a valid statement whose handle is live in the engine and whose script produces
`k` rows followed by a first other outcome `c`: `execute`, with a bound above `k` on
its loop, returns after exactly `k + 1` calls of `sqlite3_step`, returns true exactly
when `c` is `SQLITE_DONE`, and leaves no current row; with a bound of at most `k` the
loop does not return; on a statement that is not valid `execute` returns false and the
engine is as before. -/
theorem execute_steps_to_first_other_outcome (w : World) (h : Nat) (d : StmtData) (k : Nat)
    (c : Int) (hv : valid w) (hh : w.self.stmt = some h)
    (hd : w.eng.data (some h) = some d) (hrun : runs_to d.script k c) :
    (∀ fuel, k < fuel →
        ∃ w2, execute fuel w = some (decide (c = SQLITE_DONE), w2) ∧
          get_row w2 = [] ∧ w2.self.has_row = false ∧
          (new_calls w.eng w2.eng).filter EngineCall.is_step =
            List.replicate (k + 1) (EngineCall.step (some h))) ∧
      (∀ fuel, fuel ≤ k → execute fuel w = none) ∧
      (∀ (w0 : World) (fuel : Nat), ¬ valid w0 →
        ∃ w2, execute fuel w0 = some (false, w2) ∧ w2.eng = w0.eng) := by
  have hs2 := check_valid_true_snd _ hv
  have he : ∀ fuel, execute fuel w = execute_loop fuel w := by
    intro fuel
    unfold execute
    unfold valid at hv
    simp only [hv, hs2, Bool.true_eq_false, if_false]
  refine ⟨?_, ?_, ?_⟩
  · intro fuel hfuel
    obtain ⟨w2, e1, e2, e3, l, hl, hf⟩ :=
      (execute_loop_runs k w h d c hv hh hd hrun fuel).1 hfuel
    refine ⟨w2, by rw [he, e1], ?_, e2, ?_⟩
    · simp [get_row, e2]
    · rw [new_calls_append _ _ _ hl, hf]
  · intro fuel hfuel
    rw [he]
    exact (execute_loop_runs k w h d c hv hh hd hrun fuel).2 hfuel
  · intro w0 fuel hv0
    have : (check_valid w0.self).1 = false := by
      cases hc : (check_valid w0.self).1
      · rfl
      · exact absurd hc hv0
    exact ⟨_, execute_invalid fuel w0 this, rfl⟩

/-- C14, witness: the sample statement produces one row and then completes, so `execute`
returns true after two steps. -/
theorem execute_steps_to_first_other_outcome_witness :
    ∃ w2, execute 2 sample_world = some (true, w2) ∧ get_row w2 = [] ∧
      (new_calls sample_world.eng w2.eng).filter EngineCall.is_step =
        [EngineCall.step (some 10), EngineCall.step (some 10)] := by
  obtain ⟨w2, h1, h2, -, h4⟩ := (execute_steps_to_first_other_outcome sample_world 10
    sample_data 1 SQLITE_DONE
    (by decide) (by decide) (by decide) (by decide)).1 2 (by decide)
  exact ⟨w2, h1, h2, h4⟩

/-! ## The error message -/

theorem bind_sqlite_parameter_message (v : Variant) (i : Int) (w : World) :
    ((bind_sqlite_parameter v i w).1 = true → (bind_sqlite_parameter v i w).2.self = w.self) ∧
      ((bind_sqlite_parameter v i w).1 = false →
        (bind_sqlite_parameter v i w).2.self.error_message =
          "Binding a parameter of this Variant type is not supported.") := by
  cases v with
  | PACKED_BYTE_ARRAY bytes =>
    unfold bind_sqlite_parameter
    simp only []
    split_ifs <;> exact ⟨fun _ => rfl, (fun h => nomatch h)⟩
  | OTHER t => exact ⟨(fun h => nomatch h), fun _ => rfl⟩
  | _ => exact ⟨fun _ => rfl, (fun h => nomatch h)⟩

theorem bind_sqlite_parameter_result (v : Variant) (i : Int) (w : World) :
    (bind_sqlite_parameter v i w).1 = supported v := by
  cases v with
  | PACKED_BYTE_ARRAY bytes =>
    unfold bind_sqlite_parameter
    simp only []
    split_ifs <;> rfl
  | _ => rfl

theorem bind_all_loop_message (vs : List Variant) (is : List Nat) (w : World) :
    ((bind_all_loop vs is w).1 = true → (bind_all_loop vs is w).2.self = w.self) ∧
      ((bind_all_loop vs is w).1 = false →
        (bind_all_loop vs is w).2.self.error_message =
          "Binding a parameter of this Variant type is not supported.") := by
  induction is generalizing w with
  | nil => exact ⟨fun _ => rfl, (fun h => nomatch h)⟩
  | cons i rest ih =>
    obtain ⟨b1, b2⟩ := bind_sqlite_parameter_message (vs.getD i Variant.NIL) ((i : Int) + 1) w
    unfold bind_all_loop
    simp only []
    split_ifs with hr
    · exact ⟨(fun h => nomatch h), fun _ => b2 hr⟩
    · have ht : (bind_sqlite_parameter (vs.getD i Variant.NIL) ((i : Int) + 1) w).1 = true := by
        simpa using hr
      obtain ⟨i1, i2⟩ := ih (bind_sqlite_parameter (vs.getD i Variant.NIL) ((i : Int) + 1) w).2
      exact ⟨fun h => (i1 h).trans (b1 ht), i2⟩

theorem bind_named_loop_same (m : Dictionary) (is : List Nat) (w : World) :
    (bind_named_loop m is w).1 = true → (bind_named_loop m is w).2.self = w.self := by
  induction is generalizing w with
  | nil => exact fun _ => rfl
  | cons i rest ih =>
    rw [bind_named_loop_cons]
    split
    · exact (fun h => nomatch h)
    · split
      · exact (fun h => nomatch h)
      · rename_i v _
        obtain ⟨b1, -⟩ := bind_sqlite_parameter_message v ((i : Int) + 1)
          { w with eng := (sqlite3_bind_parameter_name w.eng w.self.stmt ((i : Int) + 1)).2 }
        split_ifs with hr
        · exact (fun h => nomatch h)
        · have ht : (bind_sqlite_parameter v ((i : Int) + 1)
              { w with eng :=
                (sqlite3_bind_parameter_name w.eng w.self.stmt ((i : Int) + 1)).2 }).1 =
              true := by simpa using hr
          intro h
          exact (ih _ h).trans (b1 ht)

/-- When the loop of `bind_named` fails, the error message is the diagnostic of the first
parameter, in slot order, that has one. -/
theorem bind_named_loop_diagnostic (mp : Dictionary) (m a : Nat) (w : World)
    (hlen : a + m ≤ (w.eng.params w.self.stmt).length)
    (hf : (bind_named_loop mp (List.range' a m) w).1 = false) :
    ∃ k, a ≤ k ∧ k < a + m ∧
      (∀ j, a ≤ j → j < k →
        named_diagnostic mp (((w.eng.params w.self.stmt)[j]?).bind (fun p => p.name)) = none) ∧
      named_diagnostic mp (((w.eng.params w.self.stmt)[k]?).bind (fun p => p.name)) =
        some (bind_named_loop mp (List.range' a m) w).2.self.error_message := by
  induction m generalizing a w with
  | zero => simp [bind_named_loop] at hf
  | succ m ih =>
    obtain ⟨n1, n2⟩ := param_name_eq w.eng w.self.stmt a
    have ha : a < (w.eng.params w.self.stmt).length := by omega
    have hget : (w.eng.params w.self.stmt)[a]? = some ((w.eng.params w.self.stmt)[a]) :=
      List.getElem?_eq_getElem ha
    rw [hget] at n1
    simp only [Option.some_bind] at n1
    have hcons : List.range' a (m + 1) = a :: List.range' (a + 1) m := rfl
    rw [hcons, bind_named_loop_cons] at hf ⊢
    cases hnm : ((w.eng.params w.self.stmt)[a]).name with
    | none =>
      rw [hnm] at n1
      simp only [n1] at hf ⊢
      refine ⟨a, le_refl _, by omega, fun j h1 h2 => by omega, ?_⟩
      rw [hget]
      simp only [Option.some_bind, hnm, named_diagnostic]
    | some pn =>
      rw [hnm] at n1
      simp only [n1] at hf ⊢
      cases hval : named_value mp (parameter_key pn) with
      | none =>
        simp only [hval] at hf ⊢
        refine ⟨a, le_refl _, by omega, fun j h1 h2 => by omega, ?_⟩
        rw [hget]
        simp only [Option.some_bind, hnm, named_diagnostic, hval]
      | some v =>
        simp only [hval] at hf ⊢
        obtain ⟨e1, e2, -, -⟩ := bind_sqlite_parameter_slots v a
          { w with eng := (sqlite3_bind_parameter_name w.eng w.self.stmt ((a : Int) + 1)).2 }
          _ rfl
        obtain ⟨-, b2⟩ := bind_sqlite_parameter_message v ((a : Int) + 1)
          { w with eng := (sqlite3_bind_parameter_name w.eng w.self.stmt ((a : Int) + 1)).2 }
        cases hsup : supported v
        · have hres : (bind_sqlite_parameter v ((a : Int) + 1)
              { w with eng :=
                (sqlite3_bind_parameter_name w.eng w.self.stmt ((a : Int) + 1)).2 }).1 =
              false := by rw [e1, hsup]
          rw [if_pos hres] at hf ⊢
          refine ⟨a, le_refl _, by omega, fun j h1 h2 => by omega, ?_⟩
          rw [hget]
          simp only [Option.some_bind, hnm, named_diagnostic, hval, hsup, b2 hres,
            Bool.false_eq_true, if_false]
        · have hne : ¬ ((bind_sqlite_parameter v ((a : Int) + 1)
              { w with eng :=
                (sqlite3_bind_parameter_name w.eng w.self.stmt ((a : Int) + 1)).2 }).1 =
              false) := by
            rw [e1, hsup]; simp
          rw [if_neg hne] at hf ⊢
          obtain ⟨f1, f2⟩ := e2 hsup
          have hp := f2 w.self.stmt
          simp only [if_true, n2] at hp
          have hst : (bind_sqlite_parameter v ((a : Int) + 1)
              { w with eng :=
                (sqlite3_bind_parameter_name w.eng w.self.stmt ((a : Int) + 1)).2 }).2.self.stmt =
              w.self.stmt := by rw [f1]
          obtain ⟨k, k1, k2, k3, k4⟩ := ih (a + 1)
            (bind_sqlite_parameter v ((a : Int) + 1)
              { w with eng :=
                (sqlite3_bind_parameter_name w.eng w.self.stmt ((a : Int) + 1)).2 }).2
            (by rw [hst, hp, put_length]; omega) hf
          rw [hst, hp] at k3 k4
          rw [put_name_at] at k4
          refine ⟨k, by omega, by omega, ?_, k4⟩
          intro j h1 h2
          by_cases hj : j = a
          · rw [hj, hget]
            simp only [Option.some_bind, hnm, named_diagnostic, hval, hsup, if_true]
          · have := k3 j (by omega) h2
            rw [put_name_at] at this
            exact this

theorem param_names_getD (e : Engine) (stmt : Option Nat) (j : Nat) :
    (e.param_names stmt).getD j none = ((e.params stmt)[j]?).bind (fun p => p.name) := by
  unfold Engine.param_names
  rw [List.getD_eq_getElem?_getD, List.getElem?_map]
  cases (e.params stmt)[j]? <;> rfl

theorem errtext_log (e : Engine) (c : EngineCall) (db : Option Nat) :
    (e.log c).errtext db = e.errtext db :=
  @errtext_of_errmsgs e (e.log c) rfl db

/-- What `sqlite3_reset` returns and leaves as error text on a live statement. -/
theorem sqlite3_reset_live (e : Engine) (h : Nat) (d : StmtData)
    (hd : e.data (some h) = some d) :
    (sqlite3_reset e (some h)).1 = d.reset_rc ∧
      (sqlite3_reset e (some h)).2.errmsgs = (d.db, d.reset_errmsg) :: e.errmsgs := by
  have hf : find_stmt e.stmts h = some d := hd
  unfold sqlite3_reset
  simp [hf, Engine.set_errmsg, Engine.update, Engine.log]

/-- The error message after `reset` on a valid statement. -/
theorem reset_message (w : World) (hv : valid w) :
    ((reset w).1 = true → (reset w).2.self.error_message = w.self.error_message) ∧
      ((reset w).1 = false →
        (reset w).2.self.error_message = (reset w).2.eng.errtext w.self.db ∧
        ∀ h d, w.self.stmt = some h → w.eng.data (some h) = some d →
          w.self.db = some d.db → (reset w).2.self.error_message = d.reset_errmsg) := by
  have hs2 := check_valid_true_snd _ hv
  have hr : reset w =
      if (sqlite3_reset w.eng w.self.stmt).1 ≠ SQLITE_OK then
        (false,
          { self := { reset_row_state w.self with
              error_message :=
                (sqlite3_errmsg (sqlite3_reset w.eng w.self.stmt).2 w.self.db).1 },
            eng := (sqlite3_errmsg (sqlite3_reset w.eng w.self.stmt).2 w.self.db).2 })
      else (true, { self := reset_row_state w.self,
                    eng := (sqlite3_reset w.eng w.self.stmt).2 }) := by
    unfold valid at hv
    unfold reset
    simp only [hv, hs2, Bool.true_eq_false, if_false]
    rfl
  rw [hr]
  split_ifs with hrc
  · refine ⟨(fun h => nomatch h), fun _ => ⟨?_, ?_⟩⟩
    · show (sqlite3_reset w.eng w.self.stmt).2.errtext w.self.db =
        (sqlite3_errmsg (sqlite3_reset w.eng w.self.stmt).2 w.self.db).2.errtext w.self.db
      rw [errmsg_eq, errtext_log]
    · intro h d hh hd hdb
      show (sqlite3_reset w.eng w.self.stmt).2.errtext w.self.db = d.reset_errmsg
      rw [hh]
      have h2 := (sqlite3_reset_live w.eng h d hd).2
      have h3 : (sqlite3_reset w.eng (some h)).2.errtext w.self.db =
          (w.eng.set_errmsg d.db d.reset_errmsg).errtext w.self.db :=
        errtext_of_errmsgs h2 _
      rw [h3, errtext_set_errmsg, if_pos hdb]
  · exact ⟨fun _ => rfl, (fun h => nomatch h)⟩

/-- The error message after `step` on a valid statement. -/
theorem step_message (w : World) (hv : valid w) :
    (((step w).1 = SQLITE_ROW ∨ (step w).1 = SQLITE_DONE) →
        (step w).2.self.error_message = w.self.error_message) ∧
      (¬ ((step w).1 = SQLITE_ROW ∨ (step w).1 = SQLITE_DONE) →
        (step w).2.self.error_message = (step w).2.eng.errtext w.self.db) := by
  obtain ⟨cs, -⟩ := cache_column_names_eq w
  have hdb1 : (cache_column_names w).self.db = w.self.db := by rw [cs]
  have hm1 : (cache_column_names w).self.error_message = w.self.error_message := by rw [cs]
  rw [step_valid_eq w hv, hdb1]
  split_ifs with hrow hdone
  · exact ⟨fun _ => hm1, fun hn => absurd (Or.inl hrow) hn⟩
  · exact ⟨fun _ => hm1, fun hn => absurd (Or.inr hdone) hn⟩
  · refine ⟨fun hn => ?_, fun _ => ?_⟩
    · rcases hn with hn | hn
      · exact absurd hn hrow
      · exact absurd hn hdone
    · show (sqlite3_step (cache_column_names w).eng (cache_column_names w).self.stmt).2.errtext
          w.self.db =
        (sqlite3_errmsg
          (sqlite3_step (cache_column_names w).eng (cache_column_names w).self.stmt).2
          w.self.db).2.errtext w.self.db
      rw [errmsg_eq, errtext_log]

/-- The error message after a failing `step` on a valid statement whose handle is live: the
text the failing outcome leaves, when the statement belongs to the stored connection. -/
theorem step_message_live (w : World) (h : Nat) (d : StmtData) (hv : valid w)
    (hh : w.self.stmt = some h) (hd : w.eng.data (some h) = some d)
    (hdb : w.self.db = some d.db)
    (hf : ¬ ((step w).1 = SQLITE_ROW ∨ (step w).1 = SQLITE_DONE)) :
    (step w).2.self.error_message = (next_outcome d).errmsg := by
  obtain ⟨s1, -, -, -, s5⟩ := step_live w h d hv hh hd
  rw [s1] at hf
  rw [s5]
  simp only [hf, if_false]
  rw [errtext_set_errmsg, if_pos hdb]

theorem execute_loop_message (fuel : Nat) (w : World) (r : Bool × World) (hv : valid w)
    (h : execute_loop fuel w = some r) :
    (r.1 = true → r.2.self.error_message = w.self.error_message) ∧
      (r.1 = false → r.2.self.error_message = r.2.eng.errtext w.self.db) := by
  induction fuel generalizing w with
  | zero => simp [execute_loop] at h
  | succ n ih =>
    obtain ⟨m1, m2⟩ := step_message w hv
    unfold execute_loop at h
    simp only [] at h
    split_ifs at h with hrow
    · obtain ⟨i1, i2⟩ := ih (step w).2 (valid_step w hv) h
      rw [m1 (Or.inl hrow)] at i1
      rw [(step_self_fields w).2.1] at i2
      exact ⟨i1, i2⟩
    · cases h
      refine ⟨fun ht => ?_, fun hf => ?_⟩
      · have hd : (step w).1 = SQLITE_DONE := by simpa using ht
        exact m1 (Or.inr hd)
      · have hd : ¬ (step w).1 = SQLITE_DONE := by simpa using hf
        exact m2 (not_or.2 ⟨hrow, hd⟩)

theorem next_outcome_getD (d : StmtData) : next_outcome d = d.script.getD 0 done_outcome := by
  unfold next_outcome
  cases d.script <;> rfl

/-- The error message after the loop of `execute` on a valid statement whose script runs to
the code `c` after `k` rows: as it was when `c` is completion, else the text the failing
outcome leaves, when the statement belongs to the stored connection. -/
theorem execute_loop_runs_message (k : Nat) :
    ∀ (w : World) (h : Nat) (d : StmtData) (c : Int) (r : Bool × World), valid w →
      w.self.stmt = some h → w.eng.data (some h) = some d → w.self.db = some d.db →
      runs_to d.script k c → ∀ fuel, execute_loop fuel w = some r →
      r.2.self.error_message =
        if c = SQLITE_DONE then w.self.error_message
        else (d.script.getD k done_outcome).errmsg := by
  induction k with
  | zero =>
    intro w h d c r hv hh hd hdb hrun fuel hex
    obtain ⟨r1, r2⟩ := runs_to_zero d c hrun
    obtain ⟨s1, -, -, -, s5⟩ := step_live w h d hv hh hd
    cases fuel with
    | zero => simp [execute_loop] at hex
    | succ f =>
      have hne : ¬ (step w).1 = SQLITE_ROW := by rw [s1, r1]; exact r2
      unfold execute_loop at hex
      simp only [hne, if_false, Option.some.injEq] at hex
      rw [← hex]
      show (step w).2.self.error_message = _
      rw [s5, ← next_outcome_getD]
      simp only [r1, r2, false_or]
      split_ifs
      · rfl
      · rw [errtext_set_errmsg, if_pos hdb]
  | succ k ih =>
    intro w h d c r hv hh hd hdb hrun fuel hex
    obtain ⟨r1, r2, r3⟩ := runs_to_succ d k c hrun
    obtain ⟨s1, s2, -, -, s5⟩ := step_live w h d hv hh hd
    have hrow : (step w).1 = SQLITE_ROW := by rw [s1, r1]
    have hd2 : (step w).2.eng.data (some h) = some (advance d) := by
      rw [s2, if_pos rfl]
    have hh2 : (step w).2.self.stmt = some h := by rw [(step_self_fields w).1, hh]
    have hdb2 : (step w).2.self.db = some (advance d).db := by
      rw [(step_self_fields w).2.1, hdb]; rfl
    have hmsg : (step w).2.self.error_message = w.self.error_message :=
      (step_message w hv).1 (Or.inl hrow)
    cases fuel with
    | zero => simp [execute_loop] at hex
    | succ f =>
      unfold execute_loop at hex
      simp only [hrow, if_true] at hex
      have := ih (step w).2 h (advance d) c r (valid_step w hv) hh2 hd2 hdb2 r2 f hex
      rw [this, hmsg]
      have hs : d.script.getD (k + 1) done_outcome = (advance d).script.getD k done_outcome := by
        rw [r3]
        simp [advance]
      rw [hs]

/-- C15: the error message is sticky.  A call of `bind`, `bind_all`, `bind_named`, `reset`
or `execute` that returns true, and a call of `step` that returns `SQLITE_ROW` or
`SQLITE_DONE`, leaves the error message as it was.  A call that fails leaves the
diagnostic of its failure.  On a statement that is not valid this is the diagnosis of
the state the validity check finds.  On a valid one it is: for `bind`, the message of
the index out of range when the index is out of range, else that of the unsupported
type; for `bind_all`, the message of the insufficient number of values when there are
too few, else that of the unsupported type, some value among the first `n` being of
one; for `bind_named`, the diagnostic of the first parameter, in slot order, that is
nameless, missing from the mapping or supplied with a value of an unsupported type;
for `reset`, `execute` and `step`, the error text the engine holds for the stored
connection when the call returns, which for `reset` and `step` on a live statement of
that connection is the text the failing engine call left. -/
theorem error_message_sticky (w : World) :
    (∀ i v, ((bind i v w).1 = true → (bind i v w).2.self.error_message = w.self.error_message) ∧
      ((bind i v w).1 = false →
        (¬ valid w ∧ guard_diagnosed w.self (bind i v w).2.self.error_message) ∨
        (valid w ∧ (i < 0 ∨ (sqlite3_bind_parameter_count w.eng w.self.stmt).1 ≤ i) ∧
          (bind i v w).2.self.error_message = "Binding index is out of range.") ∨
        (valid w ∧ 0 ≤ i ∧ i < (sqlite3_bind_parameter_count w.eng w.self.stmt).1 ∧
          supported v = false ∧
          (bind i v w).2.self.error_message =
            "Binding a parameter of this Variant type is not supported."))) ∧
    (∀ vs, ((bind_all vs w).1 = true →
        (bind_all vs w).2.self.error_message = w.self.error_message) ∧
      ((bind_all vs w).1 = false →
        (¬ valid w ∧ guard_diagnosed w.self (bind_all vs w).2.self.error_message) ∨
        (valid w ∧ (vs.length : Int) < (sqlite3_bind_parameter_count w.eng w.self.stmt).1 ∧
          (bind_all vs w).2.self.error_message =
            "Insufficient number of parameters to satisfy required bindings in statement.") ∨
        (valid w ∧ (sqlite3_bind_parameter_count w.eng w.self.stmt).1 ≤ (vs.length : Int) ∧
          (∃ k : Nat, (k : Int) < (sqlite3_bind_parameter_count w.eng w.self.stmt).1 ∧
            supported (vs.getD k Variant.NIL) = false) ∧
          (bind_all vs w).2.self.error_message =
            "Binding a parameter of this Variant type is not supported."))) ∧
    (∀ m, ((bind_named m w).1 = true →
        (bind_named m w).2.self.error_message = w.self.error_message) ∧
      ((bind_named m w).1 = false →
        (¬ valid w ∧ guard_diagnosed w.self (bind_named m w).2.self.error_message) ∨
        (valid w ∧ ∃ k, k < (w.eng.param_names w.self.stmt).length ∧
          (∀ j, j < k →
            named_diagnostic m ((w.eng.param_names w.self.stmt).getD j none) = none) ∧
          named_diagnostic m ((w.eng.param_names w.self.stmt).getD k none) =
            some (bind_named m w).2.self.error_message))) ∧
    (((reset w).1 = true → (reset w).2.self.error_message = w.self.error_message) ∧
      ((reset w).1 = false →
        (¬ valid w ∧ guard_diagnosed w.self (reset w).2.self.error_message) ∨
        (valid w ∧ (reset w).2.self.error_message = (reset w).2.eng.errtext w.self.db ∧
          ∀ h d, w.self.stmt = some h → w.eng.data (some h) = some d →
            w.self.db = some d.db → (reset w).2.self.error_message = d.reset_errmsg))) ∧
    (∀ fuel w2, (execute fuel w = some (true, w2) →
        w2.self.error_message = w.self.error_message) ∧
      (execute fuel w = some (false, w2) →
        (¬ valid w ∧ guard_diagnosed w.self w2.self.error_message) ∨
        (valid w ∧ w2.self.error_message = w2.eng.errtext w.self.db ∧
          ∀ h d k c, w.self.stmt = some h → w.eng.data (some h) = some d →
            w.self.db = some d.db → runs_to d.script k c →
            w2.self.error_message = (d.script.getD k done_outcome).errmsg))) ∧
    ((((step w).1 = SQLITE_ROW ∨ (step w).1 = SQLITE_DONE) →
        (step w).2.self.error_message = w.self.error_message) ∧
      (¬ ((step w).1 = SQLITE_ROW ∨ (step w).1 = SQLITE_DONE) →
        (¬ valid w ∧ guard_diagnosed w.self (step w).2.self.error_message) ∨
        (valid w ∧ (step w).2.self.error_message = (step w).2.eng.errtext w.self.db ∧
          ∀ h d, w.self.stmt = some h → w.eng.data (some h) = some d →
            w.self.db = some d.db →
            (step w).2.self.error_message = (next_outcome d).errmsg))) := by
  cases hv : (check_valid w.self).1
  · have hnv : ¬ valid w := by
      unfold valid; rw [hv]; exact Bool.noConfusion
    have hg : guard_diagnosed w.self (check_valid w.self).2.error_message := by
      have hv2 := hv
      unfold check_valid at hv2 ⊢
      unfold guard_diagnosed
      split_ifs at hv2 ⊢ with h1 h2 h3 h4
      · exact ⟨fun _ => rfl, fun hn => absurd h1 hn,
          fun hs => absurd (hs.symm.trans h1) (by decide),
          fun hs => absurd (hs.symm.trans h1) (by decide)⟩
      · refine ⟨fun hs => absurd hs h1, fun _ _ => rfl, fun hs hd => ?_, fun hs hd => ?_⟩
        · rcases h2 with h2 | h2
          · rw [hs] at h2; cases h2
          · exact absurd h2 hd
        · rcases h2 with h2 | h2
          · rw [hs] at h2; cases h2
          · exact absurd h2 hd
      · refine ⟨fun hs => absurd hs h1, fun _ hc => absurd hc h2, fun _ _ => rfl,
          fun hs => ?_⟩
        rw [hs] at h3; cases h3
      · refine ⟨fun hs => absurd hs h1, fun _ hc => absurd hc h2, fun hs => absurd hs h3,
          fun _ _ => rfl⟩
    refine ⟨?_, ?_, ?_, ?_, ?_, ?_⟩
    · intro i v
      rw [bind_invalid i v w hv]
      exact ⟨(fun h => nomatch h), fun _ => Or.inl ⟨hnv, hg⟩⟩
    · intro vs
      rw [bind_all_invalid vs w hv]
      exact ⟨(fun h => nomatch h), fun _ => Or.inl ⟨hnv, hg⟩⟩
    · intro m
      rw [bind_named_invalid m w hv]
      exact ⟨(fun h => nomatch h), fun _ => Or.inl ⟨hnv, hg⟩⟩
    · rw [reset_invalid w hv]
      exact ⟨(fun h => nomatch h), fun _ => Or.inl ⟨hnv, hg⟩⟩
    · intro fuel w2
      rw [execute_invalid fuel w hv]
      refine ⟨fun h => ?_, fun h => ?_⟩
      · simp at h
      · simp only [Option.some.injEq, Prod.mk.injEq, true_and] at h
        rw [← h]
        exact Or.inl ⟨hnv, hg⟩
    · rw [step_invalid w hv]
      refine ⟨fun h => ?_, fun _ => Or.inl ⟨hnv, hg⟩⟩
      rcases h with h | h
      · simp [SQLITE_MISUSE, SQLITE_ROW] at h
      · simp [SQLITE_MISUSE, SQLITE_DONE] at h
  · have hval : valid w := hv
    have hs2 := check_valid_true_snd _ hv
    obtain ⟨pc1, pc2, pc3⟩ := param_count_eq w.eng w.self.stmt
    refine ⟨?_, ?_, ?_, ?_, ?_, ?_⟩
    · intro i v
      rw [bind_valid_eq w i v hval, pc1]
      by_cases hr : i < 0 ∨ i ≥ ((w.eng.params w.self.stmt).length : Int)
      · rw [if_pos hr]
        refine ⟨(fun h => nomatch h), fun _ => Or.inr (Or.inl ⟨hval, ?_, rfl⟩)⟩
        rcases hr with hr | hr
        · exact Or.inl hr
        · exact Or.inr hr
      · rw [if_neg hr]
        obtain ⟨b1, b2⟩ := bind_sqlite_parameter_message v (toInt32 i + 1)
          { self := w.self, eng := (sqlite3_bind_parameter_count w.eng w.self.stmt).2 }
        have b3 := bind_sqlite_parameter_result v (toInt32 i + 1)
          { self := w.self, eng := (sqlite3_bind_parameter_count w.eng w.self.stmt).2 }
        refine ⟨fun h => by rw [b1 h], fun h => Or.inr (Or.inr ⟨hval, by omega, by omega, ?_,
          b2 h⟩)⟩
        rw [← b3]; exact h
    · intro vs
      have hcount : (sqlite3_bind_parameter_count w.eng w.self.stmt).1 =
          (((w.eng.params w.self.stmt).length : Nat) : Int) := pc1
      rw [bind_all_valid_eq w vs _ hval hcount, pc1]
      by_cases hlt : (vs.length : Int) < ((w.eng.params w.self.stmt).length : Int)
      · rw [if_pos hlt]
        exact ⟨(fun h => nomatch h), fun _ => Or.inr (Or.inl ⟨hval, hlt, rfl⟩)⟩
      · rw [if_neg hlt]
        obtain ⟨b1, b2⟩ := bind_all_loop_message vs
          (List.range' 0 (w.eng.params w.self.stmt).length)
          { self := w.self, eng := (sqlite3_bind_parameter_count w.eng w.self.stmt).2 }
        obtain ⟨c, hc, -, g2, g3, -, -, -⟩ := bind_all_loop_effect vs
          (w.eng.params w.self.stmt).length 0
          { self := w.self, eng := (sqlite3_bind_parameter_count w.eng w.self.stmt).2 }
          _ rfl (by simp only [pc2]; omega)
        refine ⟨fun h => by rw [b1 h], fun h => Or.inr (Or.inr ⟨hval, by omega, ?_, b2 h⟩)⟩
        have hcn : c < (w.eng.params w.self.stmt).length := by
          rcases Nat.lt_or_ge c (w.eng.params w.self.stmt).length with h1 | h1
          · exact h1
          · have hceq : c = (w.eng.params w.self.stmt).length := by omega
            rw [g2.2 hceq] at h
            exact Bool.noConfusion h
        have hbad := g3 hcn
        rw [Nat.zero_add] at hbad
        exact ⟨c, by omega, hbad⟩
    · intro m
      rw [bind_named_valid_eq w m hval]
      refine ⟨fun h => ?_, fun h => Or.inr ⟨hval, ?_⟩⟩
      · rw [bind_named_loop_same _ _ _ h]
      · obtain ⟨k, -, k2, k3, k4⟩ := bind_named_loop_diagnostic m
          (w.eng.params w.self.stmt).length 0
          { self := w.self, eng := (sqlite3_bind_parameter_count w.eng w.self.stmt).2 }
          (by simp only [pc2]; omega) h
        simp only [pc2] at k3 k4
        refine ⟨k, ?_, ?_, ?_⟩
        · unfold Engine.param_names
          rw [List.length_map]
          omega
        · intro j hj
          rw [param_names_getD]
          exact k3 j (Nat.zero_le _) hj
        · rw [param_names_getD]
          exact k4
    · obtain ⟨r1, r2⟩ := reset_message w hval
      exact ⟨r1, fun h => Or.inr ⟨hval, r2 h⟩⟩
    · intro fuel w2
      have he : execute fuel w = execute_loop fuel w := by
        unfold execute
        simp only [hv, hs2, Bool.true_eq_false, if_false]
      rw [he]
      refine ⟨fun h => ?_, fun h => Or.inr ⟨hval, ?_, ?_⟩⟩
      · exact (execute_loop_message fuel w _ hval h).1 rfl
      · exact (execute_loop_message fuel w _ hval h).2 rfl
      · intro h2 d k c hh hd hdb hrun
        have hm := execute_loop_runs_message k w h2 d c _ hval hh hd hdb hrun fuel h
        have hc : c ≠ SQLITE_DONE := by
          intro hc
          obtain ⟨w3, e1, -⟩ := (execute_loop_runs k w h2 d c hval hh hd hrun (k + 1)).1
            (by omega)
          by_cases hfuel : k < fuel
          · obtain ⟨w4, e2, -⟩ := (execute_loop_runs k w h2 d c hval hh hd hrun fuel).1 hfuel
            rw [e2] at h
            simp [hc] at h
          · have := (execute_loop_runs k w h2 d c hval hh hd hrun fuel).2 (by omega)
            rw [this] at h
            exact Option.noConfusion h
        rw [hm, if_neg hc]
    · obtain ⟨m1, m2⟩ := step_message w hval
      refine ⟨m1, fun h => Or.inr ⟨hval, m2 h, ?_⟩⟩
      intro h2 d hh hd hdb
      exact step_message_live w h2 d hval hh hd hdb h

/-- C15, witness: on the sample statement a `bind` with an index out of range leaves its
message, and a `bind` that succeeds afterwards leaves that message in place; on the
statement whose first step fails, `step` leaves the text of the failure, and so do
`reset` and `execute`; the failures of `bind`, `bind_all` and `bind_named` on the sample
statement, and of `step` on a freshly constructed statement, leave their diagnostics. -/
theorem error_message_sticky_witness :
    (bind 5 Variant.NIL sample_world).2.self.error_message = "Binding index is out of range." ∧
      (bind 0 Variant.NIL (bind 5 Variant.NIL sample_world).2).2.self.error_message =
        "Binding index is out of range." ∧
      (step failing_world).2.self.error_message = "disk I/O error" ∧
      (reset failing_world).2.self.error_message = "disk I/O error" ∧
      (execute 1 failing_world).map (fun r => r.2.self.error_message) =
        some "disk I/O error" ∧
      (bind 0 (Variant.OTHER 27) sample_world).2.self.error_message =
        "Binding a parameter of this Variant type is not supported." ∧
      (bind_all [Variant.NIL] sample_world).2.self.error_message =
        "Insufficient number of parameters to satisfy required bindings in statement." ∧
      (bind_named [] sample_world).2.self.error_message = "Missing named parameter: a" ∧
      (step (fresh sample_engine)).2.self.error_message =
        "Statement is invalid because the associated database connection is no longer available." ∧
      (step (finalize sample_world)).2.self.error_message =
        "Statement was explicitly finalized and can no longer be used." :=
  ⟨by decide,
    (((error_message_sticky (bind 5 Variant.NIL sample_world).2).1 0 Variant.NIL).1
      (by decide)).trans (by decide),
    (((error_message_sticky failing_world).2.2.2.2.2.2 (by decide)).elim
      (fun h => absurd (by decide) h.1)
      (fun h => h.2.2 40 failing_data (by decide) (by decide) (by decide))),
    by decide, by decide, by decide, by decide, by decide, by decide, by decide⟩

/-! ## The mapping of a row -/

theorem check_valid_corruption (s : SQLiteStatement) :
    check_valid s =
        (false, { s with error_message := "Statement is in an invalid internal state." }) →
      corruption_branch s := by
  intro h
  have hm := congrArg (fun r => r.2.error_message) h
  have hb := congrArg (fun r => r.1) h
  simp only [] at hm hb
  unfold check_valid at hm hb
  unfold corruption_branch
  split_ifs at hm hb with h1 h2 h3 h4
  · dsimp only at hm; exact absurd hm (by decide)
  · dsimp only at hm; exact absurd hm (by decide)
  · dsimp only at hm; exact absurd hm (by decide)
  · exact ⟨h1, h2, h3, h4⟩

/-- C17: in every reachable state, status `INITIALIZED` implies that the statement handle
and the connection reference are both non-null; `is_valid` returns true exactly when
the validity check of the guarded operations passes; and the fourth test of the check,
the one for an invalid internal state, is never the one that fires: its path condition
does not hold and the check never returns that diagnosis. -/
theorem initialized_has_both_pointers (w : World) (hr : Reachable w) :
    (w.self.status = StatementStatus.INITIALIZED →
        w.self.stmt ≠ none ∧ w.self.db ≠ none) ∧
      (is_valid w = true ↔ (check_valid w.self).1 = true) ∧
      ¬ corruption_branch w.self ∧
      check_valid w.self ≠
        (false, { w.self with
          error_message := "Statement is in an invalid internal state." }) := by
  have hi := reachable_inv w hr
  have hnc : ¬ corruption_branch w.self := by
    rintro ⟨h1, h2, h3, h4⟩
    cases hs : w.self.status with
    | UNINITIALIZED => exact h3 hs
    | INITIALIZED =>
      rcases h4 with h4 | h4
      · exact h4 hs
      · exact (hi.init_iff.1 hs).1 h4
    | FINALIZED => exact h1 hs
    | CONNECTION_FINALIZED => exact h2 (Or.inl hs)
  refine ⟨hi.init_iff.1, ?_, hnc, fun h => hnc (check_valid_corruption _ h)⟩
  rw [check_valid_true_iff]
  unfold is_valid
  rw [decide_eq_true_eq]
  constructor
  · intro hs
    exact ⟨hs, (hi.init_iff.1 hs).2, (hi.init_iff.1 hs).1⟩
  · intro h
    exact h.1

/-- C17, witness: the sample statement. -/
theorem initialized_has_both_pointers_witness :
    sample_world.self.stmt ≠ none ∧ sample_world.self.db ≠ none :=
  (initialized_has_both_pointers sample_world
    (Reachable.op (Op.init (some 1) (some 10)) _ _ (Reachable.fresh sample_engine) rfl)).1
    (by decide)

theorem well_called_refl (e : Engine) : well_called e e :=
  ⟨[], by simp, by simp⟩

theorem well_called_of_follows {e e2 : Engine} (h : follows e e2) : well_called e e2 :=
  h.2

theorem well_called_release_statement (n : StatementStatus) (w : World) :
    well_called w.eng (release_statement n w).eng := by
  by_cases hs : w.self.stmt = none
  · have : (release_statement n w).eng = w.eng := by
      unfold release_statement
      cases n <;> simp [hs]
    rw [this]
    exact well_called_refl _
  · refine ⟨_, by rw [release_statement_calls n w hs, List.append_assoc], ?_⟩
    intro c hc
    simp only [List.mem_append, List.mem_singleton] at hc
    rcases hc with hc | hc
    · rw [hc]; exact hs
    · split_ifs at hc with hd
      · rw [List.mem_singleton] at hc
        rw [hc]; exact hd.1
      · simp at hc

theorem well_called_apply (o : Op) (w w2 : World) (hinv : Inv w) (h : o.apply w = some w2) :
    well_called w.eng w2.eng := by
  cases o with
  | init p_db p_stmt => cases h; exact well_called_refl _
  | connection_finalized => cases h; exact well_called_release_statement _ w
  | finalize => cases h; exact well_called_release_statement _ w
  | bind i v => cases h; exact well_called_of_follows (follows_bind i v w)
  | bind_all vs => cases h; exact well_called_of_follows (follows_bind_all vs w)
  | bind_named m => cases h; exact well_called_of_follows (follows_bind_named m w)
  | clear_bindings => cases h; exact well_called_of_follows (follows_clear_bindings w)
  | reset => cases h; exact well_called_of_follows (follows_reset w)
  | execute fuel =>
    simp only [Op.apply, Option.map_eq_some'] at h
    obtain ⟨r, hr, rfl⟩ := h
    cases hv : (check_valid w.self).1
    · rw [execute_invalid fuel w hv] at hr
      cases hr
      exact well_called_refl _
    · unfold execute at hr
      simp only [hv, Bool.true_eq_false, if_false] at hr
      exact well_called_of_follows (follows_execute_loop fuel { self := (check_valid w.self).2, eng := w.eng } r hr)
  | step => cases h; exact well_called_of_follows (follows_step w)
  | fetch_all fuel =>
    simp only [Op.apply, Option.map_eq_some'] at h
    obtain ⟨r, hr, rfl⟩ := h
    cases hv : (check_valid w.self).1
    · rw [fetch_all_invalid fuel w hv] at hr
      cases hr
      exact well_called_refl _
    · unfold fetch_all at hr
      simp only [hv, Bool.true_eq_false, if_false] at hr
      exact well_called_of_follows (follows_fetch_all_loop fuel [] { self := (check_valid w.self).2, eng := w.eng } r hr)
  | get_row => cases h; exact well_called_refl _
  | get_column_names =>
    cases h
    unfold get_column_names
    simp only []
    split_ifs
    · exact well_called_of_follows (follows_cache_column_names w)
    · exact well_called_refl _
  | get_parameter_count =>
    cases h
    unfold get_parameter_count
    split_ifs with hs
    · exact well_called_refl _
    · have hs2 : w.self.status = StatementStatus.INITIALIZED := by
        by_contra hne; exact hs hne
      exact well_called_of_follows (follows_param_count _ _ (hinv.init_iff.1 hs2).1)
  | is_valid => cases h; exact well_called_refl _
  | get_status => cases h; exact well_called_refl _
  | get_error_message => cases h; exact well_called_refl _

theorem follows_step_iterate (n : Nat) (w : World) :
    follows w.eng (Nat.iterate (fun x => (step x).2) n w).eng := by
  induction n generalizing w with
  | zero => exact follows_refl _
  | succ k ih =>
    rw [Function.iterate_succ_apply]
    exact follows_trans (follows_step w) (ih _)

/-- C18: in every reachable state and for every operation that returns, every call the
operation makes to the engine has a non-null pointer argument: the statement handle
for the calls that take one, the connection for the error-text call; the same holds
after any number of iterations of the stepping loop of `execute` and `fetch_all`,
whether or not the loop is ever left.  And on a
reachable statement with no handle attached, every operation returns its fail-closed
result and leaves the engine as it is: false for `bind`, `bind_all`, `bind_named`,
`reset` and `execute`, `SQLITE_MISUSE` for `step`, the empty sequence for `fetch_all`,
0 for `get_parameter_count`, the empty list for `get_column_names`, the empty mapping
for `get_row`; `clear_bindings`, `finalize` and `connection_finalized` make no call. -/
theorem engine_never_called_with_null (w : World) (hr : Reachable w) :
    (∀ (o : Op) (w2 : World), o.apply w = some w2 →
        ∀ c ∈ new_calls w.eng w2.eng, c.pointer ≠ none) ∧
      (∀ n, ∀ c ∈ new_calls w.eng (Nat.iterate (fun x => (step x).2) n w).eng,
        c.pointer ≠ none) ∧
      (w.self.stmt = none →
        (∀ i v, (bind i v w).1 = false ∧ (bind i v w).2.eng = w.eng) ∧
        (∀ vs, (bind_all vs w).1 = false ∧ (bind_all vs w).2.eng = w.eng) ∧
        (∀ m, (bind_named m w).1 = false ∧ (bind_named m w).2.eng = w.eng) ∧
        ((reset w).1 = false ∧ (reset w).2.eng = w.eng) ∧
        (∀ fuel, ∃ w2, execute fuel w = some (false, w2) ∧ w2.eng = w.eng) ∧
        ((step w).1 = SQLITE_MISUSE ∧ (step w).2.eng = w.eng) ∧
        (∀ fuel, ∃ w2, fetch_all fuel w = some ([], w2) ∧ w2.eng = w.eng) ∧
        get_parameter_count w = (0, w) ∧
        get_column_names w = ([], w) ∧
        get_row w = [] ∧
        (clear_bindings w).eng = w.eng ∧
        (finalize w).eng = w.eng ∧
        (connection_finalized w).eng = w.eng) := by
  have hi := reachable_inv w hr
  refine ⟨?_, ?_, ?_⟩
  · intro o w2 happ c hc
    obtain ⟨l, hl, hok⟩ := well_called_apply o w w2 hi happ
    rw [new_calls_append _ _ _ hl] at hc
    exact hok c hc
  · intro n c hc
    obtain ⟨l, hl, hok⟩ := well_called_of_follows (follows_step_iterate n w)
    rw [new_calls_append _ _ _ hl] at hc
    exact hok c hc
  · intro hs
    have hv : (check_valid w.self).1 = false := by
      cases hc : (check_valid w.self).1
      · rfl
      · exact absurd hs ((check_valid_true_iff _).1 hc).2.2
    have hst : w.self.status ≠ StatementStatus.INITIALIZED :=
      fun h => (hi.init_iff.1 h).1 hs
    obtain ⟨hcol, hrow⟩ := hi.no_stmt hs
    have hrel : ∀ n, (release_statement n w).eng = w.eng := by
      intro n
      unfold release_statement
      cases n <;> simp [hs]
    refine ⟨?_, ?_, ?_, ?_, ?_, ?_, ?_, ?_, ?_, ?_, ?_, hrel _, hrel _⟩
    · intro i v; rw [bind_invalid i v w hv]; exact ⟨rfl, rfl⟩
    · intro vs; rw [bind_all_invalid vs w hv]; exact ⟨rfl, rfl⟩
    · intro m; rw [bind_named_invalid m w hv]; exact ⟨rfl, rfl⟩
    · rw [reset_invalid w hv]; exact ⟨rfl, rfl⟩
    · intro fuel; exact ⟨_, execute_invalid fuel w hv, rfl⟩
    · rw [step_invalid w hv]; exact ⟨rfl, rfl⟩
    · intro fuel; exact ⟨_, fetch_all_invalid fuel w hv, rfl⟩
    · simp [get_parameter_count, hst]
    · simp [get_column_names, hst, hcol]
    · simp [get_row, hrow]
    · rw [clear_bindings_invalid w hv]

/-- C18, witness: a freshly constructed statement, which has no handle. -/
theorem engine_never_called_with_null_witness :
    (step (fresh sample_engine)).1 = SQLITE_MISUSE ∧
      (step (fresh sample_engine)).2.eng = sample_engine :=
  ((engine_never_called_with_null (fresh sample_engine) (Reachable.fresh sample_engine)).2.2
    (by decide)).2.2.2.2.2.1

end GDSQLite
